import Mathlib

/-!
Priority sets of the QP framework (`include/qpset.h`) and the Cruncher active
object of the Reminder example (`examples/workstation/reminder2/reminder2.c`)

`qpset.h` defines the ready-set `QPSet` as a family of macros, selected at
compile time by `QF_MAX_ACTIVE`:

* `QF_MAX_ACTIVE <= 32`   : one word `QPSetBits bits` (`uint8_t`, `uint16_t` or `uint32_t`),
* `QF_MAX_ACTIVE <= 64`   : `uint32_t bits[2]`,
* `QF_MAX_ACTIVE <= 256`  : `uint32_t bits[8]`,
* otherwise (up to 1024) : `uint32_t bits[32]`.

Each variant is embedded in a namespace of its own (`V32`, `V64`, `V256`,
`V1024`) under the names of the header.  A macro that assigns to the set is a
function returning the new set; a macro that is evaluated for its value is a
function returning that value.  Machine words are natural numbers, with the
reduction modulo `2 ^ w` written out wherever C converts to an unsigned type
of `w` bits.
-/

namespace Qpc

/-! ## Machine arithmetic -/

/-- Conversion of a value to an unsigned integer type of `w` bits, such as the
cast `(QPSetBits)x` or the store into a `uint32_t` object. -/
def castBits (w x : Nat) : Nat := x % 2 ^ w

/-- The C expression `a << k` evaluated in 32 bits: the bits shifted past
position 31 are lost.  The header only writes it as `1 << (n_ - c)`. -/
def shl32 (a k : Nat) : Nat := (a <<< k) % 2 ^ 32

/-- The C expression `~x` evaluated in 32 bits. -/
def not32 (x : Nat) : Nat := 2 ^ 32 - 1 - x % 2 ^ 32

/-- Worker of `QF_LOG2`: counts the binary digits of `x`, at most `fuel` of them. -/
def QF_LOG2.go : Nat → Nat → Nat
  | 0, _ => 0
  | fuel + 1, x => if x = 0 then 0 else go fuel (x / 2) + 1

/-- Modelled from the spec: `QF_LOG2` is only declared in `qpset.h`
(`uint_fast8_t QF_LOG2(QPSetBits x);`), its body is not part of the sources at
hand.  It is the highest-set-bit primitive: the 1-based index of the most
significant set bit of `x`, and `0` for `x = 0`, that is `1 + floor (log2 x)`
for `x > 0` (see `QF_LOG2_eq_log2`). -/
def QF_LOG2 (x : Nat) : Nat := QF_LOG2.go x x

/-! ## The variant for `QF_MAX_ACTIVE <= 32` -/

namespace V32

/-- The set is `typedef struct { QPSetBits volatile bits; } QPSet;`.  The width
`w` of `QPSetBits` (8, 16 or 32) is an argument of the operations that convert
to `QPSetBits`. -/
structure QPSet where
  bits : Nat
  deriving DecidableEq

/-- A set whose word fits the `w` bits of `QPSetBits`. -/
def WF (w : Nat) (me : QPSet) : Prop := me.bits < 2 ^ w

instance (w : Nat) (me : QPSet) : Decidable (WF w me) := by
  unfold WF; infer_instance

/-- Macro `#define QPSet_setEmpty(me_) ((me_)->bits = (QPSetBits)0)`. -/
def QPSet_setEmpty (_me : QPSet) : QPSet := ⟨0⟩

/-- Macro `#define QPSet_isEmpty(me_) ((me_)->bits == (QPSetBits)0)`. -/
def QPSet_isEmpty (me : QPSet) : Bool := me.bits == 0

/-- Macro `#define QPSet_notEmpty(me_) ((me_)->bits != (QPSetBits)0)`. -/
def QPSet_notEmpty (me : QPSet) : Bool := me.bits != 0

/-- Macro `QPSet_hasElement(me_, n_)`:
`(((me_)->bits & ((QPSetBits)1 << ((n_)-(uint_fast8_t)1))) != (QPSetBits)0)`.
The shift is carried out in 32 bits: in `QPSetBits` itself when that is
`uint32_t`, in the promoted `int` otherwise. -/
def QPSet_hasElement (me : QPSet) (n : Nat) : Bool :=
  (me.bits &&& shl32 1 (n - 1)) != 0

/-- Macro `QPSet_insert(me_, n_)`:
`((me_)->bits |= (QPSetBits)((QPSetBits)1 << ((n_) - (uint_fast8_t)1)))`. -/
def QPSet_insert (w : Nat) (me : QPSet) (n : Nat) : QPSet :=
  ⟨castBits w (me.bits ||| castBits w (shl32 1 (n - 1)))⟩

/-- Macro `QPSet_remove(me_, n_)`:
`((me_)->bits &= (QPSetBits)(~((QPSetBits)1 << ((n_) - (uint_fast8_t)1))))`. -/
def QPSet_remove (w : Nat) (me : QPSet) (n : Nat) : QPSet :=
  ⟨castBits w (me.bits &&& castBits w (not32 (shl32 1 (n - 1))))⟩

/-- Macro `#define QPSet_findMax(me_, n_) ((n_) = QF_LOG2((me_)->bits))`: the value
assigned to `n_`.  It is at most 32, which every `uint_fast8_t` holds, so the
assignment does not change it. -/
def QPSet_findMax (me : QPSet) : Nat := QF_LOG2 me.bits

end V32

/-! ## The variant for `QF_MAX_ACTIVE <= 64` -/

namespace V64

/-- The set is `typedef struct { uint32_t volatile bits[2]; } QPSet;`.  `bits i` is the
word `bits[i]` of the array for `i < 2`; an index past the array stands for
the memory that follows it. -/
structure QPSet where
  bits : Nat → Nat

/-- A set whose 2 words are 32-bit values. -/
def WF (me : QPSet) : Prop := ∀ i, i < 2 → me.bits i < 2 ^ 32

instance (me : QPSet) : Decidable (WF me) := by
  unfold WF; infer_instance

/-- The assignment `(me_)->bits[i] = v` to a `uint32_t` word. -/
def QPSet.store (me : QPSet) (i v : Nat) : QPSet :=
  ⟨Function.update me.bits i (castBits 32 v)⟩

/-- Macro `QPSet_setEmpty(me_)`: `(me_)->bits[i] = (uint32_t)0;` for each word in turn. -/
def QPSet_setEmpty (me : QPSet) : QPSet :=
  me
    |>.store 0 0
    |>.store 1 0

/-- Macro `QPSet_isEmpty(me_)`: the chain `(bits[0] == 0) ? (bits[1] == 0) ? ... : 0`.
Both alternatives are written in the header. -/
def QPSet_isEmpty (me : QPSet) : Bool :=
  if me.bits 0 == 0 then
    me.bits 1 == 0
  else false

/-- Macro `QPSet_notEmpty(me_)`: `(bits[0] != 0) ? 1 : (bits[1] != 0) ? 1 : ... : (bits[1] != 0)`. -/
def QPSet_notEmpty (me : QPSet) : Bool :=
  if me.bits 0 != 0 then true
  else me.bits 1 != 0

/-- Macro `QPSet_hasElement(me_, n_)`: `((n_) <= 32) ? ((bits[0] & ((uint32_t)1 << ((n_) - 1))) != 0) : ...`.
The subtraction `(n_) - c` is only evaluated where `c <= n_`. -/
def QPSet_hasElement (me : QPSet) (n : Nat) : Bool :=
  if n ≤ 32 then (me.bits 0 &&& shl32 1 (n - 1)) != 0
  else (me.bits 1 &&& shl32 1 (n - 33)) != 0

/-- Macro `QPSet_insert(me_, n_)`: `if ((n_) <= 32) { bits[0] |= ((uint32_t)1 << ((n_) - 1)); } else if ...`. -/
def QPSet_insert (me : QPSet) (n : Nat) : QPSet :=
  if n ≤ 32 then me.store 0 (me.bits 0 ||| shl32 1 (n - 1))
  else me.store 1 (me.bits 1 ||| shl32 1 (n - 33))

/-- Macro `QPSet_remove(me_, n_)`: `if ((n_) <= 32) { bits[0] &= (uint32_t)(~((uint32_t)1 << ((n_) - 1))); } else if ...`. -/
def QPSet_remove (me : QPSet) (n : Nat) : QPSet :=
  if n ≤ 32 then me.store 0 (me.bits 0 &&& castBits 32 (not32 (shl32 1 (n - 1))))
  else me.store 1 (me.bits 1 &&& castBits 32 (not32 (shl32 1 (n - 33))))

/-- Macro `QPSet_findMax(me_, n_)`: the value assigned to `n_`,
`(bits[1] != 0) ? (QF_LOG2(bits[1]) + 32) : ... : QF_LOG2(bits[0])`.  It is at
most 64, which every `uint_fast8_t` holds, so the assignment does not change
it. -/
def QPSet_findMax (me : QPSet) : Nat :=
  if me.bits 1 != 0 then QF_LOG2 (me.bits 1) + 32
  else QF_LOG2 (me.bits 0)

end V64

/-! ## The variant for `QF_MAX_ACTIVE <= 256` -/

namespace V256

/-- The set is `typedef struct { uint32_t volatile bits[8]; } QPSet;`.  `bits i` is the
word `bits[i]` of the array for `i < 8`; an index past the array stands for
the memory that follows it. -/
structure QPSet where
  bits : Nat → Nat

/-- A set whose 8 words are 32-bit values. -/
def WF (me : QPSet) : Prop := ∀ i, i < 8 → me.bits i < 2 ^ 32

instance (me : QPSet) : Decidable (WF me) := by
  unfold WF; infer_instance

/-- The assignment `(me_)->bits[i] = v` to a `uint32_t` word. -/
def QPSet.store (me : QPSet) (i v : Nat) : QPSet :=
  ⟨Function.update me.bits i (castBits 32 v)⟩

/-- Macro `QPSet_setEmpty(me_)`: `(me_)->bits[i] = (uint32_t)0;` for each word in turn. -/
def QPSet_setEmpty (me : QPSet) : QPSet :=
  me
    |>.store 0 0
    |>.store 1 0
    |>.store 2 0
    |>.store 3 0
    |>.store 4 0
    |>.store 5 0
    |>.store 6 0
    |>.store 7 0

/-- Macro `QPSet_isEmpty(me_)`: the chain `(bits[0] == 0) ? (bits[1] == 0) ? ... : 0`.
The header writes seven `?` and the single alternative `: 0`, so the macro as
written is not a well-formed C expression and a use of it does not compile.
The definition is the macro with the six missing alternatives supplied: every
test is read as guarding the next one, with `0` as the alternative of each,
which is the form the 64-element variant writes in full. -/
def QPSet_isEmpty (me : QPSet) : Bool :=
  if me.bits 0 == 0 then
  if me.bits 1 == 0 then
  if me.bits 2 == 0 then
  if me.bits 3 == 0 then
  if me.bits 4 == 0 then
  if me.bits 5 == 0 then
  if me.bits 6 == 0 then
    me.bits 7 == 0
  else false
  else false
  else false
  else false
  else false
  else false
  else false

/-- Macro `QPSet_notEmpty(me_)`: `(bits[0] != 0) ? 1 : (bits[1] != 0) ? 1 : ... : (bits[7] != 0)`. -/
def QPSet_notEmpty (me : QPSet) : Bool :=
  if me.bits 0 != 0 then true
  else if me.bits 1 != 0 then true
  else if me.bits 2 != 0 then true
  else if me.bits 3 != 0 then true
  else if me.bits 4 != 0 then true
  else if me.bits 5 != 0 then true
  else if me.bits 6 != 0 then true
  else me.bits 7 != 0

/-- Macro `QPSet_hasElement(me_, n_)`: `((n_) <= 32) ? ((bits[0] & ((uint32_t)1 << ((n_) - 1))) != 0) : ...`.
The subtraction `(n_) - c` is only evaluated where `c <= n_`. -/
def QPSet_hasElement (me : QPSet) (n : Nat) : Bool :=
  if n ≤ 32 then (me.bits 0 &&& shl32 1 (n - 1)) != 0
  else if n ≤ 64 then (me.bits 1 &&& shl32 1 (n - 33)) != 0
  else if n ≤ 96 then (me.bits 2 &&& shl32 1 (n - 65)) != 0
  else if n ≤ 128 then (me.bits 3 &&& shl32 1 (n - 97)) != 0
  else if n ≤ 160 then (me.bits 4 &&& shl32 1 (n - 129)) != 0
  else if n ≤ 192 then (me.bits 5 &&& shl32 1 (n - 161)) != 0
  else if n ≤ 224 then (me.bits 6 &&& shl32 1 (n - 193)) != 0
  else (me.bits 7 &&& shl32 1 (n - 225)) != 0

/-- Macro `QPSet_insert(me_, n_)`: `if ((n_) <= 32) { bits[0] |= ((uint32_t)1 << ((n_) - 1)); } else if ...`. -/
def QPSet_insert (me : QPSet) (n : Nat) : QPSet :=
  if n ≤ 32 then me.store 0 (me.bits 0 ||| shl32 1 (n - 1))
  else if n ≤ 64 then me.store 1 (me.bits 1 ||| shl32 1 (n - 33))
  else if n ≤ 96 then me.store 2 (me.bits 2 ||| shl32 1 (n - 65))
  else if n ≤ 128 then me.store 3 (me.bits 3 ||| shl32 1 (n - 97))
  else if n ≤ 160 then me.store 4 (me.bits 4 ||| shl32 1 (n - 129))
  else if n ≤ 192 then me.store 5 (me.bits 5 ||| shl32 1 (n - 161))
  else if n ≤ 224 then me.store 6 (me.bits 6 ||| shl32 1 (n - 193))
  else me.store 7 (me.bits 7 ||| shl32 1 (n - 225))

/-- Macro `QPSet_remove(me_, n_)`: `if ((n_) <= 32) { bits[0] &= (uint32_t)(~((uint32_t)1 << ((n_) - 1))); } else if ...`. -/
def QPSet_remove (me : QPSet) (n : Nat) : QPSet :=
  if n ≤ 32 then me.store 0 (me.bits 0 &&& castBits 32 (not32 (shl32 1 (n - 1))))
  else if n ≤ 64 then me.store 1 (me.bits 1 &&& castBits 32 (not32 (shl32 1 (n - 33))))
  else if n ≤ 96 then me.store 2 (me.bits 2 &&& castBits 32 (not32 (shl32 1 (n - 65))))
  else if n ≤ 128 then me.store 3 (me.bits 3 &&& castBits 32 (not32 (shl32 1 (n - 97))))
  else if n ≤ 160 then me.store 4 (me.bits 4 &&& castBits 32 (not32 (shl32 1 (n - 129))))
  else if n ≤ 192 then me.store 5 (me.bits 5 &&& castBits 32 (not32 (shl32 1 (n - 161))))
  else if n ≤ 224 then me.store 6 (me.bits 6 &&& castBits 32 (not32 (shl32 1 (n - 193))))
  else me.store 7 (me.bits 7 &&& castBits 32 (not32 (shl32 1 (n - 225))))

/-- The right-hand side of the assignment in `QPSet_findMax(me_, n_)`:
`(bits[7] != 0) ? (QF_LOG2(bits[7]) + (uint_fast8_t)224) : ... : QF_LOG2(bits[0])`.
`QF_LOG2` returns at most 32 and the addend is at most 224; the sum is formed
after the integer promotions and does not wrap. -/
def QPSet_findMax.rhs (me : QPSet) : Nat :=
  if me.bits 7 != 0 then QF_LOG2 (me.bits 7) + 224
  else if me.bits 6 != 0 then QF_LOG2 (me.bits 6) + 192
  else if me.bits 5 != 0 then QF_LOG2 (me.bits 5) + 160
  else if me.bits 4 != 0 then QF_LOG2 (me.bits 4) + 128
  else if me.bits 3 != 0 then QF_LOG2 (me.bits 3) + 96
  else if me.bits 2 != 0 then QF_LOG2 (me.bits 2) + 64
  else if me.bits 1 != 0 then QF_LOG2 (me.bits 1) + 32
  else QF_LOG2 (me.bits 0)

/-- Macro `QPSet_findMax(me_, n_)`: `((n_) = ...)`, the value that `n_` holds
after the assignment.  This variant is typed `uint_fast8_t` throughout (every
cast in its macros is to that type), so the `n_` it is written for is an
object of that type; `nbits` is the width of `n_` on the target, 8 where
`uint_fast8_t` is `unsigned char` and 32 where it is `unsigned int`.  The
assignment converts the right-hand side to `nbits` bits. -/
def QPSet_findMax (nbits : Nat) (me : QPSet) : Nat :=
  castBits nbits (QPSet_findMax.rhs me)

end V256

/-! ## The variant for `QF_MAX_ACTIVE > 256` -/

namespace V1024

/-- The set is `typedef struct { uint32_t volatile bits[32]; } QPSet;`.  `bits i` is the
word `bits[i]` of the array for `i < 32`; an index past the array stands for
the memory that follows it. -/
structure QPSet where
  bits : Nat → Nat

/-- A set whose 32 words are 32-bit values. -/
def WF (me : QPSet) : Prop := ∀ i, i < 32 → me.bits i < 2 ^ 32

instance (me : QPSet) : Decidable (WF me) := by
  unfold WF; infer_instance

/-- The assignment `(me_)->bits[i] = v` to a `uint32_t` word. -/
def QPSet.store (me : QPSet) (i v : Nat) : QPSet :=
  ⟨Function.update me.bits i (castBits 32 v)⟩

/-- Macro `QPSet_setEmpty(me_)`: `(me_)->bits[i] = (uint32_t)0;` for each word in turn. -/
def QPSet_setEmpty (me : QPSet) : QPSet :=
  me
    |>.store 0 0
    |>.store 1 0
    |>.store 2 0
    |>.store 3 0
    |>.store 4 0
    |>.store 5 0
    |>.store 6 0
    |>.store 7 0
    |>.store 8 0
    |>.store 9 0
    |>.store 10 0
    |>.store 11 0
    |>.store 12 0
    |>.store 13 0
    |>.store 14 0
    |>.store 15 0
    |>.store 16 0
    |>.store 17 0
    |>.store 18 0
    |>.store 19 0
    |>.store 20 0
    |>.store 21 0
    |>.store 22 0
    |>.store 23 0
    |>.store 24 0
    |>.store 25 0
    |>.store 26 0
    |>.store 27 0
    |>.store 28 0
    |>.store 29 0
    |>.store 30 0
    |>.store 31 0

/-- Macro `QPSet_isEmpty(me_)`: the chain `(bits[0] == 0) ? (bits[1] == 0) ? ... : 0`.
The header writes 31 `?` and the single alternative `: 0`, so the macro as
written is not a well-formed C expression and a use of it does not compile.
The definition is the macro with the thirty missing alternatives supplied, as
in the 256-element variant, and with the tests exactly as the header lists
them: `bits[0]` to `bits[6]` and `bits[8]` to `bits[32]`; `bits[7]` is not
among them and `bits[32]` lies past the array. -/
def QPSet_isEmpty (me : QPSet) : Bool :=
  if me.bits 0 == 0 then
  if me.bits 1 == 0 then
  if me.bits 2 == 0 then
  if me.bits 3 == 0 then
  if me.bits 4 == 0 then
  if me.bits 5 == 0 then
  if me.bits 6 == 0 then
  if me.bits 8 == 0 then
  if me.bits 9 == 0 then
  if me.bits 10 == 0 then
  if me.bits 11 == 0 then
  if me.bits 12 == 0 then
  if me.bits 13 == 0 then
  if me.bits 14 == 0 then
  if me.bits 15 == 0 then
  if me.bits 16 == 0 then
  if me.bits 17 == 0 then
  if me.bits 18 == 0 then
  if me.bits 19 == 0 then
  if me.bits 20 == 0 then
  if me.bits 21 == 0 then
  if me.bits 22 == 0 then
  if me.bits 23 == 0 then
  if me.bits 24 == 0 then
  if me.bits 25 == 0 then
  if me.bits 26 == 0 then
  if me.bits 27 == 0 then
  if me.bits 28 == 0 then
  if me.bits 29 == 0 then
  if me.bits 30 == 0 then
  if me.bits 31 == 0 then
    me.bits 32 == 0
  else false
  else false
  else false
  else false
  else false
  else false
  else false
  else false
  else false
  else false
  else false
  else false
  else false
  else false
  else false
  else false
  else false
  else false
  else false
  else false
  else false
  else false
  else false
  else false
  else false
  else false
  else false
  else false
  else false
  else false
  else false

/-- Macro `QPSet_notEmpty(me_)`: `(bits[0] != 0) ? 1 : (bits[1] != 0) ? 1 : ... : (bits[31] != 0)`. -/
def QPSet_notEmpty (me : QPSet) : Bool :=
  if me.bits 0 != 0 then true
  else if me.bits 1 != 0 then true
  else if me.bits 2 != 0 then true
  else if me.bits 3 != 0 then true
  else if me.bits 4 != 0 then true
  else if me.bits 5 != 0 then true
  else if me.bits 6 != 0 then true
  else if me.bits 7 != 0 then true
  else if me.bits 8 != 0 then true
  else if me.bits 9 != 0 then true
  else if me.bits 10 != 0 then true
  else if me.bits 11 != 0 then true
  else if me.bits 12 != 0 then true
  else if me.bits 13 != 0 then true
  else if me.bits 14 != 0 then true
  else if me.bits 15 != 0 then true
  else if me.bits 16 != 0 then true
  else if me.bits 17 != 0 then true
  else if me.bits 18 != 0 then true
  else if me.bits 19 != 0 then true
  else if me.bits 20 != 0 then true
  else if me.bits 21 != 0 then true
  else if me.bits 22 != 0 then true
  else if me.bits 23 != 0 then true
  else if me.bits 24 != 0 then true
  else if me.bits 25 != 0 then true
  else if me.bits 26 != 0 then true
  else if me.bits 27 != 0 then true
  else if me.bits 28 != 0 then true
  else if me.bits 29 != 0 then true
  else if me.bits 30 != 0 then true
  else me.bits 31 != 0

/-- Macro `QPSet_hasElement(me_, n_)`: `((n_) <= 32) ? ((bits[0] & ((uint32_t)1 << ((n_) - 1))) != 0) : ...`.
The subtraction `(n_) - c` is only evaluated where `c <= n_`. -/
def QPSet_hasElement (me : QPSet) (n : Nat) : Bool :=
  if n ≤ 32 then (me.bits 0 &&& shl32 1 (n - 1)) != 0
  else if n ≤ 64 then (me.bits 1 &&& shl32 1 (n - 33)) != 0
  else if n ≤ 96 then (me.bits 2 &&& shl32 1 (n - 65)) != 0
  else if n ≤ 128 then (me.bits 3 &&& shl32 1 (n - 97)) != 0
  else if n ≤ 160 then (me.bits 4 &&& shl32 1 (n - 129)) != 0
  else if n ≤ 192 then (me.bits 5 &&& shl32 1 (n - 161)) != 0
  else if n ≤ 224 then (me.bits 6 &&& shl32 1 (n - 193)) != 0
  else if n ≤ 256 then (me.bits 7 &&& shl32 1 (n - 225)) != 0
  else if n ≤ 288 then (me.bits 8 &&& shl32 1 (n - 257)) != 0
  else if n ≤ 320 then (me.bits 9 &&& shl32 1 (n - 289)) != 0
  else if n ≤ 352 then (me.bits 10 &&& shl32 1 (n - 321)) != 0
  else if n ≤ 384 then (me.bits 11 &&& shl32 1 (n - 353)) != 0
  else if n ≤ 416 then (me.bits 12 &&& shl32 1 (n - 385)) != 0
  else if n ≤ 448 then (me.bits 13 &&& shl32 1 (n - 417)) != 0
  else if n ≤ 480 then (me.bits 14 &&& shl32 1 (n - 449)) != 0
  else if n ≤ 512 then (me.bits 15 &&& shl32 1 (n - 481)) != 0
  else if n ≤ 544 then (me.bits 16 &&& shl32 1 (n - 513)) != 0
  else if n ≤ 576 then (me.bits 17 &&& shl32 1 (n - 545)) != 0
  else if n ≤ 608 then (me.bits 18 &&& shl32 1 (n - 577)) != 0
  else if n ≤ 640 then (me.bits 19 &&& shl32 1 (n - 609)) != 0
  else if n ≤ 672 then (me.bits 20 &&& shl32 1 (n - 641)) != 0
  else if n ≤ 704 then (me.bits 21 &&& shl32 1 (n - 673)) != 0
  else if n ≤ 736 then (me.bits 22 &&& shl32 1 (n - 705)) != 0
  else if n ≤ 768 then (me.bits 23 &&& shl32 1 (n - 737)) != 0
  else if n ≤ 800 then (me.bits 24 &&& shl32 1 (n - 769)) != 0
  else if n ≤ 832 then (me.bits 25 &&& shl32 1 (n - 801)) != 0
  else if n ≤ 864 then (me.bits 26 &&& shl32 1 (n - 833)) != 0
  else if n ≤ 896 then (me.bits 27 &&& shl32 1 (n - 865)) != 0
  else if n ≤ 928 then (me.bits 28 &&& shl32 1 (n - 897)) != 0
  else if n ≤ 960 then (me.bits 29 &&& shl32 1 (n - 929)) != 0
  else if n ≤ 992 then (me.bits 30 &&& shl32 1 (n - 961)) != 0
  else (me.bits 31 &&& shl32 1 (n - 993)) != 0

/-- Macro `QPSet_insert(me_, n_)`: `if ((n_) <= 32) { bits[0] |= ((uint32_t)1 << ((n_) - 1)); } else if ...`. -/
def QPSet_insert (me : QPSet) (n : Nat) : QPSet :=
  if n ≤ 32 then me.store 0 (me.bits 0 ||| shl32 1 (n - 1))
  else if n ≤ 64 then me.store 1 (me.bits 1 ||| shl32 1 (n - 33))
  else if n ≤ 96 then me.store 2 (me.bits 2 ||| shl32 1 (n - 65))
  else if n ≤ 128 then me.store 3 (me.bits 3 ||| shl32 1 (n - 97))
  else if n ≤ 160 then me.store 4 (me.bits 4 ||| shl32 1 (n - 129))
  else if n ≤ 192 then me.store 5 (me.bits 5 ||| shl32 1 (n - 161))
  else if n ≤ 224 then me.store 6 (me.bits 6 ||| shl32 1 (n - 193))
  else if n ≤ 256 then me.store 7 (me.bits 7 ||| shl32 1 (n - 225))
  else if n ≤ 288 then me.store 8 (me.bits 8 ||| shl32 1 (n - 257))
  else if n ≤ 320 then me.store 9 (me.bits 9 ||| shl32 1 (n - 289))
  else if n ≤ 352 then me.store 10 (me.bits 10 ||| shl32 1 (n - 321))
  else if n ≤ 384 then me.store 11 (me.bits 11 ||| shl32 1 (n - 353))
  else if n ≤ 416 then me.store 12 (me.bits 12 ||| shl32 1 (n - 385))
  else if n ≤ 448 then me.store 13 (me.bits 13 ||| shl32 1 (n - 417))
  else if n ≤ 480 then me.store 14 (me.bits 14 ||| shl32 1 (n - 449))
  else if n ≤ 512 then me.store 15 (me.bits 15 ||| shl32 1 (n - 481))
  else if n ≤ 544 then me.store 16 (me.bits 16 ||| shl32 1 (n - 513))
  else if n ≤ 576 then me.store 17 (me.bits 17 ||| shl32 1 (n - 545))
  else if n ≤ 608 then me.store 18 (me.bits 18 ||| shl32 1 (n - 577))
  else if n ≤ 640 then me.store 19 (me.bits 19 ||| shl32 1 (n - 609))
  else if n ≤ 672 then me.store 20 (me.bits 20 ||| shl32 1 (n - 641))
  else if n ≤ 704 then me.store 21 (me.bits 21 ||| shl32 1 (n - 673))
  else if n ≤ 736 then me.store 22 (me.bits 22 ||| shl32 1 (n - 705))
  else if n ≤ 768 then me.store 23 (me.bits 23 ||| shl32 1 (n - 737))
  else if n ≤ 800 then me.store 24 (me.bits 24 ||| shl32 1 (n - 769))
  else if n ≤ 832 then me.store 25 (me.bits 25 ||| shl32 1 (n - 801))
  else if n ≤ 864 then me.store 26 (me.bits 26 ||| shl32 1 (n - 833))
  else if n ≤ 896 then me.store 27 (me.bits 27 ||| shl32 1 (n - 865))
  else if n ≤ 928 then me.store 28 (me.bits 28 ||| shl32 1 (n - 897))
  else if n ≤ 960 then me.store 29 (me.bits 29 ||| shl32 1 (n - 929))
  else if n ≤ 992 then me.store 30 (me.bits 30 ||| shl32 1 (n - 961))
  else me.store 31 (me.bits 31 ||| shl32 1 (n - 993))

/-- Macro `QPSet_remove(me_, n_)`: `if ((n_) <= 32) { bits[0] &= (uint32_t)(~((uint32_t)1 << ((n_) - 1))); } else if ...`. -/
def QPSet_remove (me : QPSet) (n : Nat) : QPSet :=
  if n ≤ 32 then me.store 0 (me.bits 0 &&& castBits 32 (not32 (shl32 1 (n - 1))))
  else if n ≤ 64 then me.store 1 (me.bits 1 &&& castBits 32 (not32 (shl32 1 (n - 33))))
  else if n ≤ 96 then me.store 2 (me.bits 2 &&& castBits 32 (not32 (shl32 1 (n - 65))))
  else if n ≤ 128 then me.store 3 (me.bits 3 &&& castBits 32 (not32 (shl32 1 (n - 97))))
  else if n ≤ 160 then me.store 4 (me.bits 4 &&& castBits 32 (not32 (shl32 1 (n - 129))))
  else if n ≤ 192 then me.store 5 (me.bits 5 &&& castBits 32 (not32 (shl32 1 (n - 161))))
  else if n ≤ 224 then me.store 6 (me.bits 6 &&& castBits 32 (not32 (shl32 1 (n - 193))))
  else if n ≤ 256 then me.store 7 (me.bits 7 &&& castBits 32 (not32 (shl32 1 (n - 225))))
  else if n ≤ 288 then me.store 8 (me.bits 8 &&& castBits 32 (not32 (shl32 1 (n - 257))))
  else if n ≤ 320 then me.store 9 (me.bits 9 &&& castBits 32 (not32 (shl32 1 (n - 289))))
  else if n ≤ 352 then me.store 10 (me.bits 10 &&& castBits 32 (not32 (shl32 1 (n - 321))))
  else if n ≤ 384 then me.store 11 (me.bits 11 &&& castBits 32 (not32 (shl32 1 (n - 353))))
  else if n ≤ 416 then me.store 12 (me.bits 12 &&& castBits 32 (not32 (shl32 1 (n - 385))))
  else if n ≤ 448 then me.store 13 (me.bits 13 &&& castBits 32 (not32 (shl32 1 (n - 417))))
  else if n ≤ 480 then me.store 14 (me.bits 14 &&& castBits 32 (not32 (shl32 1 (n - 449))))
  else if n ≤ 512 then me.store 15 (me.bits 15 &&& castBits 32 (not32 (shl32 1 (n - 481))))
  else if n ≤ 544 then me.store 16 (me.bits 16 &&& castBits 32 (not32 (shl32 1 (n - 513))))
  else if n ≤ 576 then me.store 17 (me.bits 17 &&& castBits 32 (not32 (shl32 1 (n - 545))))
  else if n ≤ 608 then me.store 18 (me.bits 18 &&& castBits 32 (not32 (shl32 1 (n - 577))))
  else if n ≤ 640 then me.store 19 (me.bits 19 &&& castBits 32 (not32 (shl32 1 (n - 609))))
  else if n ≤ 672 then me.store 20 (me.bits 20 &&& castBits 32 (not32 (shl32 1 (n - 641))))
  else if n ≤ 704 then me.store 21 (me.bits 21 &&& castBits 32 (not32 (shl32 1 (n - 673))))
  else if n ≤ 736 then me.store 22 (me.bits 22 &&& castBits 32 (not32 (shl32 1 (n - 705))))
  else if n ≤ 768 then me.store 23 (me.bits 23 &&& castBits 32 (not32 (shl32 1 (n - 737))))
  else if n ≤ 800 then me.store 24 (me.bits 24 &&& castBits 32 (not32 (shl32 1 (n - 769))))
  else if n ≤ 832 then me.store 25 (me.bits 25 &&& castBits 32 (not32 (shl32 1 (n - 801))))
  else if n ≤ 864 then me.store 26 (me.bits 26 &&& castBits 32 (not32 (shl32 1 (n - 833))))
  else if n ≤ 896 then me.store 27 (me.bits 27 &&& castBits 32 (not32 (shl32 1 (n - 865))))
  else if n ≤ 928 then me.store 28 (me.bits 28 &&& castBits 32 (not32 (shl32 1 (n - 897))))
  else if n ≤ 960 then me.store 29 (me.bits 29 &&& castBits 32 (not32 (shl32 1 (n - 929))))
  else if n ≤ 992 then me.store 30 (me.bits 30 &&& castBits 32 (not32 (shl32 1 (n - 961))))
  else me.store 31 (me.bits 31 &&& castBits 32 (not32 (shl32 1 (n - 993))))

/-- Macro `QPSet_findMax(me_, n_)`: the value assigned to `n_`,
`(bits[31] != 0) ? (QF_LOG2(bits[31]) + 992) : ... : QF_LOG2(bits[0])`.  This
variant is typed `uint_fast16_t`; the value is at most 1024, which every
`uint_fast16_t` holds, so the assignment does not change it. -/
def QPSet_findMax (me : QPSet) : Nat :=
  if me.bits 31 != 0 then QF_LOG2 (me.bits 31) + 992
  else if me.bits 30 != 0 then QF_LOG2 (me.bits 30) + 960
  else if me.bits 29 != 0 then QF_LOG2 (me.bits 29) + 928
  else if me.bits 28 != 0 then QF_LOG2 (me.bits 28) + 896
  else if me.bits 27 != 0 then QF_LOG2 (me.bits 27) + 864
  else if me.bits 26 != 0 then QF_LOG2 (me.bits 26) + 832
  else if me.bits 25 != 0 then QF_LOG2 (me.bits 25) + 800
  else if me.bits 24 != 0 then QF_LOG2 (me.bits 24) + 768
  else if me.bits 23 != 0 then QF_LOG2 (me.bits 23) + 736
  else if me.bits 22 != 0 then QF_LOG2 (me.bits 22) + 704
  else if me.bits 21 != 0 then QF_LOG2 (me.bits 21) + 672
  else if me.bits 20 != 0 then QF_LOG2 (me.bits 20) + 640
  else if me.bits 19 != 0 then QF_LOG2 (me.bits 19) + 608
  else if me.bits 18 != 0 then QF_LOG2 (me.bits 18) + 576
  else if me.bits 17 != 0 then QF_LOG2 (me.bits 17) + 544
  else if me.bits 16 != 0 then QF_LOG2 (me.bits 16) + 512
  else if me.bits 15 != 0 then QF_LOG2 (me.bits 15) + 480
  else if me.bits 14 != 0 then QF_LOG2 (me.bits 14) + 448
  else if me.bits 13 != 0 then QF_LOG2 (me.bits 13) + 416
  else if me.bits 12 != 0 then QF_LOG2 (me.bits 12) + 384
  else if me.bits 11 != 0 then QF_LOG2 (me.bits 11) + 352
  else if me.bits 10 != 0 then QF_LOG2 (me.bits 10) + 320
  else if me.bits 9 != 0 then QF_LOG2 (me.bits 9) + 288
  else if me.bits 8 != 0 then QF_LOG2 (me.bits 8) + 256
  else if me.bits 7 != 0 then QF_LOG2 (me.bits 7) + 224
  else if me.bits 6 != 0 then QF_LOG2 (me.bits 6) + 192
  else if me.bits 5 != 0 then QF_LOG2 (me.bits 5) + 160
  else if me.bits 4 != 0 then QF_LOG2 (me.bits 4) + 128
  else if me.bits 3 != 0 then QF_LOG2 (me.bits 3) + 96
  else if me.bits 2 != 0 then QF_LOG2 (me.bits 2) + 64
  else if me.bits 1 != 0 then QF_LOG2 (me.bits 1) + 32
  else QF_LOG2 (me.bits 0)

end V1024


/-! ## Word arrays: element `n` lives in bit `(n - 1) % 32` of word `(n - 1) / 32`

The three array variants spell out, branch by branch, one and the same
addressing scheme.  It is stated once here, on the bare array, and each
variant is related to it further down. -/

namespace Words

/-- Test of element `n` in the array `f`. -/
def has (f : Nat → Nat) (n : Nat) : Bool := (f ((n - 1) / 32)).testBit ((n - 1) % 32)

/-- Setting the bit of element `n` in the array `f`. -/
def ins (f : Nat → Nat) (n : Nat) : Nat → Nat :=
  Function.update f ((n - 1) / 32)
    (castBits 32 (f ((n - 1) / 32) ||| shl32 1 ((n - 1) % 32)))

/-- Clearing the bit of element `n` in the array `f`. -/
def rem (f : Nat → Nat) (n : Nat) : Nat → Nat :=
  Function.update f ((n - 1) / 32)
    (castBits 32 (f ((n - 1) / 32) &&& castBits 32 (not32 (shl32 1 ((n - 1) % 32)))))

/-- Search of the highest non-zero word among the first `W` ones. -/
def max : Nat → (Nat → Nat) → Nat
  | 0, _ => 0
  | W + 1, f => if f W != 0 then QF_LOG2 (f W) + 32 * W else max W f

/-- The first `W` words are 32-bit values. -/
def WF (W : Nat) (f : Nat → Nat) : Prop := ∀ i, i < W → f i < 2 ^ 32

end Words

/-! ## What every variant provides -/

/-- The facts about one variant from which the properties of the ready-set
follow: `N` is its capacity, `wf` its well-formed states. -/
structure Sound {S : Type} (N : Nat) (wf : S → Prop) (has : S → Nat → Bool)
    (ins rem : S → Nat → S) (fmax : S → Nat) : Prop where
  has_ins : ∀ s n m, 1 ≤ n → n ≤ N → 1 ≤ m → m ≤ N →
    has (ins s n) m = (decide (m = n) || has s m)
  has_rem : ∀ s n m, 1 ≤ n → n ≤ N → 1 ≤ m → m ≤ N →
    has (rem s n) m = (!decide (m = n) && has s m)
  wf_ins : ∀ s n, 1 ≤ n → n ≤ N → wf s → wf (ins s n)
  wf_rem : ∀ s n, 1 ≤ n → n ≤ N → wf s → wf (rem s n)
  max_zero : ∀ s, wf s → (fmax s = 0 ↔ ∀ n, 1 ≤ n → n ≤ N → has s n = false)
  max_has : ∀ s, wf s → fmax s ≠ 0 → 1 ≤ fmax s ∧ fmax s ≤ N ∧ has s (fmax s) = true
  max_ge : ∀ s, wf s → ∀ n, 1 ≤ n → n ≤ N → has s n = true → n ≤ fmax s


/-! ## Statements about a ready-set

The properties below are stated once, for any type of states `S` with its
capacity `N`, membership test `has`, and operations, and then instantiated
with the macros of each variant. -/

/-- The value `fmax s` is what "the maximum element of the set, zero if the set
is empty" asks for: zero exactly when no `n` in `1..N` is an element, and
otherwise an element in `1..N` that no element exceeds. -/
def FindMaxCorrect {S : Type} (N : Nat) (has : S → Nat → Bool) (fmax : S → Nat) (s : S) :
    Prop :=
  (fmax s = 0 ↔ ∀ n, 1 ≤ n → n ≤ N → has s n = false) ∧
  (fmax s ≠ 0 →
    (1 ≤ fmax s ∧ fmax s ≤ N) ∧ has s (fmax s) = true ∧
      ∀ n, 1 ≤ n → n ≤ N → has s n = true → n ≤ fmax s)

/-- Number of elements of the set: the `n` in `1..N` that `has` reports. -/
def card {S : Type} (N : Nat) (has : S → Nat → Bool) (s : S) : Nat :=
  (List.range' 1 N).countP (fun n => has s n)

/-- The loop `do { findMax(me, m); remove(me, m); } while (findMax(me) != 0)`
run for at most `fuel` rounds: the values removed, in the order of their
removal, and the set that is left; `none` when `fuel` rounds do not reach a
set on which `findMax` yields 0. -/
def removeMaxLoop {S : Type} (fmax : S → Nat) (rem : S → Nat → S) :
    Nat → S → Option (List Nat × S)
  | 0, _ => none
  | fuel + 1, s =>
    let m := fmax s
    let s1 := rem s m
    if fmax s1 = 0 then some ([m], s1)
    else (removeMaxLoop fmax rem fuel s1).map (fun r => (m :: r.1, r.2))

/-- The loop `removeMaxLoop` started on `s` ends within any number of rounds
that is at least the number `k` of elements of `s`; it removes exactly `k`
values, in strictly descending order, these values are exactly the elements
of `s`, and no element is left. -/
def DrainsDescending {S : Type} (N : Nat) (has : S → Nat → Bool) (fmax : S → Nat)
    (rem : S → Nat → S) (s : S) : Prop :=
  ∀ fuel, card N has s ≤ fuel →
    ∃ removed final, removeMaxLoop fmax rem fuel s = some (removed, final) ∧
      removed.length = card N has s ∧
      removed.Pairwise (fun a b => b < a) ∧
      (∀ n, n ∈ removed ↔ (1 ≤ n ∧ n ≤ N) ∧ has s n = true) ∧
      (∀ n, 1 ≤ n → n ≤ N → has final n = false)

/-- The array `new` differs from `old` at most in the bit of element `n`:
every word other than word `(n - 1) / 32` is the same, and in that word every
bit other than bit `(n - 1) % 32` is the same. -/
def SameExceptBit (n : Nat) (old new : Nat → Nat) : Prop :=
  (∀ i, i ≠ (n - 1) / 32 → new i = old i) ∧
  (∀ j, j ≠ (n - 1) % 32 →
    (new ((n - 1) / 32)).testBit j = (old ((n - 1) / 32)).testBit j)

/-- Insertion of `n` followed by its removal: the result is the state that the
removal alone yields, and that state is `s` itself exactly when `n` was not
an element of `s`. -/
def InsertThenRemove {S : Type} (has : S → Nat → Bool) (ins rem : S → Nat → S)
    (s : S) (n : Nat) : Prop :=
  rem (ins s n) n = rem s n ∧ (rem (ins s n) n = s ↔ has s n = false)

/-- The operations on the elements `n` and `m` commute on the state `s`:
insertion of `n` with removal of `m`, the two insertions, the two removals. -/
def OperationsCommute {S : Type} (ins rem : S → Nat → S) (s : S) (n m : Nat) : Prop :=
  rem (ins s n) m = ins (rem s m) n ∧
  ins (ins s n) m = ins (ins s m) n ∧
  rem (rem s n) m = rem (rem s m) n

/-! ## Sample states -/

/-- The single-word set with the elements 1 and 3. -/
def V32.sample : V32.QPSet := ⟨5⟩

/-- The 64-element set with the elements 3 and 40. -/
def V64.sample : V64.QPSet := ⟨fun i => if i = 0 then 4 else if i = 1 then 128 else 0⟩

/-- The 256-element set with the elements 3 and 256. -/
def V256.sample : V256.QPSet := ⟨fun i => if i = 0 then 4 else if i = 7 then 2 ^ 31 else 0⟩

/-- The 1024-element set with the elements 3 and 1024. -/
def V1024.sample : V1024.QPSet := ⟨fun i => if i = 0 then 4 else if i = 31 then 2 ^ 31 else 0⟩

/-- The empty set of each array variant, with zero in the memory after the array. -/
def V64.empty : V64.QPSet := ⟨fun _ => 0⟩

/-- The empty 256-element set. -/
def V256.empty : V256.QPSet := ⟨fun _ => 0⟩

/-- The empty 1024-element set, with zero in the memory after the array. -/
def V1024.empty : V1024.QPSet := ⟨fun _ => 0⟩

/-- The 1024-element set whose only element is 225, bit 0 of `bits[7]`, with
zero in the memory after the array. -/
def V1024.only225 : V1024.QPSet := ⟨fun i => if i = 7 then 1 else 0⟩

/-- The empty 1024-element set followed in memory by a non-zero word. -/
def V1024.emptyBeforeNonZero : V1024.QPSet := ⟨fun i => if i = 32 then 1 else 0⟩

/-! ## The Cruncher active object (`examples/workstation/reminder2/reminder2.c`)

The state handlers of `Cruncher` are embedded as functions from the object and
the event to the returned `QState`, the object after the call and the list of
the calls made to the framework and to the console, in the order of the calls.
The member `double sum` is a rational number: the arithmetic on it is exact.
-/

/-- Modelled from the spec: the signals of the framework, declared in `qep.h`,
which is not among the sources.  The lifecycle signals "entry", "exit" and
"initial" are reserved by the framework and lie below `Q_USER_SIG`;
`user k` is the signal `Q_USER_SIG + k` of the application. -/
inductive QSignal where
  | Q_EMPTY_SIG
  | Q_ENTRY_SIG
  | Q_EXIT_SIG
  | Q_INIT_SIG
  | user (k : Nat)
  deriving DecidableEq, Repr

/-- First enumerator of `enum ReminderSignals`: `CRUNCH_SIG = Q_USER_SIG`. -/
def CRUNCH_SIG : QSignal := QSignal.user 0

/-- Second enumerator of `enum ReminderSignals`. -/
def ECHO_SIG : QSignal := QSignal.user 1

/-- Third enumerator of `enum ReminderSignals`. -/
def TERMINATE_SIG : QSignal := QSignal.user 2

/-- Modelled from the spec: the event base class `QEvt` of `qep.h`, with the
three members that the static initialisers `{ ECHO_SIG, 0U, 0U }` of
`BSP_onKeyboardInput` fill in: the signal, the pool the event comes from
(0 for a static event) and the reference count. -/
structure QEvt where
  sig : QSignal
  poolId_ : Nat
  refCtr_ : Nat
  deriving DecidableEq, Repr

/-- The event `typedef struct { QEvt super; uint32_t iter; } ReminderEvt;`.
A handler receives a `QEvt const *`; `iter` is what
`Q_EVT_CAST(ReminderEvt)->iter` reads. -/
structure ReminderEvt where
  super : QEvt
  iter : Nat
  deriving DecidableEq, Repr

/-- The object `typedef struct { QActive super; double sum; } Cruncher;`.  The
base object `super` is only handed to the framework and is left out. -/
structure Cruncher where
  sum : ℚ
  deriving DecidableEq

/-- The state-handler functions a `QState` can name. -/
inductive StateFn where
  | Cruncher_processing
  | Cruncher_final
  | QHsm_top
  deriving DecidableEq, Repr

/-- The value a state handler returns: `Q_HANDLED()`, `Q_TRAN(target)` or
`Q_SUPER(superstate)`; `Q_IGNORED` is what the top state returns. -/
inductive QState where
  | Q_HANDLED
  | Q_TRAN (target : StateFn)
  | Q_SUPER (superstate : StateFn)
  | Q_IGNORED
  deriving DecidableEq, Repr

/-- The active object an event is posted to: `&me->super` in a state handler,
`(QActive *)&l_cruncher` in the test harness. -/
inductive ActorRef where
  | me
  | l_cruncher
  deriving DecidableEq, Repr

/-- The event handed to `QACTIVE_POST`: the `ReminderEvt` that the preceding
`Q_NEW` returned, with the signal given to `Q_NEW` and the `iter` stored into
it, or the address of a `static QEvt const`. -/
inductive EvtRef where
  | allocated (sig : QSignal) (iter : Nat)
  | static (e : QEvt)
  deriving DecidableEq, Repr

/-- The argument printed by `PRINTF_S` after the format string. -/
inductive PrintArg where
  | num (x : ℚ)
  | str (s : String)
  deriving DecidableEq

/-- The calls a handler makes: `Q_NEW(ReminderEvt, sig)`,
`QACTIVE_POST(target, e, sender)`, `PRINTF_S(fmt, arg)` and `QF_stop()`. -/
inductive Action where
  | Q_NEW (sig : QSignal)
  | QACTIVE_POST (target : ActorRef) (e : EvtRef)
  | PRINTF_S (fmt : String) (arg : PrintArg)
  | QF_stop
  deriving DecidableEq

/-- What a call of a state handler produces: the returned `status_`, the
object `*me` after the call and the calls made, in their order. -/
structure Result where
  status : QState
  me : Cruncher
  trace : List Action
  deriving DecidableEq

/-- The body of the loop in the `CRUNCH_SIG` case:
`if ((n & 1) == 0) me->sum += 1.0/(2*n + 1); else me->sum -= 1.0/(2*n + 1);`
where `2*n + 1` is computed in `uint32_t`. -/
def Cruncher_processing.body (n : Nat) (sum : ℚ) : ℚ :=
  if n &&& 1 = 0 then sum + 1 / (((2 * n + 1) % 2 ^ 32 : Nat) : ℚ)
  else sum - 1 / (((2 * n + 1) % 2 ^ 32 : Nat) : ℚ)

/-- The loop `for (; n < i; ++n) { ... }` of the `CRUNCH_SIG` case: the value
of `me->sum` when the loop is left.  As `n < i` holds before `++n`, the
increment does not wrap. -/
def Cruncher_processing.loop (n i : Nat) (sum : ℚ) : ℚ :=
  if n < i then Cruncher_processing.loop (n + 1) i (Cruncher_processing.body n sum)
  else sum
termination_by i - n

/-- The initial pseudostate `Cruncher_initial`: `return Q_TRAN(&Cruncher_processing);`.
The two `QS_FUN_DICTIONARY` lines belong to the software tracing and are left out. -/
def Cruncher_initial (_me : Cruncher) : QState :=
  QState.Q_TRAN StateFn.Cruncher_processing

/-- The state handler `Cruncher_processing`: the `switch (e->sig)` with the
cases `Q_ENTRY_SIG`, `CRUNCH_SIG`, `ECHO_SIG`, `TERMINATE_SIG` and `default`.
In the `CRUNCH_SIG` case `i` is `iter + 100U` in `uint32_t`. -/
def Cruncher_processing (me : Cruncher) (e : ReminderEvt) : Result :=
  if e.super.sig = QSignal.Q_ENTRY_SIG then
    { status := QState.Q_HANDLED
      me := { me with sum := 0 }
      trace := [Action.Q_NEW CRUNCH_SIG,
                Action.QACTIVE_POST ActorRef.me (EvtRef.allocated CRUNCH_SIG 0)] }
  else if e.super.sig = CRUNCH_SIG then
    let i := (e.iter + 100) % 2 ^ 32
    let me1 : Cruncher := { me with sum := Cruncher_processing.loop e.iter i me.sum }
    if i < 0x07000000 then
      { status := QState.Q_HANDLED
        me := me1
        trace := [Action.Q_NEW CRUNCH_SIG,
                  Action.QACTIVE_POST ActorRef.me (EvtRef.allocated CRUNCH_SIG i)] }
    else
      { status := QState.Q_TRAN StateFn.Cruncher_processing
        me := me1
        trace := [Action.PRINTF_S "pi=%16.14f\n" (PrintArg.num (4 * me1.sum))] }
  else if e.super.sig = ECHO_SIG then
    { status := QState.Q_HANDLED
      me := me
      trace := [Action.PRINTF_S "Echo! pi=%16.14f\n" (PrintArg.num (4 * me.sum))] }
  else if e.super.sig = TERMINATE_SIG then
    { status := QState.Q_TRAN StateFn.Cruncher_final, me := me, trace := [] }
  else
    { status := QState.Q_SUPER StateFn.QHsm_top, me := me, trace := [] }

/-- The state handler `Cruncher_final`: the `switch (e->sig)` with the case
`Q_ENTRY_SIG` and `default`. -/
def Cruncher_final (me : Cruncher) (e : ReminderEvt) : Result :=
  if e.super.sig = QSignal.Q_ENTRY_SIG then
    { status := QState.Q_HANDLED
      me := me
      trace := [Action.PRINTF_S "%s\n" (PrintArg.str "final-ENTRY;"), Action.QF_stop] }
  else
    { status := QState.Q_SUPER StateFn.QHsm_top, me := me, trace := [] }

/-- Modelled from the spec: `QHsm_top`, the root of the state hierarchy, is
defined in the framework and not among the sources.  When the root is reached
the event is unhandled and is discarded silently. -/
def QHsm_top (me : Cruncher) (_e : ReminderEvt) : Result :=
  { status := QState.Q_IGNORED, me := me, trace := [] }

/-- The handler function that a `StateFn` names. -/
def handlerOf : StateFn → Cruncher → ReminderEvt → Result
  | StateFn.Cruncher_processing => Cruncher_processing
  | StateFn.Cruncher_final => Cruncher_final
  | StateFn.QHsm_top => QHsm_top

/-- Modelled from the spec: the first step of `dispatch`, defined in the
framework and not among the sources: the handler of the current state is
invoked, and when it answers `Q_SUPER(s)` the handler of the superstate `s` is
invoked in turn.  The hierarchy of `Cruncher` has the two states
`Cruncher_processing` and `Cruncher_final` directly below `QHsm_top`, so one
step up reaches the root. -/
def handle (state : StateFn) (me : Cruncher) (e : ReminderEvt) : Result :=
  let r := handlerOf state me e
  match r.status with
  | QState.Q_SUPER s =>
    let r2 := handlerOf s r.me e
    { status := r2.status, me := r2.me, trace := r.trace ++ r2.trace }
  | _ => r

/-- The test-harness function `BSP_onKeyboardInput`: the calls it makes for the
key `key`, `'e'` being 101 and `'\033'` being 27. -/
def BSP_onKeyboardInput (key : Nat) : List Action :=
  if key = 101 then
    [Action.QACTIVE_POST ActorRef.l_cruncher (EvtRef.static ⟨ECHO_SIG, 0, 0⟩)]
  else if key = 27 then
    [Action.QACTIVE_POST ActorRef.l_cruncher (EvtRef.static ⟨TERMINATE_SIG, 0, 0⟩)]
  else []

/-- The term that round `k` adds to `sum` in exact arithmetic:
`+1/(2k+1)` for even `k` and `-1/(2k+1)` for odd `k`. -/
def leibnizTerm (k : Nat) : ℚ := (-1 : ℚ) ^ k / (2 * (k : ℚ) + 1)

/-- A `Cruncher` in the middle of the computation, with `sum = 2/3`. -/
def Cruncher.sample : Cruncher := ⟨2 / 3⟩

/-- The event with signal `sig` and counter `iter` as an allocated event. -/
def ReminderEvt.sample (sig : QSignal) (iter : Nat) : ReminderEvt := ⟨⟨sig, 1, 1⟩, iter⟩

/-! ## Facts on machine words -/

theorem shl32_one {k : Nat} (hk : k < 32) : shl32 1 k = 2 ^ k := by
  unfold shl32
  rw [Nat.shiftLeft_eq, Nat.one_mul]
  exact Nat.mod_eq_of_lt (Nat.pow_lt_pow_right (by decide) hk)

theorem and_two_pow_bne_zero (x k : Nat) : ((x &&& 2 ^ k) != 0) = x.testBit k := by
  cases h : x.testBit k
  · have hz : x &&& 2 ^ k = 0 := by
      apply Nat.eq_of_testBit_eq
      intro i
      rw [Nat.testBit_and, Nat.testBit_two_pow, Nat.zero_testBit]
      by_cases hki : k = i
      · subst hki; simp [h]
      · simp [hki]
    simp [hz]
  · have hb : (x &&& 2 ^ k).testBit k = true := by
      rw [Nat.testBit_and, Nat.testBit_two_pow_self, h]; rfl
    have hne : x &&& 2 ^ k ≠ 0 := by
      intro h0
      rw [h0, Nat.zero_testBit] at hb
      exact Bool.noConfusion hb
    simp [hne]

theorem testBit_or_mask {x k j : Nat} (hk : k < 32) (hj : j < 32) :
    (castBits 32 (x ||| shl32 1 k)).testBit j = (decide (j = k) || x.testBit j) := by
  rw [shl32_one hk]
  unfold castBits
  rw [Nat.testBit_mod_two_pow, Nat.testBit_or, Nat.testBit_two_pow]
  by_cases h : k = j
  · subst h; simp [hj]
  · have h2 : ¬ j = k := fun e => h e.symm
    simp [hj, h, h2]

theorem not32_two_pow {k : Nat} (hk : k < 32) (j : Nat) :
    (not32 (2 ^ k)).testBit j = (decide (j < 32) && !decide (j = k)) := by
  have hlt : 2 ^ k < 2 ^ 32 := Nat.pow_lt_pow_right (by decide) hk
  have e : not32 (2 ^ k) = 2 ^ 32 - (2 ^ k + 1) := by
    unfold not32
    rw [Nat.mod_eq_of_lt hlt]
    omega
  rw [e, Nat.testBit_two_pow_sub_succ hlt, Nat.testBit_two_pow]
  by_cases h : k = j
  · subst h; simp
  · have h2 : ¬ j = k := fun e => h e.symm
    simp [h, h2]

theorem testBit_and_mask {x k j : Nat} (hk : k < 32) (hj : j < 32) :
    (castBits 32 (x &&& castBits 32 (not32 (shl32 1 k)))).testBit j
      = (!decide (j = k) && x.testBit j) := by
  rw [shl32_one hk]
  unfold castBits
  rw [Nat.testBit_mod_two_pow, Nat.testBit_and, Nat.testBit_mod_two_pow, not32_two_pow hk]
  simp [hj]
  cases x.testBit j <;> simp

theorem castBits_lt (w x : Nat) : castBits w x < 2 ^ w :=
  Nat.mod_lt _ (Nat.pos_pow_of_pos w (by decide))

theorem castBits_of_lt {w x : Nat} (h : x < 2 ^ w) : castBits w x = x :=
  Nat.mod_eq_of_lt h

/-! ## Facts on `QF_LOG2` -/

theorem QF_LOG2.go_zero (fuel : Nat) : QF_LOG2.go fuel 0 = 0 := by
  cases fuel <;> simp [QF_LOG2.go]

theorem QF_LOG2.go_bounds : ∀ (fuel x : Nat), x ≤ fuel → x ≠ 0 →
    2 ^ (QF_LOG2.go fuel x - 1) ≤ x ∧ x < 2 ^ QF_LOG2.go fuel x ∧ 1 ≤ QF_LOG2.go fuel x
  | 0, x, hle, hx => absurd (Nat.le_zero.mp hle) hx
  | fuel + 1, x, hle, hx => by
    have hstep : QF_LOG2.go (fuel + 1) x = QF_LOG2.go fuel (x / 2) + 1 := by
      simp [QF_LOG2.go, hx]
    rw [hstep]
    by_cases h2 : x / 2 = 0
    · rw [h2, QF_LOG2.go_zero]
      have : x = 1 := by omega
      subst this
      decide
    · have hle2 : x / 2 ≤ fuel := by omega
      obtain ⟨h1, h3, h4⟩ := QF_LOG2.go_bounds fuel (x / 2) hle2 h2
      refine ⟨?_, ?_, by omega⟩
      · have e : QF_LOG2.go fuel (x / 2) + 1 - 1 = (QF_LOG2.go fuel (x / 2) - 1) + 1 := by omega
        rw [e, Nat.pow_succ]
        omega
      · rw [Nat.pow_succ]
        omega

theorem QF_LOG2_zero : QF_LOG2 0 = 0 := by decide

theorem QF_LOG2_bounds {x : Nat} (hx : x ≠ 0) :
    2 ^ (QF_LOG2 x - 1) ≤ x ∧ x < 2 ^ QF_LOG2 x ∧ 1 ≤ QF_LOG2 x :=
  QF_LOG2.go_bounds x x (Nat.le_refl x) hx

/-- The model of `QF_LOG2` is `1 + floor (log2 x)` on the positive numbers. -/
theorem QF_LOG2_eq_log2 {x : Nat} (hx : x ≠ 0) : QF_LOG2 x = Nat.log2 x + 1 := by
  obtain ⟨h1, h2, h3⟩ := QF_LOG2_bounds hx
  have a : Nat.log2 x < QF_LOG2 x := (Nat.log2_lt hx).mpr h2
  have b : QF_LOG2 x - 1 ≤ Nat.log2 x := (Nat.le_log2 hx).mpr h1
  omega

theorem QF_LOG2_eq_zero_iff (x : Nat) : QF_LOG2 x = 0 ↔ x = 0 := by
  constructor
  · intro h
    by_contra hx
    have := (QF_LOG2_bounds hx).2.2
    omega
  · intro h; subst h; exact QF_LOG2_zero

theorem testBit_QF_LOG2 {x : Nat} (hx : x ≠ 0) : x.testBit (QF_LOG2 x - 1) = true := by
  obtain ⟨h1, h2, h3⟩ := QF_LOG2_bounds hx
  rw [Nat.testBit_to_div_mod]
  have e : 2 ^ QF_LOG2 x = 2 ^ (QF_LOG2 x - 1) * 2 := by
    rw [← Nat.pow_succ]; congr 1; omega
  have hpos : 0 < 2 ^ (QF_LOG2 x - 1) := Nat.pos_pow_of_pos _ (by decide)
  have hd : x / 2 ^ (QF_LOG2 x - 1) = 1 := by
    apply Nat.div_eq_of_lt_le
    · simpa using h1
    · rw [e] at h2; simpa [Nat.mul_comm] using h2
  simp [hd]

theorem lt_QF_LOG2_of_testBit {x j : Nat} (h : x.testBit j = true) : j < QF_LOG2 x := by
  by_contra hj
  have hx : x ≠ 0 := by
    intro h0; subst h0; simp at h
  have h2 := (QF_LOG2_bounds hx).2.1
  have : x < 2 ^ j := Nat.lt_of_lt_of_le h2 (Nat.pow_le_pow_right (by decide) (by omega))
  rw [Nat.testBit_lt_two_pow this] at h
  exact Bool.noConfusion h

theorem QF_LOG2_le {x w : Nat} (h : x < 2 ^ w) : QF_LOG2 x ≤ w := by
  by_cases hx : x = 0
  · subst hx; rw [QF_LOG2_zero]; exact Nat.zero_le _
  · by_contra hc
    have h1 := (QF_LOG2_bounds hx).1
    have : 2 ^ w ≤ 2 ^ (QF_LOG2 x - 1) := Nat.pow_le_pow_right (by decide) (by omega)
    omega

theorem exists_testBit_of_ne_zero {x w : Nat} (h : x < 2 ^ w) (hx : x ≠ 0) :
    ∃ j, j < w ∧ x.testBit j = true :=
  ⟨QF_LOG2 x - 1, by have := QF_LOG2_le h; have := (QF_LOG2_bounds hx).2.2; omega,
    testBit_QF_LOG2 hx⟩

/-! ## Facts on the addressing scheme -/

namespace Words

theorem has_ins_eq (f : Nat → Nat) {n m : Nat} (hn : 1 ≤ n) (hm : 1 ≤ m) :
    has (ins f n) m = (decide (m = n) || has f m) := by
  unfold has ins
  have hb : (n - 1) % 32 < 32 := Nat.mod_lt _ (by decide)
  have hj : (m - 1) % 32 < 32 := Nat.mod_lt _ (by decide)
  by_cases hw : (m - 1) / 32 = (n - 1) / 32
  · rw [hw, Function.update_same, testBit_or_mask hb hj]
    congr 1
    apply decide_eq_decide.mpr
    constructor <;> intro h <;> omega
  · rw [Function.update_noteq hw]
    have : ¬ m = n := fun e => hw (by rw [e])
    simp [this]

theorem has_rem_eq (f : Nat → Nat) {n m : Nat} (hn : 1 ≤ n) (hm : 1 ≤ m) :
    has (rem f n) m = (!decide (m = n) && has f m) := by
  unfold has rem
  have hb : (n - 1) % 32 < 32 := Nat.mod_lt _ (by decide)
  have hj : (m - 1) % 32 < 32 := Nat.mod_lt _ (by decide)
  by_cases hw : (m - 1) / 32 = (n - 1) / 32
  · rw [hw, Function.update_same, testBit_and_mask hb hj]
    congr 2
    apply decide_eq_decide.mpr
    constructor <;> intro h <;> omega
  · rw [Function.update_noteq hw]
    have : ¬ m = n := fun e => hw (by rw [e])
    simp [this]

theorem wf_update {W : Nat} {f : Nat → Nat} (h : WF W f) (i v : Nat) :
    WF W (Function.update f i (castBits 32 v)) := by
  intro j hj
  by_cases e : j = i
  · subst e; rw [Function.update_same]; exact castBits_lt 32 v
  · rw [Function.update_noteq e]; exact h j hj

theorem max_eq_zero_iff (W : Nat) (f : Nat → Nat) :
    max W f = 0 ↔ ∀ i, i < W → f i = 0 := by
  induction W with
  | zero => simp [max]
  | succ W ih =>
    unfold max
    by_cases h : f W = 0
    · simp only [h, bne_self_eq_false, Bool.false_eq_true, if_false]
      rw [ih]
      constructor
      · intro a i hi
        by_cases e : i = W
        · subst e; exact h
        · exact a i (by omega)
      · intro a i hi
        exact a i (by omega)
    · have hb : (f W != 0) = true := by simp [h]
      rw [if_pos hb]
      constructor
      · intro a
        have := (QF_LOG2_bounds h).2.2
        omega
      · intro a
        exact absurd (a W (Nat.lt_succ_self W)) h

theorem max_spec (W : Nat) (f : Nat → Nat) (hwf : WF W f) (hne : max W f ≠ 0) :
    1 ≤ max W f ∧ max W f ≤ 32 * W ∧ has f (max W f) = true := by
  induction W with
  | zero => simp [max] at hne
  | succ W ih =>
    unfold max at hne ⊢
    by_cases h : f W = 0
    · simp only [h, bne_self_eq_false, Bool.false_eq_true, if_false] at hne ⊢
      obtain ⟨a, b, c⟩ := ih (fun i hi => hwf i (by omega)) hne
      exact ⟨a, by omega, c⟩
    · have hb : (f W != 0) = true := by simp [h]
      rw [if_pos hb]
      have h1 := (QF_LOG2_bounds h).2.2
      have h2 := QF_LOG2_le (hwf W (Nat.lt_succ_self W))
      refine ⟨by omega, by omega, ?_⟩
      unfold has
      have e1 : (QF_LOG2 (f W) + 32 * W - 1) / 32 = W := by omega
      have e2 : (QF_LOG2 (f W) + 32 * W - 1) % 32 = QF_LOG2 (f W) - 1 := by omega
      rw [e1, e2]
      exact testBit_QF_LOG2 h

theorem le_max (W : Nat) (f : Nat → Nat) {n : Nat} (h1 : 1 ≤ n) (h2 : n ≤ 32 * W)
    (hn : has f n = true) : n ≤ max W f := by
  induction W with
  | zero => omega
  | succ W ih =>
    unfold max
    by_cases h : f W = 0
    · simp only [h, bne_self_eq_false, Bool.false_eq_true, if_false]
      apply ih
      by_contra hc
      have e1 : (n - 1) / 32 = W := by omega
      unfold has at hn
      rw [e1, h, Nat.zero_testBit] at hn
      exact Bool.noConfusion hn
    · have hb : (f W != 0) = true := by simp [h]
      rw [if_pos hb]
      by_cases hlow : n ≤ 32 * W
      · have := (QF_LOG2_bounds h).2.2
        omega
      · have e1 : (n - 1) / 32 = W := by omega
        unfold has at hn
        rw [e1] at hn
        have := lt_QF_LOG2_of_testBit hn
        omega

theorem all_zero_iff (W : Nat) (f : Nat → Nat) (hwf : WF W f) :
    (∀ i, i < W → f i = 0) ↔ ∀ n, 1 ≤ n → n ≤ 32 * W → has f n = false := by
  constructor
  · intro a n h1 h2
    unfold has
    rw [a _ (by omega), Nat.zero_testBit]
  · intro a i hi
    by_contra hne
    obtain ⟨j, hj, hb⟩ := exists_testBit_of_ne_zero (hwf i hi) hne
    have := a (32 * i + j + 1) (by omega) (by omega)
    unfold has at this
    have e1 : (32 * i + j + 1 - 1) / 32 = i := by omega
    have e2 : (32 * i + j + 1 - 1) % 32 = j := by omega
    rw [e1, e2, hb] at this
    exact Bool.noConfusion this

end Words

/-! ## The single-word variant -/

namespace V32

theorem hasElement_eq_v32 (me : QPSet) {n : Nat} (h1 : 1 ≤ n) (h2 : n ≤ 32) :
    QPSet_hasElement me n = me.bits.testBit (n - 1) := by
  unfold QPSet_hasElement
  rw [shl32_one (by omega), and_two_pow_bne_zero]

theorem testBit_insert_v32 {w : Nat} (hw : w ≤ 32) (me : QPSet) {n j : Nat} (h1 : 1 ≤ n)
    (h2 : n ≤ w) (hj : j < w) :
    (QPSet_insert w me n).bits.testBit j = (decide (j = n - 1) || me.bits.testBit j) := by
  unfold QPSet_insert castBits
  rw [shl32_one (by omega)]
  simp only [Nat.testBit_mod_two_pow, Nat.testBit_or, Nat.testBit_two_pow]
  by_cases h : n - 1 = j
  · subst h
    simp [hj]
  · have h' : ¬ j = n - 1 := fun e => h e.symm
    simp [hj, h, h']

theorem testBit_remove_v32 {w : Nat} (hw : w ≤ 32) (me : QPSet) {n j : Nat} (h1 : 1 ≤ n)
    (h2 : n ≤ w) (hj : j < w) :
    (QPSet_remove w me n).bits.testBit j = (!decide (j = n - 1) && me.bits.testBit j) := by
  unfold QPSet_remove castBits
  rw [shl32_one (by omega)]
  simp only [Nat.testBit_mod_two_pow, Nat.testBit_and, not32_two_pow (show n - 1 < 32 by omega)]
  have hj32 : j < 32 := by omega
  simp [hj, hj32]
  cases me.bits.testBit j <;> simp

theorem sound_v32 {w : Nat} (hw : w ≤ 32) :
    Sound w (WF w) QPSet_hasElement (QPSet_insert w) (QPSet_remove w) QPSet_findMax where
  has_ins s n m h1 h2 h3 h4 := by
    rw [hasElement_eq_v32 _ h3 (by omega), hasElement_eq_v32 _ h3 (by omega),
      testBit_insert_v32 hw s h1 h2 (by omega)]
    congr 1
    apply decide_eq_decide.mpr
    constructor <;> intro h <;> omega
  has_rem s n m h1 h2 h3 h4 := by
    rw [hasElement_eq_v32 _ h3 (by omega), hasElement_eq_v32 _ h3 (by omega),
      testBit_remove_v32 hw s h1 h2 (by omega)]
    congr 2
    apply decide_eq_decide.mpr
    constructor <;> intro h <;> omega
  wf_ins s n _ _ _ := castBits_lt w _
  wf_rem s n _ _ _ := castBits_lt w _
  max_zero s hs := by
    unfold QPSet_findMax
    rw [QF_LOG2_eq_zero_iff]
    constructor
    · intro h n h1 h2
      rw [hasElement_eq_v32 _ h1 (by omega), h, Nat.zero_testBit]
    · intro h
      by_contra hne
      obtain ⟨j, hj, hb⟩ := exists_testBit_of_ne_zero hs hne
      have := h (j + 1) (by omega) (by omega)
      rw [hasElement_eq_v32 _ (by omega) (by omega)] at this
      simp [hb] at this
  max_has s hs hne := by
    unfold QPSet_findMax at hne ⊢
    have hx : s.bits ≠ 0 := fun e => hne ((QF_LOG2_eq_zero_iff _).mpr e)
    have h1 := (QF_LOG2_bounds hx).2.2
    have h2 := QF_LOG2_le hs
    refine ⟨h1, h2, ?_⟩
    rw [hasElement_eq_v32 _ h1 (by omega)]
    exact testBit_QF_LOG2 hx
  max_ge s hs n h1 h2 hn := by
    unfold QPSet_findMax
    rw [hasElement_eq_v32 _ h1 (by omega)] at hn
    have := lt_QF_LOG2_of_testBit hn
    omega

end V32

/-! ## The array variants follow the addressing scheme -/

namespace Words

theorem max_one (f : Nat → Nat) :
    (if (f 0 != 0) = true then QF_LOG2 (f 0) + 32 * 0 else 0) = QF_LOG2 (f 0) := by
  by_cases h : f 0 = 0
  · simp [h, QF_LOG2_zero]
  · simp [h]

theorem has_at (f : Nat → Nat) {n k off : Nat} (ha : off = 32 * k + 1) (hlo : off ≤ n)
    (hhi : n ≤ 32 * k + 32) : ((f k &&& shl32 1 (n - off)) != 0) = has f n := by
  subst ha
  unfold has
  have e1 : (n - 1) / 32 = k := by omega
  have e2 : (n - 1) % 32 = n - (32 * k + 1) := by omega
  rw [e1, e2, shl32_one (by omega), and_two_pow_bne_zero]

theorem ins_at (f : Nat → Nat) {n k off : Nat} (ha : off = 32 * k + 1) (hlo : off ≤ n)
    (hhi : n ≤ 32 * k + 32) :
    Function.update f k (castBits 32 (f k ||| shl32 1 (n - off))) = ins f n := by
  subst ha
  unfold ins
  have e1 : (n - 1) / 32 = k := by omega
  have e2 : (n - 1) % 32 = n - (32 * k + 1) := by omega
  rw [e1, e2]

theorem rem_at (f : Nat → Nat) {n k off : Nat} (ha : off = 32 * k + 1) (hlo : off ≤ n)
    (hhi : n ≤ 32 * k + 32) :
    Function.update f k (castBits 32 (f k &&& castBits 32 (not32 (shl32 1 (n - off)))))
      = rem f n := by
  subst ha
  unfold rem
  have e1 : (n - 1) / 32 = k := by omega
  have e2 : (n - 1) % 32 = n - (32 * k + 1) := by omega
  rw [e1, e2]

end Words


namespace V64

theorem hasElement_eq_v64 (me : QPSet) {n : Nat} (h1 : 1 ≤ n) (h2 : n ≤ 64) :
    QPSet_hasElement me n = Words.has me.bits n := by
  unfold QPSet_hasElement
  by_cases c0 : n ≤ 32
  · rw [if_pos c0]; exact Words.has_at me.bits (by decide) (by omega) (by omega)
  rw [if_neg c0]
  exact Words.has_at me.bits (by decide) (by omega) (by omega)

theorem insert_bits_v64 (me : QPSet) {n : Nat} (h1 : 1 ≤ n) (h2 : n ≤ 64) :
    (QPSet_insert me n).bits = Words.ins me.bits n := by
  unfold QPSet_insert QPSet.store
  by_cases c0 : n ≤ 32
  · rw [if_pos c0]; exact Words.ins_at me.bits (by decide) (by omega) (by omega)
  rw [if_neg c0]
  exact Words.ins_at me.bits (by decide) (by omega) (by omega)

theorem remove_bits_v64 (me : QPSet) {n : Nat} (h1 : 1 ≤ n) (h2 : n ≤ 64) :
    (QPSet_remove me n).bits = Words.rem me.bits n := by
  unfold QPSet_remove QPSet.store
  by_cases c0 : n ≤ 32
  · rw [if_pos c0]; exact Words.rem_at me.bits (by decide) (by omega) (by omega)
  rw [if_neg c0]
  exact Words.rem_at me.bits (by decide) (by omega) (by omega)

theorem findMax_eq_v64 (me : QPSet) : QPSet_findMax me = Words.max 2 me.bits := by
  unfold QPSet_findMax
  simp only [Words.max]
  rw [Words.max_one]

theorem notEmpty_iff_v64 (me : QPSet) :
    QPSet_notEmpty me = true ↔ ∃ i, i < 2 ∧ me.bits i ≠ 0 := by
  constructor
  · intro h
    by_contra hall
    have hz : ∀ i, i < 2 → me.bits i = 0 := by
      intro i hi
      by_contra hne
      exact hall ⟨i, hi, hne⟩
    simp [QPSet_notEmpty, hz] at h
  · rintro ⟨i, hi, hne⟩
    interval_cases i <;> simp [QPSet_notEmpty, hne]

theorem isEmpty_iff_v64 (me : QPSet) :
    QPSet_isEmpty me = true ↔ ∀ i, i < 2 → me.bits i = 0 := by
  constructor
  · intro h i hi
    by_contra hne
    interval_cases i <;> simp [QPSet_isEmpty, hne] at h
  · intro h
    simp [QPSet_isEmpty, h]

theorem setEmpty_bits_v64 (me : QPSet) {i : Nat} (hi : i < 2) : (QPSet_setEmpty me).bits i = 0 := by
  unfold QPSet_setEmpty QPSet.store
  interval_cases i <;> simp [Function.update_apply, castBits]

theorem sound_v64 :
    Sound 64 WF QPSet_hasElement QPSet_insert QPSet_remove QPSet_findMax where
  has_ins s n m h1 h2 h3 h4 := by
    rw [hasElement_eq_v64 _ h3 h4, insert_bits_v64 s h1 h2, hasElement_eq_v64 s h3 h4]
    exact Words.has_ins_eq s.bits h1 h3
  has_rem s n m h1 h2 h3 h4 := by
    rw [hasElement_eq_v64 _ h3 h4, remove_bits_v64 s h1 h2, hasElement_eq_v64 s h3 h4]
    exact Words.has_rem_eq s.bits h1 h3
  wf_ins s n h1 h2 hs := by
    unfold WF
    rw [insert_bits_v64 s h1 h2]
    exact Words.wf_update hs _ _
  wf_rem s n h1 h2 hs := by
    unfold WF
    rw [remove_bits_v64 s h1 h2]
    exact Words.wf_update hs _ _
  max_zero s hs := by
    rw [findMax_eq_v64, Words.max_eq_zero_iff, Words.all_zero_iff 2 s.bits hs]
    constructor
    · intro h n h1 h2
      rw [hasElement_eq_v64 s h1 h2]
      exact h n h1 (by omega)
    · intro h n h1 h2
      rw [← hasElement_eq_v64 s h1 (by omega)]
      exact h n h1 (by omega)
  max_has s hs hne := by
    rw [findMax_eq_v64] at hne ⊢
    obtain ⟨a, b, c⟩ := Words.max_spec 2 s.bits hs hne
    exact ⟨a, by omega, by rw [hasElement_eq_v64 s a (by omega)]; exact c⟩
  max_ge s hs n h1 h2 hn := by
    rw [findMax_eq_v64]
    rw [hasElement_eq_v64 s h1 h2] at hn
    exact Words.le_max 2 s.bits h1 (by omega) hn

end V64

namespace V256

theorem hasElement_eq_v256 (me : QPSet) {n : Nat} (h1 : 1 ≤ n) (h2 : n ≤ 256) :
    QPSet_hasElement me n = Words.has me.bits n := by
  unfold QPSet_hasElement
  by_cases c0 : n ≤ 32
  · rw [if_pos c0]; exact Words.has_at me.bits (by decide) (by omega) (by omega)
  rw [if_neg c0]
  by_cases c1 : n ≤ 64
  · rw [if_pos c1]; exact Words.has_at me.bits (by decide) (by omega) (by omega)
  rw [if_neg c1]
  by_cases c2 : n ≤ 96
  · rw [if_pos c2]; exact Words.has_at me.bits (by decide) (by omega) (by omega)
  rw [if_neg c2]
  by_cases c3 : n ≤ 128
  · rw [if_pos c3]; exact Words.has_at me.bits (by decide) (by omega) (by omega)
  rw [if_neg c3]
  by_cases c4 : n ≤ 160
  · rw [if_pos c4]; exact Words.has_at me.bits (by decide) (by omega) (by omega)
  rw [if_neg c4]
  by_cases c5 : n ≤ 192
  · rw [if_pos c5]; exact Words.has_at me.bits (by decide) (by omega) (by omega)
  rw [if_neg c5]
  by_cases c6 : n ≤ 224
  · rw [if_pos c6]; exact Words.has_at me.bits (by decide) (by omega) (by omega)
  rw [if_neg c6]
  exact Words.has_at me.bits (by decide) (by omega) (by omega)

theorem insert_bits_v256 (me : QPSet) {n : Nat} (h1 : 1 ≤ n) (h2 : n ≤ 256) :
    (QPSet_insert me n).bits = Words.ins me.bits n := by
  unfold QPSet_insert QPSet.store
  by_cases c0 : n ≤ 32
  · rw [if_pos c0]; exact Words.ins_at me.bits (by decide) (by omega) (by omega)
  rw [if_neg c0]
  by_cases c1 : n ≤ 64
  · rw [if_pos c1]; exact Words.ins_at me.bits (by decide) (by omega) (by omega)
  rw [if_neg c1]
  by_cases c2 : n ≤ 96
  · rw [if_pos c2]; exact Words.ins_at me.bits (by decide) (by omega) (by omega)
  rw [if_neg c2]
  by_cases c3 : n ≤ 128
  · rw [if_pos c3]; exact Words.ins_at me.bits (by decide) (by omega) (by omega)
  rw [if_neg c3]
  by_cases c4 : n ≤ 160
  · rw [if_pos c4]; exact Words.ins_at me.bits (by decide) (by omega) (by omega)
  rw [if_neg c4]
  by_cases c5 : n ≤ 192
  · rw [if_pos c5]; exact Words.ins_at me.bits (by decide) (by omega) (by omega)
  rw [if_neg c5]
  by_cases c6 : n ≤ 224
  · rw [if_pos c6]; exact Words.ins_at me.bits (by decide) (by omega) (by omega)
  rw [if_neg c6]
  exact Words.ins_at me.bits (by decide) (by omega) (by omega)

theorem remove_bits_v256 (me : QPSet) {n : Nat} (h1 : 1 ≤ n) (h2 : n ≤ 256) :
    (QPSet_remove me n).bits = Words.rem me.bits n := by
  unfold QPSet_remove QPSet.store
  by_cases c0 : n ≤ 32
  · rw [if_pos c0]; exact Words.rem_at me.bits (by decide) (by omega) (by omega)
  rw [if_neg c0]
  by_cases c1 : n ≤ 64
  · rw [if_pos c1]; exact Words.rem_at me.bits (by decide) (by omega) (by omega)
  rw [if_neg c1]
  by_cases c2 : n ≤ 96
  · rw [if_pos c2]; exact Words.rem_at me.bits (by decide) (by omega) (by omega)
  rw [if_neg c2]
  by_cases c3 : n ≤ 128
  · rw [if_pos c3]; exact Words.rem_at me.bits (by decide) (by omega) (by omega)
  rw [if_neg c3]
  by_cases c4 : n ≤ 160
  · rw [if_pos c4]; exact Words.rem_at me.bits (by decide) (by omega) (by omega)
  rw [if_neg c4]
  by_cases c5 : n ≤ 192
  · rw [if_pos c5]; exact Words.rem_at me.bits (by decide) (by omega) (by omega)
  rw [if_neg c5]
  by_cases c6 : n ≤ 224
  · rw [if_pos c6]; exact Words.rem_at me.bits (by decide) (by omega) (by omega)
  rw [if_neg c6]
  exact Words.rem_at me.bits (by decide) (by omega) (by omega)

theorem findMax_eq_v256 (me : QPSet) : QPSet_findMax.rhs me = Words.max 8 me.bits := by
  unfold QPSet_findMax.rhs
  simp only [Words.max]
  rw [Words.max_one]

theorem notEmpty_iff_v256 (me : QPSet) :
    QPSet_notEmpty me = true ↔ ∃ i, i < 8 ∧ me.bits i ≠ 0 := by
  constructor
  · intro h
    by_contra hall
    have hz : ∀ i, i < 8 → me.bits i = 0 := by
      intro i hi
      by_contra hne
      exact hall ⟨i, hi, hne⟩
    simp [QPSet_notEmpty, hz] at h
  · rintro ⟨i, hi, hne⟩
    interval_cases i <;> simp [QPSet_notEmpty, hne]

theorem isEmpty_iff_v256 (me : QPSet) :
    QPSet_isEmpty me = true ↔ ∀ i, i < 8 → me.bits i = 0 := by
  constructor
  · intro h i hi
    by_contra hne
    interval_cases i <;> simp [QPSet_isEmpty, hne] at h
  · intro h
    simp [QPSet_isEmpty, h]

theorem setEmpty_bits_v256 (me : QPSet) {i : Nat} (hi : i < 8) : (QPSet_setEmpty me).bits i = 0 := by
  unfold QPSet_setEmpty QPSet.store
  interval_cases i <;> simp [Function.update_apply, castBits]

theorem sound_v256 :
    Sound 256 WF QPSet_hasElement QPSet_insert QPSet_remove QPSet_findMax.rhs where
  has_ins s n m h1 h2 h3 h4 := by
    rw [hasElement_eq_v256 _ h3 h4, insert_bits_v256 s h1 h2, hasElement_eq_v256 s h3 h4]
    exact Words.has_ins_eq s.bits h1 h3
  has_rem s n m h1 h2 h3 h4 := by
    rw [hasElement_eq_v256 _ h3 h4, remove_bits_v256 s h1 h2, hasElement_eq_v256 s h3 h4]
    exact Words.has_rem_eq s.bits h1 h3
  wf_ins s n h1 h2 hs := by
    unfold WF
    rw [insert_bits_v256 s h1 h2]
    exact Words.wf_update hs _ _
  wf_rem s n h1 h2 hs := by
    unfold WF
    rw [remove_bits_v256 s h1 h2]
    exact Words.wf_update hs _ _
  max_zero s hs := by
    rw [findMax_eq_v256, Words.max_eq_zero_iff, Words.all_zero_iff 8 s.bits hs]
    constructor
    · intro h n h1 h2
      rw [hasElement_eq_v256 s h1 h2]
      exact h n h1 (by omega)
    · intro h n h1 h2
      rw [← hasElement_eq_v256 s h1 (by omega)]
      exact h n h1 (by omega)
  max_has s hs hne := by
    rw [findMax_eq_v256] at hne ⊢
    obtain ⟨a, b, c⟩ := Words.max_spec 8 s.bits hs hne
    exact ⟨a, by omega, by rw [hasElement_eq_v256 s a (by omega)]; exact c⟩
  max_ge s hs n h1 h2 hn := by
    rw [findMax_eq_v256]
    rw [hasElement_eq_v256 s h1 h2] at hn
    exact Words.le_max 8 s.bits h1 (by omega) hn

end V256

namespace V1024

theorem hasElement_eq_v1024 (me : QPSet) {n : Nat} (h1 : 1 ≤ n) (h2 : n ≤ 1024) :
    QPSet_hasElement me n = Words.has me.bits n := by
  unfold QPSet_hasElement
  by_cases c0 : n ≤ 32
  · rw [if_pos c0]; exact Words.has_at me.bits (by decide) (by omega) (by omega)
  rw [if_neg c0]
  by_cases c1 : n ≤ 64
  · rw [if_pos c1]; exact Words.has_at me.bits (by decide) (by omega) (by omega)
  rw [if_neg c1]
  by_cases c2 : n ≤ 96
  · rw [if_pos c2]; exact Words.has_at me.bits (by decide) (by omega) (by omega)
  rw [if_neg c2]
  by_cases c3 : n ≤ 128
  · rw [if_pos c3]; exact Words.has_at me.bits (by decide) (by omega) (by omega)
  rw [if_neg c3]
  by_cases c4 : n ≤ 160
  · rw [if_pos c4]; exact Words.has_at me.bits (by decide) (by omega) (by omega)
  rw [if_neg c4]
  by_cases c5 : n ≤ 192
  · rw [if_pos c5]; exact Words.has_at me.bits (by decide) (by omega) (by omega)
  rw [if_neg c5]
  by_cases c6 : n ≤ 224
  · rw [if_pos c6]; exact Words.has_at me.bits (by decide) (by omega) (by omega)
  rw [if_neg c6]
  by_cases c7 : n ≤ 256
  · rw [if_pos c7]; exact Words.has_at me.bits (by decide) (by omega) (by omega)
  rw [if_neg c7]
  by_cases c8 : n ≤ 288
  · rw [if_pos c8]; exact Words.has_at me.bits (by decide) (by omega) (by omega)
  rw [if_neg c8]
  by_cases c9 : n ≤ 320
  · rw [if_pos c9]; exact Words.has_at me.bits (by decide) (by omega) (by omega)
  rw [if_neg c9]
  by_cases c10 : n ≤ 352
  · rw [if_pos c10]; exact Words.has_at me.bits (by decide) (by omega) (by omega)
  rw [if_neg c10]
  by_cases c11 : n ≤ 384
  · rw [if_pos c11]; exact Words.has_at me.bits (by decide) (by omega) (by omega)
  rw [if_neg c11]
  by_cases c12 : n ≤ 416
  · rw [if_pos c12]; exact Words.has_at me.bits (by decide) (by omega) (by omega)
  rw [if_neg c12]
  by_cases c13 : n ≤ 448
  · rw [if_pos c13]; exact Words.has_at me.bits (by decide) (by omega) (by omega)
  rw [if_neg c13]
  by_cases c14 : n ≤ 480
  · rw [if_pos c14]; exact Words.has_at me.bits (by decide) (by omega) (by omega)
  rw [if_neg c14]
  by_cases c15 : n ≤ 512
  · rw [if_pos c15]; exact Words.has_at me.bits (by decide) (by omega) (by omega)
  rw [if_neg c15]
  by_cases c16 : n ≤ 544
  · rw [if_pos c16]; exact Words.has_at me.bits (by decide) (by omega) (by omega)
  rw [if_neg c16]
  by_cases c17 : n ≤ 576
  · rw [if_pos c17]; exact Words.has_at me.bits (by decide) (by omega) (by omega)
  rw [if_neg c17]
  by_cases c18 : n ≤ 608
  · rw [if_pos c18]; exact Words.has_at me.bits (by decide) (by omega) (by omega)
  rw [if_neg c18]
  by_cases c19 : n ≤ 640
  · rw [if_pos c19]; exact Words.has_at me.bits (by decide) (by omega) (by omega)
  rw [if_neg c19]
  by_cases c20 : n ≤ 672
  · rw [if_pos c20]; exact Words.has_at me.bits (by decide) (by omega) (by omega)
  rw [if_neg c20]
  by_cases c21 : n ≤ 704
  · rw [if_pos c21]; exact Words.has_at me.bits (by decide) (by omega) (by omega)
  rw [if_neg c21]
  by_cases c22 : n ≤ 736
  · rw [if_pos c22]; exact Words.has_at me.bits (by decide) (by omega) (by omega)
  rw [if_neg c22]
  by_cases c23 : n ≤ 768
  · rw [if_pos c23]; exact Words.has_at me.bits (by decide) (by omega) (by omega)
  rw [if_neg c23]
  by_cases c24 : n ≤ 800
  · rw [if_pos c24]; exact Words.has_at me.bits (by decide) (by omega) (by omega)
  rw [if_neg c24]
  by_cases c25 : n ≤ 832
  · rw [if_pos c25]; exact Words.has_at me.bits (by decide) (by omega) (by omega)
  rw [if_neg c25]
  by_cases c26 : n ≤ 864
  · rw [if_pos c26]; exact Words.has_at me.bits (by decide) (by omega) (by omega)
  rw [if_neg c26]
  by_cases c27 : n ≤ 896
  · rw [if_pos c27]; exact Words.has_at me.bits (by decide) (by omega) (by omega)
  rw [if_neg c27]
  by_cases c28 : n ≤ 928
  · rw [if_pos c28]; exact Words.has_at me.bits (by decide) (by omega) (by omega)
  rw [if_neg c28]
  by_cases c29 : n ≤ 960
  · rw [if_pos c29]; exact Words.has_at me.bits (by decide) (by omega) (by omega)
  rw [if_neg c29]
  by_cases c30 : n ≤ 992
  · rw [if_pos c30]; exact Words.has_at me.bits (by decide) (by omega) (by omega)
  rw [if_neg c30]
  exact Words.has_at me.bits (by decide) (by omega) (by omega)

theorem insert_bits_v1024 (me : QPSet) {n : Nat} (h1 : 1 ≤ n) (h2 : n ≤ 1024) :
    (QPSet_insert me n).bits = Words.ins me.bits n := by
  unfold QPSet_insert QPSet.store
  by_cases c0 : n ≤ 32
  · rw [if_pos c0]; exact Words.ins_at me.bits (by decide) (by omega) (by omega)
  rw [if_neg c0]
  by_cases c1 : n ≤ 64
  · rw [if_pos c1]; exact Words.ins_at me.bits (by decide) (by omega) (by omega)
  rw [if_neg c1]
  by_cases c2 : n ≤ 96
  · rw [if_pos c2]; exact Words.ins_at me.bits (by decide) (by omega) (by omega)
  rw [if_neg c2]
  by_cases c3 : n ≤ 128
  · rw [if_pos c3]; exact Words.ins_at me.bits (by decide) (by omega) (by omega)
  rw [if_neg c3]
  by_cases c4 : n ≤ 160
  · rw [if_pos c4]; exact Words.ins_at me.bits (by decide) (by omega) (by omega)
  rw [if_neg c4]
  by_cases c5 : n ≤ 192
  · rw [if_pos c5]; exact Words.ins_at me.bits (by decide) (by omega) (by omega)
  rw [if_neg c5]
  by_cases c6 : n ≤ 224
  · rw [if_pos c6]; exact Words.ins_at me.bits (by decide) (by omega) (by omega)
  rw [if_neg c6]
  by_cases c7 : n ≤ 256
  · rw [if_pos c7]; exact Words.ins_at me.bits (by decide) (by omega) (by omega)
  rw [if_neg c7]
  by_cases c8 : n ≤ 288
  · rw [if_pos c8]; exact Words.ins_at me.bits (by decide) (by omega) (by omega)
  rw [if_neg c8]
  by_cases c9 : n ≤ 320
  · rw [if_pos c9]; exact Words.ins_at me.bits (by decide) (by omega) (by omega)
  rw [if_neg c9]
  by_cases c10 : n ≤ 352
  · rw [if_pos c10]; exact Words.ins_at me.bits (by decide) (by omega) (by omega)
  rw [if_neg c10]
  by_cases c11 : n ≤ 384
  · rw [if_pos c11]; exact Words.ins_at me.bits (by decide) (by omega) (by omega)
  rw [if_neg c11]
  by_cases c12 : n ≤ 416
  · rw [if_pos c12]; exact Words.ins_at me.bits (by decide) (by omega) (by omega)
  rw [if_neg c12]
  by_cases c13 : n ≤ 448
  · rw [if_pos c13]; exact Words.ins_at me.bits (by decide) (by omega) (by omega)
  rw [if_neg c13]
  by_cases c14 : n ≤ 480
  · rw [if_pos c14]; exact Words.ins_at me.bits (by decide) (by omega) (by omega)
  rw [if_neg c14]
  by_cases c15 : n ≤ 512
  · rw [if_pos c15]; exact Words.ins_at me.bits (by decide) (by omega) (by omega)
  rw [if_neg c15]
  by_cases c16 : n ≤ 544
  · rw [if_pos c16]; exact Words.ins_at me.bits (by decide) (by omega) (by omega)
  rw [if_neg c16]
  by_cases c17 : n ≤ 576
  · rw [if_pos c17]; exact Words.ins_at me.bits (by decide) (by omega) (by omega)
  rw [if_neg c17]
  by_cases c18 : n ≤ 608
  · rw [if_pos c18]; exact Words.ins_at me.bits (by decide) (by omega) (by omega)
  rw [if_neg c18]
  by_cases c19 : n ≤ 640
  · rw [if_pos c19]; exact Words.ins_at me.bits (by decide) (by omega) (by omega)
  rw [if_neg c19]
  by_cases c20 : n ≤ 672
  · rw [if_pos c20]; exact Words.ins_at me.bits (by decide) (by omega) (by omega)
  rw [if_neg c20]
  by_cases c21 : n ≤ 704
  · rw [if_pos c21]; exact Words.ins_at me.bits (by decide) (by omega) (by omega)
  rw [if_neg c21]
  by_cases c22 : n ≤ 736
  · rw [if_pos c22]; exact Words.ins_at me.bits (by decide) (by omega) (by omega)
  rw [if_neg c22]
  by_cases c23 : n ≤ 768
  · rw [if_pos c23]; exact Words.ins_at me.bits (by decide) (by omega) (by omega)
  rw [if_neg c23]
  by_cases c24 : n ≤ 800
  · rw [if_pos c24]; exact Words.ins_at me.bits (by decide) (by omega) (by omega)
  rw [if_neg c24]
  by_cases c25 : n ≤ 832
  · rw [if_pos c25]; exact Words.ins_at me.bits (by decide) (by omega) (by omega)
  rw [if_neg c25]
  by_cases c26 : n ≤ 864
  · rw [if_pos c26]; exact Words.ins_at me.bits (by decide) (by omega) (by omega)
  rw [if_neg c26]
  by_cases c27 : n ≤ 896
  · rw [if_pos c27]; exact Words.ins_at me.bits (by decide) (by omega) (by omega)
  rw [if_neg c27]
  by_cases c28 : n ≤ 928
  · rw [if_pos c28]; exact Words.ins_at me.bits (by decide) (by omega) (by omega)
  rw [if_neg c28]
  by_cases c29 : n ≤ 960
  · rw [if_pos c29]; exact Words.ins_at me.bits (by decide) (by omega) (by omega)
  rw [if_neg c29]
  by_cases c30 : n ≤ 992
  · rw [if_pos c30]; exact Words.ins_at me.bits (by decide) (by omega) (by omega)
  rw [if_neg c30]
  exact Words.ins_at me.bits (by decide) (by omega) (by omega)

theorem remove_bits_v1024 (me : QPSet) {n : Nat} (h1 : 1 ≤ n) (h2 : n ≤ 1024) :
    (QPSet_remove me n).bits = Words.rem me.bits n := by
  unfold QPSet_remove QPSet.store
  by_cases c0 : n ≤ 32
  · rw [if_pos c0]; exact Words.rem_at me.bits (by decide) (by omega) (by omega)
  rw [if_neg c0]
  by_cases c1 : n ≤ 64
  · rw [if_pos c1]; exact Words.rem_at me.bits (by decide) (by omega) (by omega)
  rw [if_neg c1]
  by_cases c2 : n ≤ 96
  · rw [if_pos c2]; exact Words.rem_at me.bits (by decide) (by omega) (by omega)
  rw [if_neg c2]
  by_cases c3 : n ≤ 128
  · rw [if_pos c3]; exact Words.rem_at me.bits (by decide) (by omega) (by omega)
  rw [if_neg c3]
  by_cases c4 : n ≤ 160
  · rw [if_pos c4]; exact Words.rem_at me.bits (by decide) (by omega) (by omega)
  rw [if_neg c4]
  by_cases c5 : n ≤ 192
  · rw [if_pos c5]; exact Words.rem_at me.bits (by decide) (by omega) (by omega)
  rw [if_neg c5]
  by_cases c6 : n ≤ 224
  · rw [if_pos c6]; exact Words.rem_at me.bits (by decide) (by omega) (by omega)
  rw [if_neg c6]
  by_cases c7 : n ≤ 256
  · rw [if_pos c7]; exact Words.rem_at me.bits (by decide) (by omega) (by omega)
  rw [if_neg c7]
  by_cases c8 : n ≤ 288
  · rw [if_pos c8]; exact Words.rem_at me.bits (by decide) (by omega) (by omega)
  rw [if_neg c8]
  by_cases c9 : n ≤ 320
  · rw [if_pos c9]; exact Words.rem_at me.bits (by decide) (by omega) (by omega)
  rw [if_neg c9]
  by_cases c10 : n ≤ 352
  · rw [if_pos c10]; exact Words.rem_at me.bits (by decide) (by omega) (by omega)
  rw [if_neg c10]
  by_cases c11 : n ≤ 384
  · rw [if_pos c11]; exact Words.rem_at me.bits (by decide) (by omega) (by omega)
  rw [if_neg c11]
  by_cases c12 : n ≤ 416
  · rw [if_pos c12]; exact Words.rem_at me.bits (by decide) (by omega) (by omega)
  rw [if_neg c12]
  by_cases c13 : n ≤ 448
  · rw [if_pos c13]; exact Words.rem_at me.bits (by decide) (by omega) (by omega)
  rw [if_neg c13]
  by_cases c14 : n ≤ 480
  · rw [if_pos c14]; exact Words.rem_at me.bits (by decide) (by omega) (by omega)
  rw [if_neg c14]
  by_cases c15 : n ≤ 512
  · rw [if_pos c15]; exact Words.rem_at me.bits (by decide) (by omega) (by omega)
  rw [if_neg c15]
  by_cases c16 : n ≤ 544
  · rw [if_pos c16]; exact Words.rem_at me.bits (by decide) (by omega) (by omega)
  rw [if_neg c16]
  by_cases c17 : n ≤ 576
  · rw [if_pos c17]; exact Words.rem_at me.bits (by decide) (by omega) (by omega)
  rw [if_neg c17]
  by_cases c18 : n ≤ 608
  · rw [if_pos c18]; exact Words.rem_at me.bits (by decide) (by omega) (by omega)
  rw [if_neg c18]
  by_cases c19 : n ≤ 640
  · rw [if_pos c19]; exact Words.rem_at me.bits (by decide) (by omega) (by omega)
  rw [if_neg c19]
  by_cases c20 : n ≤ 672
  · rw [if_pos c20]; exact Words.rem_at me.bits (by decide) (by omega) (by omega)
  rw [if_neg c20]
  by_cases c21 : n ≤ 704
  · rw [if_pos c21]; exact Words.rem_at me.bits (by decide) (by omega) (by omega)
  rw [if_neg c21]
  by_cases c22 : n ≤ 736
  · rw [if_pos c22]; exact Words.rem_at me.bits (by decide) (by omega) (by omega)
  rw [if_neg c22]
  by_cases c23 : n ≤ 768
  · rw [if_pos c23]; exact Words.rem_at me.bits (by decide) (by omega) (by omega)
  rw [if_neg c23]
  by_cases c24 : n ≤ 800
  · rw [if_pos c24]; exact Words.rem_at me.bits (by decide) (by omega) (by omega)
  rw [if_neg c24]
  by_cases c25 : n ≤ 832
  · rw [if_pos c25]; exact Words.rem_at me.bits (by decide) (by omega) (by omega)
  rw [if_neg c25]
  by_cases c26 : n ≤ 864
  · rw [if_pos c26]; exact Words.rem_at me.bits (by decide) (by omega) (by omega)
  rw [if_neg c26]
  by_cases c27 : n ≤ 896
  · rw [if_pos c27]; exact Words.rem_at me.bits (by decide) (by omega) (by omega)
  rw [if_neg c27]
  by_cases c28 : n ≤ 928
  · rw [if_pos c28]; exact Words.rem_at me.bits (by decide) (by omega) (by omega)
  rw [if_neg c28]
  by_cases c29 : n ≤ 960
  · rw [if_pos c29]; exact Words.rem_at me.bits (by decide) (by omega) (by omega)
  rw [if_neg c29]
  by_cases c30 : n ≤ 992
  · rw [if_pos c30]; exact Words.rem_at me.bits (by decide) (by omega) (by omega)
  rw [if_neg c30]
  exact Words.rem_at me.bits (by decide) (by omega) (by omega)

theorem findMax_eq_v1024 (me : QPSet) : QPSet_findMax me = Words.max 32 me.bits := by
  unfold QPSet_findMax
  simp only [Words.max]
  rw [Words.max_one]

theorem notEmpty_iff_v1024 (me : QPSet) :
    QPSet_notEmpty me = true ↔ ∃ i, i < 32 ∧ me.bits i ≠ 0 := by
  constructor
  · intro h
    by_contra hall
    have hz : ∀ i, i < 32 → me.bits i = 0 := by
      intro i hi
      by_contra hne
      exact hall ⟨i, hi, hne⟩
    simp [QPSet_notEmpty, hz] at h
  · rintro ⟨i, hi, hne⟩
    interval_cases i <;> simp [QPSet_notEmpty, hne]

/-- The words `QPSet_isEmpty` looks at: all but `bits[7]`, and `bits[32]`. -/
theorem isEmpty_iff_v1024 (me : QPSet) :
    QPSet_isEmpty me = true ↔ ∀ i, i < 33 → i ≠ 7 → me.bits i = 0 := by
  constructor
  · intro h i hi h7
    by_contra hne
    interval_cases i <;> first | exact h7 rfl | simp [QPSet_isEmpty, hne] at h
  · intro h
    simp [QPSet_isEmpty, h]

theorem setEmpty_bits_v1024 (me : QPSet) {i : Nat} (hi : i < 32) : (QPSet_setEmpty me).bits i = 0 := by
  unfold QPSet_setEmpty QPSet.store
  interval_cases i <;> simp [Function.update_apply, castBits]

theorem sound_v1024 :
    Sound 1024 WF QPSet_hasElement QPSet_insert QPSet_remove QPSet_findMax where
  has_ins s n m h1 h2 h3 h4 := by
    rw [hasElement_eq_v1024 _ h3 h4, insert_bits_v1024 s h1 h2, hasElement_eq_v1024 s h3 h4]
    exact Words.has_ins_eq s.bits h1 h3
  has_rem s n m h1 h2 h3 h4 := by
    rw [hasElement_eq_v1024 _ h3 h4, remove_bits_v1024 s h1 h2, hasElement_eq_v1024 s h3 h4]
    exact Words.has_rem_eq s.bits h1 h3
  wf_ins s n h1 h2 hs := by
    unfold WF
    rw [insert_bits_v1024 s h1 h2]
    exact Words.wf_update hs _ _
  wf_rem s n h1 h2 hs := by
    unfold WF
    rw [remove_bits_v1024 s h1 h2]
    exact Words.wf_update hs _ _
  max_zero s hs := by
    rw [findMax_eq_v1024, Words.max_eq_zero_iff, Words.all_zero_iff 32 s.bits hs]
    constructor
    · intro h n h1 h2
      rw [hasElement_eq_v1024 s h1 h2]
      exact h n h1 (by omega)
    · intro h n h1 h2
      rw [← hasElement_eq_v1024 s h1 (by omega)]
      exact h n h1 (by omega)
  max_has s hs hne := by
    rw [findMax_eq_v1024] at hne ⊢
    obtain ⟨a, b, c⟩ := Words.max_spec 32 s.bits hs hne
    exact ⟨a, by omega, by rw [hasElement_eq_v1024 s a (by omega)]; exact c⟩
  max_ge s hs n h1 h2 hn := by
    rw [findMax_eq_v1024]
    rw [hasElement_eq_v1024 s h1 h2] at hn
    exact Words.le_max 32 s.bits h1 (by omega) hn

end V1024

/-! ## Consequences shared by the variants -/

namespace Sound

variable {S : Type} {N : Nat} {wf : S → Prop} {has : S → Nat → Bool}
  {ins rem : S → Nat → S} {fmax : S → Nat}

theorem findMaxCorrect (h : Sound N wf has ins rem fmax) (s : S) (hs : wf s) :
    FindMaxCorrect N has fmax s :=
  ⟨h.max_zero s hs, fun hne =>
    ⟨⟨(h.max_has s hs hne).1, (h.max_has s hs hne).2.1⟩, (h.max_has s hs hne).2.2,
      h.max_ge s hs⟩⟩

theorem has_ins_self (h : Sound N wf has ins rem fmax) (s : S) {n : Nat} (h1 : 1 ≤ n)
    (h2 : n ≤ N) : has (ins s n) n = true := by
  rw [h.has_ins s n n h1 h2 h1 h2]; simp

theorem fmax_ins_ne_zero (h : Sound N wf has ins rem fmax) (s : S) (hs : wf s) {n : Nat}
    (h1 : 1 ≤ n) (h2 : n ≤ N) : fmax (ins s n) ≠ 0 := by
  intro h0
  have := (h.max_zero (ins s n) (h.wf_ins s n h1 h2 hs)).mp h0 n h1 h2
  rw [h.has_ins_self s h1 h2] at this
  exact Bool.noConfusion this

theorem exists_iff (h : Sound N wf has ins rem fmax) (s : S) (hs : wf s) :
    (∃ n, 1 ≤ n ∧ n ≤ N ∧ has s n = true) ↔ fmax s ≠ 0 := by
  constructor
  · rintro ⟨n, h1, h2, hn⟩ h0
    rw [(h.max_zero s hs).mp h0 n h1 h2] at hn
    exact Bool.noConfusion hn
  · intro hne
    obtain ⟨b1, b2, b3⟩ := h.max_has s hs hne
    exact ⟨_, b1, b2, b3⟩

end Sound

/-! ### The loop that removes the maximum -/

theorem filter_cons_max {l : List Nat} (hl : l.Pairwise (fun a b => b < a))
    {p q : Nat → Bool} {m : Nat} (hm : m ∈ l) (hp : p m = true)
    (hmax : ∀ n, n ∈ l → p n = true → n ≤ m)
    (hq : ∀ n, n ∈ l → q n = (!decide (n = m) && p n)) :
    l.filter p = m :: l.filter q := by
  induction l with
  | nil => cases hm
  | cons a t ih =>
    rw [List.pairwise_cons] at hl
    by_cases ha : a = m
    · subst ha
      have hqa : q a = false := by rw [hq a (List.mem_cons_self _ _)]; simp
      rw [List.filter_cons_of_pos hp, List.filter_cons_of_neg (by simp [hqa])]
      congr 1
      apply List.filter_congr
      intro x hx
      have hlt := hl.1 x hx
      rw [hq x (List.mem_cons_of_mem _ hx)]
      have : ¬ x = a := by omega
      simp [this]
    · have hmt : m ∈ t := by
        rcases List.mem_cons.mp hm with e | e
        · exact absurd e.symm ha
        · exact e
      have hlt := hl.1 m hmt
      have hpa : p a = false := by
        by_contra hc
        have := hmax a (List.mem_cons_self _ _) (by simpa using hc)
        omega
      have hqa : q a = false := by rw [hq a (List.mem_cons_self _ _), hpa]; simp
      rw [List.filter_cons_of_neg (by simp [hpa]), List.filter_cons_of_neg (by simp [hqa])]
      exact ih hl.2 hmt (fun n hn => hmax n (List.mem_cons_of_mem _ hn))
        (fun n hn => hq n (List.mem_cons_of_mem _ hn))

/-- The numbers `N, N - 1, ..., 1`. -/
theorem mem_downFrom {N n : Nat} : n ∈ (List.range' 1 N).reverse ↔ 1 ≤ n ∧ n ≤ N := by
  rw [List.mem_reverse, List.mem_range'_1]
  omega

theorem pairwise_downFrom (N : Nat) :
    (List.range' 1 N).reverse.Pairwise (fun a b => b < a) := by
  rw [List.pairwise_reverse]
  exact List.pairwise_lt_range' 1 N

namespace Sound

variable {S : Type} {N : Nat} {wf : S → Prop} {has : S → Nat → Bool}
  {ins rem : S → Nat → S} {fmax : S → Nat}

/-- Removing the maximum takes the head off the descending list of elements. -/
theorem elements_step (h : Sound N wf has ins rem fmax) (s : S) (hs : wf s)
    (hne : fmax s ≠ 0) :
    (List.range' 1 N).reverse.filter (fun n => has s n)
      = fmax s :: (List.range' 1 N).reverse.filter (fun n => has (rem s (fmax s)) n) := by
  obtain ⟨b1, b2, b3⟩ := h.max_has s hs hne
  apply filter_cons_max (pairwise_downFrom N) (mem_downFrom.mpr ⟨b1, b2⟩) b3
  · intro n hn hp
    obtain ⟨n1, n2⟩ := mem_downFrom.mp hn
    exact h.max_ge s hs n n1 n2 hp
  · intro n hn
    obtain ⟨n1, n2⟩ := mem_downFrom.mp hn
    exact h.has_rem s (fmax s) n b1 b2 n1 n2

theorem elements_nil (h : Sound N wf has ins rem fmax) (s : S) (hs : wf s)
    (h0 : fmax s = 0) : (List.range' 1 N).reverse.filter (fun n => has s n) = [] := by
  rw [List.filter_eq_nil_iff]
  intro n hn
  obtain ⟨n1, n2⟩ := mem_downFrom.mp hn
  rw [(h.max_zero s hs).mp h0 n n1 n2]
  exact Bool.false_ne_true

theorem removeMaxLoop_eq (h : Sound N wf has ins rem fmax) :
    ∀ (fuel : Nat) (s : S), wf s → fmax s ≠ 0 →
      ((List.range' 1 N).reverse.filter (fun n => has s n)).length ≤ fuel →
      ∃ final, removeMaxLoop fmax rem fuel s
          = some ((List.range' 1 N).reverse.filter (fun n => has s n), final) ∧
        ∀ n, 1 ≤ n → n ≤ N → has final n = false
  | 0, s, hs, hne, hlen => by
    rw [h.elements_step s hs hne] at hlen
    simp at hlen
  | fuel + 1, s, hs, hne, hlen => by
    obtain ⟨b1, b2, _⟩ := h.max_has s hs hne
    have hs1 : wf (rem s (fmax s)) := h.wf_rem s _ b1 b2 hs
    rw [h.elements_step s hs hne] at hlen ⊢
    simp only [List.length_cons, Nat.add_le_add_iff_right] at hlen
    unfold removeMaxLoop
    by_cases h0 : fmax (rem s (fmax s)) = 0
    · refine ⟨rem s (fmax s), ?_, (h.max_zero _ hs1).mp h0⟩
      simp only [h0, if_true]
      rw [h.elements_nil _ hs1 h0]
    · obtain ⟨final, e, hfin⟩ := h.removeMaxLoop_eq fuel _ hs1 h0 hlen
      refine ⟨final, ?_, hfin⟩
      simp only [h0, if_false]
      rw [e]
      rfl

theorem card_eq (N : Nat) (has : S → Nat → Bool) (s : S) :
    card N has s = ((List.range' 1 N).reverse.filter (fun n => has s n)).length := by
  unfold card
  rw [List.countP_eq_length_filter, List.filter_reverse, List.length_reverse]

theorem drainsDescending (h : Sound N wf has ins rem fmax) (s : S) (hs : wf s)
    (hex : ∃ n, 1 ≤ n ∧ n ≤ N ∧ has s n = true) : DrainsDescending N has fmax rem s := by
  intro fuel hfuel
  have hne : fmax s ≠ 0 := (h.exists_iff s hs).mp hex
  rw [card_eq] at hfuel
  obtain ⟨final, e, hfin⟩ := h.removeMaxLoop_eq fuel s hs hne hfuel
  refine ⟨_, final, e, (card_eq N has s).symm, ?_, ?_, hfin⟩
  · exact (pairwise_downFrom N).sublist (List.filter_sublist _)
  · intro n
    rw [List.mem_filter, mem_downFrom]

end Sound

/-! ## Insertion followed by removal, emptiness tests, `QPSet_setEmpty` -/

namespace Words

theorem rem_ins_cancel (f : Nat → Nat) {n : Nat} (hlt : f ((n - 1) / 32) < 2 ^ 32)
    (hn : has f n = false) : rem (ins f n) n = f := by
  unfold has at hn
  unfold rem ins
  have hb : (n - 1) % 32 < 32 := Nat.mod_lt _ (by decide)
  rw [Function.update_same, Function.update_idem]
  apply Function.update_eq_self_iff.mpr
  apply Nat.eq_of_testBit_eq
  intro j
  by_cases hj : j < 32
  · rw [testBit_and_mask hb hj, testBit_or_mask hb hj]
    by_cases e : j = (n - 1) % 32
    · subst e; simp [hn]
    · simp [e]
  · have h1 : (2 : Nat) ^ 32 ≤ 2 ^ j := Nat.pow_le_pow_right (by decide) (by omega)
    rw [Nat.testBit_lt_two_pow (Nat.lt_of_lt_of_le hlt h1)]
    unfold castBits
    rw [Nat.testBit_mod_two_pow]
    simp [hj]

theorem has_of_zero (f : Nat → Nat) {n : Nat} (h : f ((n - 1) / 32) = 0) : has f n = false := by
  unfold has
  rw [h, Nat.zero_testBit]

end Words


namespace V32

theorem remove_insert_cancel_v32 {w : Nat} (hw : w ≤ 32) (s : QPSet) (hs : WF w s) {n : Nat}
    (h1 : 1 ≤ n) (h2 : n ≤ w) (hn : QPSet_hasElement s n = false) :
    QPSet_remove w (QPSet_insert w s n) n = s := by
  rw [hasElement_eq_v32 s h1 (by omega)] at hn
  have key : (QPSet_remove w (QPSet_insert w s n) n).bits = s.bits := by
    apply Nat.eq_of_testBit_eq
    intro j
    by_cases hj : j < w
    · rw [testBit_remove_v32 hw _ h1 h2 hj, testBit_insert_v32 hw _ h1 h2 hj]
      by_cases e : j = n - 1
      · subst e; simp [hn]
      · simp [e]
    · have h3 : (2 : Nat) ^ w ≤ 2 ^ j := Nat.pow_le_pow_right (by decide) (by omega)
      rw [Nat.testBit_lt_two_pow (Nat.lt_of_lt_of_le hs h3)]
      exact Nat.testBit_lt_two_pow (Nat.lt_of_lt_of_le (castBits_lt w _) h3)
  cases s
  simpa [QPSet_remove, QPSet_insert] using key

theorem isEmpty_iff_v32 (me : QPSet) : QPSet_isEmpty me = true ↔ me.bits = 0 := by
  simp [QPSet_isEmpty]

theorem notEmpty_iff_v32 (me : QPSet) : QPSet_notEmpty me = true ↔ me.bits ≠ 0 := by
  simp [QPSet_notEmpty]

theorem findMax_eq_zero_iff_v32 (me : QPSet) : QPSet_findMax me = 0 ↔ me.bits = 0 :=
  QF_LOG2_eq_zero_iff _

theorem hasElement_zero_v32 (n : Nat) : QPSet_hasElement ⟨0⟩ n = false := by
  simp [QPSet_hasElement]

end V32

namespace V64

theorem eq_of_bits_v64 {a b : QPSet} (h : a.bits = b.bits) : a = b := by
  cases a; cases b; cases h; rfl

theorem remove_insert_cancel_v64 (s : QPSet) (hs : WF s) {n : Nat} (h1 : 1 ≤ n) (h2 : n ≤ 64)
    (hn : QPSet_hasElement s n = false) : QPSet_remove (QPSet_insert s n) n = s := by
  apply eq_of_bits_v64
  rw [hasElement_eq_v64 s h1 h2] at hn
  rw [remove_bits_v64 _ h1 h2, insert_bits_v64 _ h1 h2]
  exact Words.rem_ins_cancel s.bits (hs _ (by omega)) hn

theorem findMax_eq_zero_iff_v64 (me : QPSet) :
    QPSet_findMax me = 0 ↔ ∀ i, i < 2 → me.bits i = 0 := by
  rw [findMax_eq_v64, Words.max_eq_zero_iff]

theorem hasElement_setEmpty_v64 (me : QPSet) {n : Nat} (h1 : 1 ≤ n) (h2 : n ≤ 64) :
    QPSet_hasElement (QPSet_setEmpty me) n = false := by
  rw [hasElement_eq_v64 _ h1 h2]
  exact Words.has_of_zero _ (setEmpty_bits_v64 me (by omega))

end V64

namespace V256

theorem eq_of_bits_v256 {a b : QPSet} (h : a.bits = b.bits) : a = b := by
  cases a; cases b; cases h; rfl

theorem remove_insert_cancel_v256 (s : QPSet) (hs : WF s) {n : Nat} (h1 : 1 ≤ n) (h2 : n ≤ 256)
    (hn : QPSet_hasElement s n = false) : QPSet_remove (QPSet_insert s n) n = s := by
  apply eq_of_bits_v256
  rw [hasElement_eq_v256 s h1 h2] at hn
  rw [remove_bits_v256 _ h1 h2, insert_bits_v256 _ h1 h2]
  exact Words.rem_ins_cancel s.bits (hs _ (by omega)) hn

theorem findMax_eq_zero_iff_v256 (me : QPSet) :
    QPSet_findMax.rhs me = 0 ↔ ∀ i, i < 8 → me.bits i = 0 := by
  rw [findMax_eq_v256, Words.max_eq_zero_iff]

theorem hasElement_setEmpty_v256 (me : QPSet) {n : Nat} (h1 : 1 ≤ n) (h2 : n ≤ 256) :
    QPSet_hasElement (QPSet_setEmpty me) n = false := by
  rw [hasElement_eq_v256 _ h1 h2]
  exact Words.has_of_zero _ (setEmpty_bits_v256 me (by omega))

end V256

namespace V1024

theorem eq_of_bits_v1024 {a b : QPSet} (h : a.bits = b.bits) : a = b := by
  cases a; cases b; cases h; rfl

theorem remove_insert_cancel_v1024 (s : QPSet) (hs : WF s) {n : Nat} (h1 : 1 ≤ n) (h2 : n ≤ 1024)
    (hn : QPSet_hasElement s n = false) : QPSet_remove (QPSet_insert s n) n = s := by
  apply eq_of_bits_v1024
  rw [hasElement_eq_v1024 s h1 h2] at hn
  rw [remove_bits_v1024 _ h1 h2, insert_bits_v1024 _ h1 h2]
  exact Words.rem_ins_cancel s.bits (hs _ (by omega)) hn

theorem findMax_eq_zero_iff_v1024 (me : QPSet) :
    QPSet_findMax me = 0 ↔ ∀ i, i < 32 → me.bits i = 0 := by
  rw [findMax_eq_v1024, Words.max_eq_zero_iff]

theorem hasElement_setEmpty_v1024 (me : QPSet) {n : Nat} (h1 : 1 ≤ n) (h2 : n ≤ 1024) :
    QPSet_hasElement (QPSet_setEmpty me) n = false := by
  rw [hasElement_eq_v1024 _ h1 h2]
  exact Words.has_of_zero _ (setEmpty_bits_v1024 me (by omega))

end V1024

namespace Sound

variable {S : Type} {N : Nat} {wf : S → Prop} {has : S → Nat → Bool}
  {ins rem : S → Nat → S} {fmax : S → Nat}

theorem has_ins_iff (h : Sound N wf has ins rem fmax) (s : S) {n m : Nat} (h1 : 1 ≤ n)
    (h2 : n ≤ N) (h3 : 1 ≤ m) (h4 : m ≤ N) :
    has (ins s n) m = true ↔ (m = n ∨ has s m = true) := by
  rw [h.has_ins s n m h1 h2 h3 h4]; simp

theorem has_rem_iff (h : Sound N wf has ins rem fmax) (s : S) {n m : Nat} (h1 : 1 ≤ n)
    (h2 : n ≤ N) (h3 : 1 ≤ m) (h4 : m ≤ N) :
    has (rem s n) m = true ↔ (m ≠ n ∧ has s m = true) := by
  rw [h.has_rem s n m h1 h2 h3 h4]; simp

theorem exists_iff_not_all (h : Sound N wf has ins rem fmax) (s : S) (hs : wf s) :
    (∃ n, 1 ≤ n ∧ n ≤ N ∧ has s n = true) ↔ ¬ ∀ n, 1 ≤ n → n ≤ N → has s n = false := by
  rw [h.exists_iff s hs, ← h.max_zero s hs]

end Sound

theorem width_le {w : Nat} (hw : w = 8 ∨ w = 16 ∨ w = 32) : w ≤ 32 := by
  omega

/-! ## `QPSet_isEmpty` where it is right -/

theorem V32.isEmpty_correct_v32 {w : Nat} (hw : w ≤ 32) (s : V32.QPSet) (hs : V32.WF w s) :
    (V32.QPSet_isEmpty s = true ↔ ∀ n, 1 ≤ n → n ≤ w → V32.QPSet_hasElement s n = false) ∧
    (V32.QPSet_isEmpty s = true ↔ s.bits = 0) := by
  refine ⟨?_, V32.isEmpty_iff_v32 s⟩
  rw [V32.isEmpty_iff_v32, ← V32.findMax_eq_zero_iff_v32]
  exact (V32.sound_v32 hw).max_zero s hs

theorem V64.isEmpty_correct_v64 (s : V64.QPSet) (hs : V64.WF s) :
    (V64.QPSet_isEmpty s = true ↔ ∀ n, 1 ≤ n → n ≤ 64 → V64.QPSet_hasElement s n = false) ∧
    (V64.QPSet_isEmpty s = true ↔ ∀ i, i < 2 → s.bits i = 0) := by
  refine ⟨?_, V64.isEmpty_iff_v64 s⟩
  rw [V64.isEmpty_iff_v64, ← V64.findMax_eq_zero_iff_v64]
  exact V64.sound_v64.max_zero s hs

theorem V256.isEmpty_correct_v256 (s : V256.QPSet) (hs : V256.WF s) :
    (V256.QPSet_isEmpty s = true ↔ ∀ n, 1 ≤ n → n ≤ 256 → V256.QPSet_hasElement s n = false) ∧
    (V256.QPSet_isEmpty s = true ↔ ∀ i, i < 8 → s.bits i = 0) := by
  refine ⟨?_, V256.isEmpty_iff_v256 s⟩
  rw [V256.isEmpty_iff_v256, ← V256.findMax_eq_zero_iff_v256]
  exact V256.sound_v256.max_zero s hs

theorem V32.isEmpty_insert_v32 {w : Nat} (hw : w ≤ 32) (s : V32.QPSet) (hs : V32.WF w s) {n : Nat}
    (h1 : 1 ≤ n) (h2 : n ≤ w) : V32.QPSet_isEmpty (V32.QPSet_insert w s n) = false := by
  have hne := (V32.sound_v32 hw).fmax_ins_ne_zero s hs h1 h2
  rw [Ne, V32.findMax_eq_zero_iff_v32, ← V32.isEmpty_iff_v32] at hne
  simpa using hne

theorem V64.isEmpty_insert_v64 (s : V64.QPSet) (hs : V64.WF s) {n : Nat} (h1 : 1 ≤ n)
    (h2 : n ≤ 64) : V64.QPSet_isEmpty (V64.QPSet_insert s n) = false := by
  have hne := V64.sound_v64.fmax_ins_ne_zero s hs h1 h2
  rw [Ne, V64.findMax_eq_zero_iff_v64, ← V64.isEmpty_iff_v64] at hne
  simpa using hne

theorem V256.isEmpty_insert_v256 (s : V256.QPSet) (hs : V256.WF s) {n : Nat} (h1 : 1 ≤ n)
    (h2 : n ≤ 256) : V256.QPSet_isEmpty (V256.QPSet_insert s n) = false := by
  have hne := V256.sound_v256.fmax_ins_ne_zero s hs h1 h2
  rw [Ne, V256.findMax_eq_zero_iff_v256, ← V256.isEmpty_iff_v256] at hne
  simpa using hne

theorem V32.notEmpty_correct_v32 {w : Nat} (hw : w ≤ 32) (s : V32.QPSet) (hs : V32.WF w s) :
    V32.QPSet_notEmpty s = true ↔ ∃ n, 1 ≤ n ∧ n ≤ w ∧ V32.QPSet_hasElement s n = true := by
  rw [(V32.sound_v32 hw).exists_iff s hs, V32.notEmpty_iff_v32, Ne, Ne, V32.findMax_eq_zero_iff_v32]

theorem V64.notEmpty_correct_v64 (s : V64.QPSet) (hs : V64.WF s) :
    V64.QPSet_notEmpty s = true ↔ ∃ n, 1 ≤ n ∧ n ≤ 64 ∧ V64.QPSet_hasElement s n = true := by
  rw [V64.sound_v64.exists_iff s hs, V64.notEmpty_iff_v64, Ne, V64.findMax_eq_zero_iff_v64]
  push_neg
  rfl

theorem V256.notEmpty_correct_v256 (s : V256.QPSet) (hs : V256.WF s) :
    V256.QPSet_notEmpty s = true ↔ ∃ n, 1 ≤ n ∧ n ≤ 256 ∧ V256.QPSet_hasElement s n = true := by
  rw [V256.sound_v256.exists_iff s hs, V256.notEmpty_iff_v256, Ne, V256.findMax_eq_zero_iff_v256]
  push_neg
  rfl

theorem V1024.notEmpty_correct_v1024 (s : V1024.QPSet) (hs : V1024.WF s) :
    V1024.QPSet_notEmpty s = true ↔
      ∃ n, 1 ≤ n ∧ n ≤ 1024 ∧ V1024.QPSet_hasElement s n = true := by
  rw [V1024.sound_v1024.exists_iff s hs, V1024.notEmpty_iff_v1024, Ne, V1024.findMax_eq_zero_iff_v1024]
  push_neg
  rfl

/-! ## The width of `n_` in the 256-element variant -/

namespace V256

theorem rhs_le_v256 (s : QPSet) (hs : WF s) : QPSet_findMax.rhs s ≤ 256 := by
  rw [findMax_eq_v256]
  by_cases h : Words.max 8 s.bits = 0
  · omega
  · have := (Words.max_spec 8 s.bits hs h).2.1
    omega

theorem findMax_of_wide_v256 {nbits : Nat} (h : 256 < 2 ^ nbits) (s : QPSet) (hs : WF s) :
    QPSet_findMax nbits s = QPSet_findMax.rhs s := by
  unfold QPSet_findMax
  exact castBits_of_lt (Nat.lt_of_le_of_lt (rhs_le_v256 s hs) h)

theorem findMax_of_zero_v256 (nbits : Nat) (s : QPSet) (h : ∀ i, i < 8 → s.bits i = 0) :
    QPSet_findMax nbits s = 0 := by
  unfold QPSet_findMax
  rw [(findMax_eq_zero_iff_v256 s).mpr h]
  exact Nat.zero_mod _

theorem sound_wide_v256 {nbits : Nat} (h : 256 < 2 ^ nbits) :
    Sound 256 WF QPSet_hasElement QPSet_insert QPSet_remove (QPSet_findMax nbits) where
  has_ins := sound_v256.has_ins
  has_rem := sound_v256.has_rem
  wf_ins := sound_v256.wf_ins
  wf_rem := sound_v256.wf_rem
  max_zero s hs := by rw [findMax_of_wide_v256 h s hs]; exact sound_v256.max_zero s hs
  max_has s hs := by rw [findMax_of_wide_v256 h s hs]; exact sound_v256.max_has s hs
  max_ge s hs := by rw [findMax_of_wide_v256 h s hs]; exact sound_v256.max_ge s hs

end V256

namespace V256

theorem findMax_of_lt_v256 {nbits : Nat} (s : QPSet) (h : QPSet_findMax.rhs s < 2 ^ nbits) :
    QPSet_findMax nbits s = QPSet_findMax.rhs s :=
  castBits_of_lt h

/-- With `n_` of 8 bits or more the value stored is right on every set that
does not hold the element 256. -/
theorem findMax_correct_without_256_v256 {nbits : Nat} (h8 : 8 ≤ nbits) (s : QPSet) (hs : WF s)
    (h256 : QPSet_hasElement s 256 = false) :
    FindMaxCorrect 256 QPSet_hasElement (QPSet_findMax nbits) s := by
  have hp : (2 : Nat) ^ 8 ≤ 2 ^ nbits := Nat.pow_le_pow_right (by decide) h8
  have hlt : QPSet_findMax.rhs s < 2 ^ nbits := by
    by_cases h0 : QPSet_findMax.rhs s = 0
    · omega
    · obtain ⟨_, b2, b3⟩ := sound_v256.max_has s hs h0
      have hne : QPSet_findMax.rhs s ≠ 256 := by
        intro e
        rw [e, h256] at b3
        exact Bool.noConfusion b3
      omega
  have hc := sound_v256.findMaxCorrect s hs
  unfold FindMaxCorrect at hc ⊢
  rw [findMax_of_lt_v256 s hlt]
  exact hc

end V256

/-- What holds of C1.  With `QF_LOG2` the 1-based index of the most significant
set bit and 0 for 0: on every state, `QPSet_findMax` yields 0 if and only if
no `n` in `1..N` is reported by `QPSet_hasElement`, and otherwise yields an
`n` in `1..N` that `QPSet_hasElement` reports and that is greater than or
equal to every element present; this in the single word of 8, 16 or 32 bits,
in the arrays of 64 and 1024 bits, and in the array of 256 bits when `n_` is
wider than 8 bits, or has 8 bits and the set does not hold the element 256. -/
theorem findMax_correct_where_stored :
    (∀ w, (w = 8 ∨ w = 16 ∨ w = 32) → ∀ s, V32.WF w s →
      FindMaxCorrect w V32.QPSet_hasElement V32.QPSet_findMax s) ∧
    (∀ s, V64.WF s → FindMaxCorrect 64 V64.QPSet_hasElement V64.QPSet_findMax s) ∧
    (∀ nbits, 256 < 2 ^ nbits → ∀ s, V256.WF s →
      FindMaxCorrect 256 V256.QPSet_hasElement (V256.QPSet_findMax nbits) s) ∧
    (∀ nbits, 8 ≤ nbits → ∀ s, V256.WF s → V256.QPSet_hasElement s 256 = false →
      FindMaxCorrect 256 V256.QPSet_hasElement (V256.QPSet_findMax nbits) s) ∧
    (∀ s, V1024.WF s →
      FindMaxCorrect 1024 V1024.QPSet_hasElement V1024.QPSet_findMax s) :=
  ⟨fun _ hw s hs => (V32.sound_v32 (width_le hw)).findMaxCorrect s hs,
   fun s hs => V64.sound_v64.findMaxCorrect s hs,
   fun _ h s hs => (V256.sound_wide_v256 h).findMaxCorrect s hs,
   fun _ h8 s hs h256 => V256.findMax_correct_without_256_v256 h8 s hs h256,
   fun s hs => V1024.sound_v1024.findMaxCorrect s hs⟩

/-- What holds of C2.  On every non-empty state with `k` elements, the loop
that takes `QPSet_findMax` into `m` and does `QPSet_remove(m)` until
`QPSet_findMax` yields 0 ends after exactly `k` removals; the values removed
are exactly the elements of the set, in strictly descending order, and no
element is present afterwards; this in the single word of 8, 16 or 32 bits,
in the arrays of 64 and 1024 bits, and in the array of 256 bits when `n_` is
wider than 8 bits. -/
theorem removeMax_drains_where_stored :
    (∀ w, (w = 8 ∨ w = 16 ∨ w = 32) → ∀ s, V32.WF w s →
      (∃ n, 1 ≤ n ∧ n ≤ w ∧ V32.QPSet_hasElement s n = true) →
      DrainsDescending w V32.QPSet_hasElement V32.QPSet_findMax (V32.QPSet_remove w) s) ∧
    (∀ s, V64.WF s → (∃ n, 1 ≤ n ∧ n ≤ 64 ∧ V64.QPSet_hasElement s n = true) →
      DrainsDescending 64 V64.QPSet_hasElement V64.QPSet_findMax V64.QPSet_remove s) ∧
    (∀ nbits, 256 < 2 ^ nbits → ∀ s, V256.WF s →
      (∃ n, 1 ≤ n ∧ n ≤ 256 ∧ V256.QPSet_hasElement s n = true) →
      DrainsDescending 256 V256.QPSet_hasElement (V256.QPSet_findMax nbits)
        V256.QPSet_remove s) ∧
    (∀ s, V1024.WF s → (∃ n, 1 ≤ n ∧ n ≤ 1024 ∧ V1024.QPSet_hasElement s n = true) →
      DrainsDescending 1024 V1024.QPSet_hasElement V1024.QPSet_findMax
        V1024.QPSet_remove s) :=
  ⟨fun _ hw s hs hex => (V32.sound_v32 (width_le hw)).drainsDescending s hs hex,
   fun s hs hex => V64.sound_v64.drainsDescending s hs hex,
   fun _ h s hs hex => (V256.sound_wide_v256 h).drainsDescending s hs hex,
   fun s hs hex => V1024.sound_v1024.drainsDescending s hs hex⟩

/-- C3. In every variant with `N` bits of storage, for every state `s` and all
`n`, `m` in `1..N`: `QPSet_hasElement(m)` is true after `QPSet_insert(n)` if
and only if `m = n` or `QPSet_hasElement(m)` was true in `s`. -/
theorem qpset_hasElement_insert :
    (∀ w, (w = 8 ∨ w = 16 ∨ w = 32) → ∀ s n m, 1 ≤ n → n ≤ w → 1 ≤ m → m ≤ w →
      (V32.QPSet_hasElement (V32.QPSet_insert w s n) m = true ↔
        (m = n ∨ V32.QPSet_hasElement s m = true))) ∧
    (∀ s n m, 1 ≤ n → n ≤ 64 → 1 ≤ m → m ≤ 64 →
      (V64.QPSet_hasElement (V64.QPSet_insert s n) m = true ↔
        (m = n ∨ V64.QPSet_hasElement s m = true))) ∧
    (∀ s n m, 1 ≤ n → n ≤ 256 → 1 ≤ m → m ≤ 256 →
      (V256.QPSet_hasElement (V256.QPSet_insert s n) m = true ↔
        (m = n ∨ V256.QPSet_hasElement s m = true))) ∧
    (∀ s n m, 1 ≤ n → n ≤ 1024 → 1 ≤ m → m ≤ 1024 →
      (V1024.QPSet_hasElement (V1024.QPSet_insert s n) m = true ↔
        (m = n ∨ V1024.QPSet_hasElement s m = true))) :=
  ⟨fun _ hw s _ _ h1 h2 h3 h4 => (V32.sound_v32 (width_le hw)).has_ins_iff s h1 h2 h3 h4,
   fun s _ _ h1 h2 h3 h4 => V64.sound_v64.has_ins_iff s h1 h2 h3 h4,
   fun s _ _ h1 h2 h3 h4 => V256.sound_v256.has_ins_iff s h1 h2 h3 h4,
   fun s _ _ h1 h2 h3 h4 => V1024.sound_v1024.has_ins_iff s h1 h2 h3 h4⟩

/-- C3 at the highest element of each variant inserted into the sample state,
observed at the element 3. -/
theorem qpset_hasElement_insert_witness :
    (V32.QPSet_hasElement (V32.QPSet_insert 8 V32.sample 8) 3 = true ↔
      (3 = 8 ∨ V32.QPSet_hasElement V32.sample 3 = true)) ∧
    (V64.QPSet_hasElement (V64.QPSet_insert V64.sample 64) 3 = true ↔
      (3 = 64 ∨ V64.QPSet_hasElement V64.sample 3 = true)) ∧
    (V256.QPSet_hasElement (V256.QPSet_insert V256.sample 256) 3 = true ↔
      (3 = 256 ∨ V256.QPSet_hasElement V256.sample 3 = true)) ∧
    (V1024.QPSet_hasElement (V1024.QPSet_insert V1024.sample 1024) 3 = true ↔
      (3 = 1024 ∨ V1024.QPSet_hasElement V1024.sample 3 = true)) :=
  ⟨qpset_hasElement_insert.1 8 (by decide) V32.sample 8 3 (by decide) (by decide)
      (by decide) (by decide),
   qpset_hasElement_insert.2.1 V64.sample 64 3 (by decide) (by decide) (by decide)
      (by decide),
   qpset_hasElement_insert.2.2.1 V256.sample 256 3 (by decide) (by decide) (by decide)
      (by decide),
   qpset_hasElement_insert.2.2.2 V1024.sample 1024 3 (by decide) (by decide) (by decide)
      (by decide)⟩

/-- C4. In every variant with `N` bits of storage, for every state `s` and all
`n`, `m` in `1..N`: `QPSet_hasElement(m)` is true after `QPSet_remove(n)` if
and only if `m` differs from `n` and `QPSet_hasElement(m)` was true in `s`. -/
theorem qpset_hasElement_remove :
    (∀ w, (w = 8 ∨ w = 16 ∨ w = 32) → ∀ s n m, 1 ≤ n → n ≤ w → 1 ≤ m → m ≤ w →
      (V32.QPSet_hasElement (V32.QPSet_remove w s n) m = true ↔
        (m ≠ n ∧ V32.QPSet_hasElement s m = true))) ∧
    (∀ s n m, 1 ≤ n → n ≤ 64 → 1 ≤ m → m ≤ 64 →
      (V64.QPSet_hasElement (V64.QPSet_remove s n) m = true ↔
        (m ≠ n ∧ V64.QPSet_hasElement s m = true))) ∧
    (∀ s n m, 1 ≤ n → n ≤ 256 → 1 ≤ m → m ≤ 256 →
      (V256.QPSet_hasElement (V256.QPSet_remove s n) m = true ↔
        (m ≠ n ∧ V256.QPSet_hasElement s m = true))) ∧
    (∀ s n m, 1 ≤ n → n ≤ 1024 → 1 ≤ m → m ≤ 1024 →
      (V1024.QPSet_hasElement (V1024.QPSet_remove s n) m = true ↔
        (m ≠ n ∧ V1024.QPSet_hasElement s m = true))) :=
  ⟨fun _ hw s _ _ h1 h2 h3 h4 => (V32.sound_v32 (width_le hw)).has_rem_iff s h1 h2 h3 h4,
   fun s _ _ h1 h2 h3 h4 => V64.sound_v64.has_rem_iff s h1 h2 h3 h4,
   fun s _ _ h1 h2 h3 h4 => V256.sound_v256.has_rem_iff s h1 h2 h3 h4,
   fun s _ _ h1 h2 h3 h4 => V1024.sound_v1024.has_rem_iff s h1 h2 h3 h4⟩

/-- C4 at the element 3 removed from the sample state, observed at 3 itself. -/
theorem qpset_hasElement_remove_witness :
    (V32.QPSet_hasElement (V32.QPSet_remove 16 V32.sample 3) 3 = true ↔
      (3 ≠ 3 ∧ V32.QPSet_hasElement V32.sample 3 = true)) ∧
    (V64.QPSet_hasElement (V64.QPSet_remove V64.sample 3) 3 = true ↔
      (3 ≠ 3 ∧ V64.QPSet_hasElement V64.sample 3 = true)) ∧
    (V256.QPSet_hasElement (V256.QPSet_remove V256.sample 3) 3 = true ↔
      (3 ≠ 3 ∧ V256.QPSet_hasElement V256.sample 3 = true)) ∧
    (V1024.QPSet_hasElement (V1024.QPSet_remove V1024.sample 3) 3 = true ↔
      (3 ≠ 3 ∧ V1024.QPSet_hasElement V1024.sample 3 = true)) :=
  ⟨qpset_hasElement_remove.1 16 (by decide) V32.sample 3 3 (by decide) (by decide)
      (by decide) (by decide),
   qpset_hasElement_remove.2.1 V64.sample 3 3 (by decide) (by decide) (by decide)
      (by decide),
   qpset_hasElement_remove.2.2.1 V256.sample 3 3 (by decide) (by decide) (by decide)
      (by decide),
   qpset_hasElement_remove.2.2.2 V1024.sample 3 3 (by decide) (by decide) (by decide)
      (by decide)⟩

/-- C5, as stated, fails when `n` is already an element: on each sample state,
which has the element 3, `QPSet_insert(3)` followed by `QPSet_remove(3)`
changes word 0 of the storage and the result of `QPSet_hasElement(3)`. -/
theorem qpset_insert_remove_drops_element :
    (V32.QPSet_remove 32 (V32.QPSet_insert 32 V32.sample 3) 3 ≠ V32.sample ∧
      V32.QPSet_hasElement V32.sample 3 = true ∧
      V32.QPSet_hasElement (V32.QPSet_remove 32 (V32.QPSet_insert 32 V32.sample 3) 3) 3
        = false) ∧
    ((V64.QPSet_remove (V64.QPSet_insert V64.sample 3) 3).bits 0 ≠ V64.sample.bits 0 ∧
      V64.QPSet_hasElement V64.sample 3 = true ∧
      V64.QPSet_hasElement (V64.QPSet_remove (V64.QPSet_insert V64.sample 3) 3) 3
        = false) ∧
    ((V256.QPSet_remove (V256.QPSet_insert V256.sample 3) 3).bits 0 ≠ V256.sample.bits 0 ∧
      V256.QPSet_hasElement V256.sample 3 = true ∧
      V256.QPSet_hasElement (V256.QPSet_remove (V256.QPSet_insert V256.sample 3) 3) 3
        = false) ∧
    ((V1024.QPSet_remove (V1024.QPSet_insert V1024.sample 3) 3).bits 0
        ≠ V1024.sample.bits 0 ∧
      V1024.QPSet_hasElement V1024.sample 3 = true ∧
      V1024.QPSet_hasElement (V1024.QPSet_remove (V1024.QPSet_insert V1024.sample 3) 3) 3
        = false) := by
  decide

/-- C5, amended. In every variant, for every state `s` and every `n` in `1..N`
that is not an element of `s`, `QPSet_insert(n)` followed by `QPSet_remove(n)`
yields `s` again: every storage word, and with it the result of every
observation, is the same as in `s`. -/
theorem qpset_insert_remove_cancel :
    (∀ w, (w = 8 ∨ w = 16 ∨ w = 32) → ∀ s, V32.WF w s → ∀ n, 1 ≤ n → n ≤ w →
      V32.QPSet_hasElement s n = false →
      V32.QPSet_remove w (V32.QPSet_insert w s n) n = s) ∧
    (∀ s, V64.WF s → ∀ n, 1 ≤ n → n ≤ 64 → V64.QPSet_hasElement s n = false →
      V64.QPSet_remove (V64.QPSet_insert s n) n = s) ∧
    (∀ s, V256.WF s → ∀ n, 1 ≤ n → n ≤ 256 → V256.QPSet_hasElement s n = false →
      V256.QPSet_remove (V256.QPSet_insert s n) n = s) ∧
    (∀ s, V1024.WF s → ∀ n, 1 ≤ n → n ≤ 1024 → V1024.QPSet_hasElement s n = false →
      V1024.QPSet_remove (V1024.QPSet_insert s n) n = s) :=
  ⟨fun _ hw s hs _ h1 h2 hn => V32.remove_insert_cancel_v32 (width_le hw) s hs h1 h2 hn,
   fun s hs _ h1 h2 hn => V64.remove_insert_cancel_v64 s hs h1 h2 hn,
   fun s hs _ h1 h2 hn => V256.remove_insert_cancel_v256 s hs h1 h2 hn,
   fun s hs _ h1 h2 hn => V1024.remove_insert_cancel_v1024 s hs h1 h2 hn⟩

/-- C5, amended, at the element 2, which no sample state has. -/
theorem qpset_insert_remove_cancel_witness :
    V32.QPSet_remove 32 (V32.QPSet_insert 32 V32.sample 2) 2 = V32.sample ∧
    V64.QPSet_remove (V64.QPSet_insert V64.sample 2) 2 = V64.sample ∧
    V256.QPSet_remove (V256.QPSet_insert V256.sample 2) 2 = V256.sample ∧
    V1024.QPSet_remove (V1024.QPSet_insert V1024.sample 2) 2 = V1024.sample :=
  ⟨qpset_insert_remove_cancel.1 32 (by decide) V32.sample (by decide) 2 (by decide)
      (by decide) (by decide),
   qpset_insert_remove_cancel.2.1 V64.sample (by decide) 2 (by decide) (by decide)
      (by decide),
   qpset_insert_remove_cancel.2.2.1 V256.sample (by decide) 2 (by decide) (by decide)
      (by decide),
   qpset_insert_remove_cancel.2.2.2 V1024.sample (by decide) 2 (by decide) (by decide)
      (by decide)⟩

/-- C6 fails in the 1024-element variant: after `QPSet_insert(225)` into the
empty set, whose bit is bit 0 of `bits[7]`, `QPSet_isEmpty` still evaluates to
true, because `bits[7]` is not among the words it tests. -/
theorem qpset_isEmpty_after_insert_225 :
    V1024.WF V1024.empty ∧
    V1024.QPSet_hasElement (V1024.QPSet_insert V1024.empty 225) 225 = true ∧
    V1024.QPSet_isEmpty (V1024.QPSet_insert V1024.empty 225) = true := by
  decide

/-- C8 fails in the 1024-element variant.  On the set whose only element is 225
`QPSet_isEmpty` evaluates to true although `QPSet_hasElement(225)` is true and
`bits[7]` is not zero; on the empty set followed in memory by a non-zero word
it evaluates to false although all 32 storage words are zero. -/
theorem qpset_isEmpty_1024_wrong_words :
    (V1024.WF V1024.only225 ∧
      V1024.QPSet_isEmpty V1024.only225 = true ∧
      V1024.QPSet_hasElement V1024.only225 225 = true ∧
      V1024.only225.bits 7 ≠ 0) ∧
    (V1024.WF V1024.emptyBeforeNonZero ∧
      V1024.QPSet_isEmpty V1024.emptyBeforeNonZero = false ∧
      ∀ i, i < 32 → V1024.emptyBeforeNonZero.bits i = 0) := by
  decide

/-- C9. In every variant, on every state, `QPSet_notEmpty` evaluates to true if
and only if `QPSet_hasElement(n)` is true for some `n` in `1..N`. -/
theorem qpset_notEmpty_iff_exists :
    (∀ w, (w = 8 ∨ w = 16 ∨ w = 32) → ∀ s, V32.WF w s →
      (V32.QPSet_notEmpty s = true ↔
        ∃ n, 1 ≤ n ∧ n ≤ w ∧ V32.QPSet_hasElement s n = true)) ∧
    (∀ s, V64.WF s →
      (V64.QPSet_notEmpty s = true ↔
        ∃ n, 1 ≤ n ∧ n ≤ 64 ∧ V64.QPSet_hasElement s n = true)) ∧
    (∀ s, V256.WF s →
      (V256.QPSet_notEmpty s = true ↔
        ∃ n, 1 ≤ n ∧ n ≤ 256 ∧ V256.QPSet_hasElement s n = true)) ∧
    (∀ s, V1024.WF s →
      (V1024.QPSet_notEmpty s = true ↔
        ∃ n, 1 ≤ n ∧ n ≤ 1024 ∧ V1024.QPSet_hasElement s n = true)) :=
  ⟨fun _ hw s hs => V32.notEmpty_correct_v32 (width_le hw) s hs,
   fun s hs => V64.notEmpty_correct_v64 s hs,
   fun s hs => V256.notEmpty_correct_v256 s hs,
   fun s hs => V1024.notEmpty_correct_v1024 s hs⟩

/-- C9 on the sample states and on the set whose only element is 225. -/
theorem qpset_notEmpty_iff_exists_witness :
    (V32.QPSet_notEmpty V32.sample = true ↔
      ∃ n, 1 ≤ n ∧ n ≤ 32 ∧ V32.QPSet_hasElement V32.sample n = true) ∧
    (V64.QPSet_notEmpty V64.sample = true ↔
      ∃ n, 1 ≤ n ∧ n ≤ 64 ∧ V64.QPSet_hasElement V64.sample n = true) ∧
    (V256.QPSet_notEmpty V256.sample = true ↔
      ∃ n, 1 ≤ n ∧ n ≤ 256 ∧ V256.QPSet_hasElement V256.sample n = true) ∧
    (V1024.QPSet_notEmpty V1024.only225 = true ↔
      ∃ n, 1 ≤ n ∧ n ≤ 1024 ∧ V1024.QPSet_hasElement V1024.only225 n = true) :=
  ⟨qpset_notEmpty_iff_exists.1 32 (by decide) V32.sample (by decide),
   qpset_notEmpty_iff_exists.2.1 V64.sample (by decide),
   qpset_notEmpty_iff_exists.2.2.1 V256.sample (by decide),
   qpset_notEmpty_iff_exists.2.2.2 V1024.only225 (by decide)⟩

/-- C10. In every variant, whatever the prior state, after `QPSet_setEmpty`
every storage word is zero, `QPSet_hasElement(n)` is false for every `n` in
`1..N`, and `QPSet_findMax` yields 0, whatever the width of `n_`. -/
theorem qpset_setEmpty_empty :
    (∀ s, (V32.QPSet_setEmpty s).bits = 0 ∧
      (∀ n, 1 ≤ n → n ≤ 32 → V32.QPSet_hasElement (V32.QPSet_setEmpty s) n = false) ∧
      V32.QPSet_findMax (V32.QPSet_setEmpty s) = 0) ∧
    (∀ s, (∀ i, i < 2 → (V64.QPSet_setEmpty s).bits i = 0) ∧
      (∀ n, 1 ≤ n → n ≤ 64 → V64.QPSet_hasElement (V64.QPSet_setEmpty s) n = false) ∧
      V64.QPSet_findMax (V64.QPSet_setEmpty s) = 0) ∧
    (∀ s, (∀ i, i < 8 → (V256.QPSet_setEmpty s).bits i = 0) ∧
      (∀ n, 1 ≤ n → n ≤ 256 → V256.QPSet_hasElement (V256.QPSet_setEmpty s) n = false) ∧
      ∀ nbits, V256.QPSet_findMax nbits (V256.QPSet_setEmpty s) = 0) ∧
    (∀ s, (∀ i, i < 32 → (V1024.QPSet_setEmpty s).bits i = 0) ∧
      (∀ n, 1 ≤ n → n ≤ 1024 →
        V1024.QPSet_hasElement (V1024.QPSet_setEmpty s) n = false) ∧
      V1024.QPSet_findMax (V1024.QPSet_setEmpty s) = 0) :=
  ⟨fun _ => ⟨rfl, fun n _ _ => V32.hasElement_zero_v32 n, QF_LOG2_zero⟩,
   fun s => ⟨fun _ hi => V64.setEmpty_bits_v64 s hi,
     fun _ h1 h2 => V64.hasElement_setEmpty_v64 s h1 h2,
     (V64.findMax_eq_zero_iff_v64 _).mpr (fun _ hi => V64.setEmpty_bits_v64 s hi)⟩,
   fun s => ⟨fun _ hi => V256.setEmpty_bits_v256 s hi,
     fun _ h1 h2 => V256.hasElement_setEmpty_v256 s h1 h2,
     fun nbits => V256.findMax_of_zero_v256 nbits _ (fun _ hi => V256.setEmpty_bits_v256 s hi)⟩,
   fun s => ⟨fun _ hi => V1024.setEmpty_bits_v1024 s hi,
     fun _ h1 h2 => V1024.hasElement_setEmpty_v1024 s h1 h2,
     (V1024.findMax_eq_zero_iff_v1024 _).mpr (fun _ hi => V1024.setEmpty_bits_v1024 s hi)⟩⟩

/-- C10 on the sample states: word 0, the element 3 and the maximum after
`QPSet_setEmpty`. -/
theorem qpset_setEmpty_empty_witness :
    ((V32.QPSet_setEmpty V32.sample).bits = 0 ∧
      V32.QPSet_hasElement (V32.QPSet_setEmpty V32.sample) 3 = false ∧
      V32.QPSet_findMax (V32.QPSet_setEmpty V32.sample) = 0) ∧
    ((V64.QPSet_setEmpty V64.sample).bits 0 = 0 ∧
      V64.QPSet_hasElement (V64.QPSet_setEmpty V64.sample) 3 = false ∧
      V64.QPSet_findMax (V64.QPSet_setEmpty V64.sample) = 0) ∧
    ((V256.QPSet_setEmpty V256.sample).bits 0 = 0 ∧
      V256.QPSet_hasElement (V256.QPSet_setEmpty V256.sample) 3 = false ∧
      V256.QPSet_findMax 8 (V256.QPSet_setEmpty V256.sample) = 0) ∧
    ((V1024.QPSet_setEmpty V1024.sample).bits 0 = 0 ∧
      V1024.QPSet_hasElement (V1024.QPSet_setEmpty V1024.sample) 3 = false ∧
      V1024.QPSet_findMax (V1024.QPSet_setEmpty V1024.sample) = 0) :=
  ⟨⟨(qpset_setEmpty_empty.1 V32.sample).1,
      (qpset_setEmpty_empty.1 V32.sample).2.1 3 (by decide) (by decide),
      (qpset_setEmpty_empty.1 V32.sample).2.2⟩,
   ⟨(qpset_setEmpty_empty.2.1 V64.sample).1 0 (by decide),
      (qpset_setEmpty_empty.2.1 V64.sample).2.1 3 (by decide) (by decide),
      (qpset_setEmpty_empty.2.1 V64.sample).2.2⟩,
   ⟨(qpset_setEmpty_empty.2.2.1 V256.sample).1 0 (by decide),
      (qpset_setEmpty_empty.2.2.1 V256.sample).2.1 3 (by decide) (by decide),
      (qpset_setEmpty_empty.2.2.1 V256.sample).2.2 8⟩,
   ⟨(qpset_setEmpty_empty.2.2.2 V1024.sample).1 0 (by decide),
      (qpset_setEmpty_empty.2.2.2 V1024.sample).2.1 3 (by decide) (by decide),
      (qpset_setEmpty_empty.2.2.2 V1024.sample).2.2⟩⟩

/-! ## The width of `QPSetBits`, and the one bit of each element -/

namespace V32

theorem castBits_mask_of_lt_v32 {w n : Nat} (h1 : w < n) (h2 : n ≤ 32) :
    castBits w (shl32 1 (n - 1)) = 0 := by
  rw [shl32_one (by omega)]
  unfold castBits
  have e : n - 1 = w + (n - 1 - w) := by omega
  rw [e, Nat.pow_add]
  exact Nat.mul_mod_right _ _

theorem insert_of_lt_v32 {w : Nat} (s : QPSet) (hs : WF w s) {n : Nat} (h1 : w < n)
    (h2 : n ≤ 32) : QPSet_insert w s n = s := by
  unfold QPSet_insert
  rw [castBits_mask_of_lt_v32 h1 h2, Nat.or_zero, castBits_of_lt hs]

theorem hasElement_of_lt_v32 {w : Nat} (s : QPSet) (hs : WF w s) {n : Nat} (h1 : w < n)
    (h2 : n ≤ 32) : QPSet_hasElement s n = false := by
  rw [hasElement_eq_v32 s (by omega) h2]
  apply Nat.testBit_lt_two_pow
  exact Nat.lt_of_lt_of_le hs (Nat.pow_le_pow_right (by decide) (by omega))

end V32

namespace Words

theorem sameExceptBit_ins (f : Nat → Nat) (n : Nat) (hlt : f ((n - 1) / 32) < 2 ^ 32) :
    SameExceptBit n f (ins f n) := by
  have hb : (n - 1) % 32 < 32 := Nat.mod_lt _ (by decide)
  constructor
  · intro i hi
    unfold ins
    rw [Function.update_noteq hi]
  · intro j hj
    unfold ins
    rw [Function.update_same]
    by_cases h32 : j < 32
    · rw [testBit_or_mask hb h32]
      simp [hj]
    · have h1 : (2 : Nat) ^ 32 ≤ 2 ^ j := Nat.pow_le_pow_right (by decide) (by omega)
      rw [Nat.testBit_lt_two_pow (Nat.lt_of_lt_of_le hlt h1)]
      exact Nat.testBit_lt_two_pow (Nat.lt_of_lt_of_le (castBits_lt 32 _) h1)

theorem sameExceptBit_rem (f : Nat → Nat) (n : Nat) (hlt : f ((n - 1) / 32) < 2 ^ 32) :
    SameExceptBit n f (rem f n) := by
  have hb : (n - 1) % 32 < 32 := Nat.mod_lt _ (by decide)
  constructor
  · intro i hi
    unfold rem
    rw [Function.update_noteq hi]
  · intro j hj
    unfold rem
    rw [Function.update_same]
    by_cases h32 : j < 32
    · rw [testBit_and_mask hb h32]
      simp [hj]
    · have h1 : (2 : Nat) ^ 32 ≤ 2 ^ j := Nat.pow_le_pow_right (by decide) (by omega)
      rw [Nat.testBit_lt_two_pow (Nat.lt_of_lt_of_le hlt h1)]
      exact Nat.testBit_lt_two_pow (Nat.lt_of_lt_of_le (castBits_lt 32 _) h1)

theorem position_injective {n m : Nat} (hn : 1 ≤ n) (hm : 1 ≤ m) (hne : n ≠ m) :
    ((n - 1) / 32, (n - 1) % 32) ≠ ((m - 1) / 32, (m - 1) % 32) := by
  intro h
  have h1 := congrArg Prod.fst h
  have h2 := congrArg Prod.snd h
  simp only at h1 h2
  omega

theorem position_monotone {n m : Nat} (hn : 1 ≤ n) (hlt : n < m) :
    (n - 1) / 32 < (m - 1) / 32 ∨
      ((n - 1) / 32 = (m - 1) / 32 ∧ (n - 1) % 32 < (m - 1) % 32) := by
  omega

end Words

namespace V64

theorem one_bit_v64 (s : QPSet) (hs : WF s) {n : Nat} (h1 : 1 ≤ n) (h2 : n ≤ 64) :
    SameExceptBit n s.bits (QPSet_insert s n).bits ∧
    SameExceptBit n s.bits (QPSet_remove s n).bits ∧
    QPSet_hasElement s n = (s.bits ((n - 1) / 32)).testBit ((n - 1) % 32) := by
  rw [insert_bits_v64 s h1 h2, remove_bits_v64 s h1 h2, hasElement_eq_v64 s h1 h2]
  exact ⟨Words.sameExceptBit_ins s.bits n (hs _ (by omega)),
    Words.sameExceptBit_rem s.bits n (hs _ (by omega)), rfl⟩

end V64

namespace V256

theorem one_bit_v256 (s : QPSet) (hs : WF s) {n : Nat} (h1 : 1 ≤ n) (h2 : n ≤ 256) :
    SameExceptBit n s.bits (QPSet_insert s n).bits ∧
    SameExceptBit n s.bits (QPSet_remove s n).bits ∧
    QPSet_hasElement s n = (s.bits ((n - 1) / 32)).testBit ((n - 1) % 32) := by
  rw [insert_bits_v256 s h1 h2, remove_bits_v256 s h1 h2, hasElement_eq_v256 s h1 h2]
  exact ⟨Words.sameExceptBit_ins s.bits n (hs _ (by omega)),
    Words.sameExceptBit_rem s.bits n (hs _ (by omega)), rfl⟩

end V256

namespace V1024

theorem one_bit_v1024 (s : QPSet) (hs : WF s) {n : Nat} (h1 : 1 ≤ n) (h2 : n ≤ 1024) :
    SameExceptBit n s.bits (QPSet_insert s n).bits ∧
    SameExceptBit n s.bits (QPSet_remove s n).bits ∧
    QPSet_hasElement s n = (s.bits ((n - 1) / 32)).testBit ((n - 1) % 32) := by
  rw [insert_bits_v1024 s h1 h2, remove_bits_v1024 s h1 h2, hasElement_eq_v1024 s h1 h2]
  exact ⟨Words.sameExceptBit_ins s.bits n (hs _ (by omega)),
    Words.sameExceptBit_rem s.bits n (hs _ (by omega)), rfl⟩

end V1024

/-! ## The loop of the `CRUNCH_SIG` case -/

theorem body_eq_add_leibnizTerm {k : Nat} (hk : k < 2 ^ 31) (sum : ℚ) :
    Cruncher_processing.body k sum = sum + leibnizTerm k := by
  have hmod : (2 * k + 1) % 2 ^ 32 = 2 * k + 1 := Nat.mod_eq_of_lt (by omega)
  unfold Cruncher_processing.body leibnizTerm
  rw [hmod, Nat.and_one_is_mod]
  have hcast : (((2 * k + 1 : Nat)) : ℚ) = 2 * (k : ℚ) + 1 := by push_cast; ring
  rw [hcast]
  rcases Nat.even_or_odd k with he | ho
  · have h0 : k % 2 = 0 := Nat.even_iff.mp he
    rw [if_pos h0, he.neg_one_pow]
  · have h1 : k % 2 = 1 := Nat.odd_iff.mp ho
    have h0 : ¬ k % 2 = 0 := by omega
    rw [if_neg h0, ho.neg_one_pow]
    ring

theorem loop_of_not_lt {n i : Nat} (h : ¬ n < i) (sum : ℚ) :
    Cruncher_processing.loop n i sum = sum := by
  rw [Cruncher_processing.loop, if_neg h]

theorem loop_of_lt {n i : Nat} (h : n < i) (sum : ℚ) :
    Cruncher_processing.loop n i sum
      = Cruncher_processing.loop (n + 1) i (Cruncher_processing.body n sum) := by
  rw [Cruncher_processing.loop, if_pos h]

/-- The loop from `n` to `n + d` runs the body for `n`, `n + 1`, ..., `n + d - 1`. -/
theorem loop_eq_foldl : ∀ (d n : Nat) (sum : ℚ),
    Cruncher_processing.loop n (n + d) sum
      = (List.range d).foldl (fun s k => Cruncher_processing.body (n + k) s) sum
  | 0, n, sum => by
    rw [loop_of_not_lt (by omega)]
    rfl
  | d + 1, n, sum => by
    rw [loop_of_lt (by omega), List.range_succ_eq_map, List.foldl_cons, List.foldl_map]
    have e : n + (d + 1) = (n + 1) + d := by omega
    rw [e, loop_eq_foldl d (n + 1)]
    simp only [Nat.add_zero, Nat.succ_eq_add_one]
    congr 1
    funext s k
    congr 1
    omega

/-- In exact arithmetic, and as long as `2 * k + 1` does not wrap, the loop
adds the terms of the Leibniz series. -/
theorem loop_eq_sum : ∀ (d n : Nat) (sum : ℚ), n + d ≤ 2 ^ 31 →
    Cruncher_processing.loop n (n + d) sum
      = sum + Finset.sum (Finset.Ico n (n + d)) leibnizTerm
  | 0, n, sum, _ => by
    rw [loop_of_not_lt (by omega)]
    simp
  | d + 1, n, sum, h => by
    rw [loop_of_lt (by omega), body_eq_add_leibnizTerm (by omega)]
    have e : n + (d + 1) = (n + 1) + d := by omega
    rw [e, loop_eq_sum d (n + 1) _ (by omega),
      Finset.sum_eq_sum_Ico_succ_bot (show n < n + 1 + d by omega)]
    ring

/-- The body adds `1/(2k+1)` with the sign of `(-1)^k`, the denominator being
the `uint32_t` value of `2*k + 1`. -/
theorem body_eq_add_term (k : Nat) (sum : ℚ) :
    Cruncher_processing.body k sum
      = sum + (-1 : ℚ) ^ k / (((2 * k + 1) % 2 ^ 32 : Nat) : ℚ) := by
  unfold Cruncher_processing.body
  rw [Nat.and_one_is_mod]
  rcases Nat.even_or_odd k with he | ho
  · have h0 : k % 2 = 0 := Nat.even_iff.mp he
    rw [if_pos h0, he.neg_one_pow]
  · have h1 : k % 2 = 1 := Nat.odd_iff.mp ho
    have h0 : ¬ k % 2 = 0 := by omega
    rw [if_neg h0, ho.neg_one_pow]
    ring

/-- The loop from `n` to `n + d` adds the terms of the rounds `n`, ...,
`n + d - 1`, whatever the counters are. -/
theorem loop_eq_sum_terms : ∀ (d n : Nat) (sum : ℚ),
    Cruncher_processing.loop n (n + d) sum
      = sum + Finset.sum (Finset.Ico n (n + d))
          (fun k => (-1 : ℚ) ^ k / (((2 * k + 1) % 2 ^ 32 : Nat) : ℚ))
  | 0, n, sum => by
    rw [loop_of_not_lt (by omega)]
    simp
  | d + 1, n, sum => by
    rw [loop_of_lt (by omega), body_eq_add_term]
    have e : n + (d + 1) = (n + 1) + d := by omega
    rw [e, loop_eq_sum_terms d (n + 1) _,
      Finset.sum_eq_sum_Ico_succ_bot (show n < n + 1 + d by omega)]
    ring

theorem processing_crunch (me : Cruncher) (e : ReminderEvt) (hsig : e.super.sig = CRUNCH_SIG) :
    Cruncher_processing me e =
      if (e.iter + 100) % 2 ^ 32 < 0x07000000 then
        { status := QState.Q_HANDLED
          me := ⟨Cruncher_processing.loop e.iter ((e.iter + 100) % 2 ^ 32) me.sum⟩
          trace := [Action.Q_NEW CRUNCH_SIG,
            Action.QACTIVE_POST ActorRef.me
              (EvtRef.allocated CRUNCH_SIG ((e.iter + 100) % 2 ^ 32))] }
      else
        { status := QState.Q_TRAN StateFn.Cruncher_processing
          me := ⟨Cruncher_processing.loop e.iter ((e.iter + 100) % 2 ^ 32) me.sum⟩
          trace := [Action.PRINTF_S "pi=%16.14f\n" (PrintArg.num
            (4 * Cruncher_processing.loop e.iter ((e.iter + 100) % 2 ^ 32) me.sum))] } := by
  unfold Cruncher_processing
  have h1 : ¬ e.super.sig = QSignal.Q_ENTRY_SIG := by rw [hsig]; decide
  rw [if_neg h1, if_pos hsig]

theorem processing_sum (me : Cruncher) (e : ReminderEvt) (hsig : e.super.sig = CRUNCH_SIG)
    (h : e.iter + 100 < 2 ^ 32) :
    (Cruncher_processing me e).me.sum
      = Cruncher_processing.loop e.iter (e.iter + 100) me.sum := by
  rw [processing_crunch me e hsig, Nat.mod_eq_of_lt h]
  split <;> rfl

/-! ## The width of the single word, and the addressing of the arrays -/

/-- C11, as stated, fails for the narrow widths: with `QPSetBits` of 8 bits
`QPSet_insert(9)` into the empty set leaves the set as it was and
`QPSet_hasElement(9)` is false afterwards, and likewise for 16 bits and the
elements 17 and 32. -/
theorem qpset_narrow_insert_no_effect :
    (V32.WF 8 ⟨0⟩ ∧ V32.QPSet_insert 8 ⟨0⟩ 9 = ⟨0⟩ ∧
      V32.QPSet_hasElement (V32.QPSet_insert 8 ⟨0⟩ 9) 9 = false) ∧
    (V32.WF 16 ⟨0⟩ ∧ V32.QPSet_insert 16 ⟨0⟩ 17 = ⟨0⟩ ∧
      V32.QPSet_hasElement (V32.QPSet_insert 16 ⟨0⟩ 17) 17 = false) ∧
    (V32.WF 16 ⟨0⟩ ∧ V32.QPSet_insert 16 ⟨0⟩ 32 = ⟨0⟩ ∧
      V32.QPSet_hasElement (V32.QPSet_insert 16 ⟨0⟩ 32) 32 = false) := by
  decide

/-- C11, amended. The single-word variant stores as many priority levels as
`QPSetBits` has bits: for every width `w` of `QPSetBits` (8, 16 or 32), every
state and every `n` in `1..w`, `QPSet_hasElement(n)` is true after
`QPSet_insert(n)`; for `n` in `w+1..32` the shifted mask truncated to `w` bits
is 0, `QPSet_insert(n)` leaves the set as it is and `QPSet_hasElement(n)` is
false. -/
theorem qpset_insert_within_width :
    ∀ w, (w = 8 ∨ w = 16 ∨ w = 32) →
      (∀ s n, 1 ≤ n → n ≤ w →
        V32.QPSet_hasElement (V32.QPSet_insert w s n) n = true) ∧
      (∀ s, V32.WF w s → ∀ n, w < n → n ≤ 32 →
        castBits w (shl32 1 (n - 1)) = 0 ∧ V32.QPSet_insert w s n = s ∧
          V32.QPSet_hasElement (V32.QPSet_insert w s n) n = false) :=
  fun _ hw =>
    ⟨fun s _ h1 h2 => (V32.sound_v32 (width_le hw)).has_ins_self s h1 h2,
     fun s hs _ h1 h2 =>
      ⟨V32.castBits_mask_of_lt_v32 h1 h2, V32.insert_of_lt_v32 s hs h1 h2, by
        rw [V32.insert_of_lt_v32 s hs h1 h2]; exact V32.hasElement_of_lt_v32 s hs h1 h2⟩⟩

/-- C11, amended, at width 8: the element 8 inserted into the sample state, and
the element 9, which the 8 bits do not hold. -/
theorem qpset_insert_within_width_witness :
    V32.QPSet_hasElement (V32.QPSet_insert 8 V32.sample 8) 8 = true ∧
    (V32.WF 8 V32.sample ∧ castBits 8 (shl32 1 (9 - 1)) = 0 ∧
      V32.QPSet_insert 8 V32.sample 9 = V32.sample ∧
      V32.QPSet_hasElement (V32.QPSet_insert 8 V32.sample 9) 9 = false) :=
  ⟨(qpset_insert_within_width 8 (by decide)).1 V32.sample 8 (by decide) (by decide),
   by decide,
   (qpset_insert_within_width 8 (by decide)).2 V32.sample (by decide) 9 (by decide)
     (by decide)⟩

/-- C12. In every array variant each `n` in `1..N` has one bit of one word:
`QPSet_insert(n)` and `QPSet_remove(n)` leave every word other than word
`(n-1) div 32` as it is and change at most bit `(n-1) mod 32` of that word,
which is the bit `QPSet_hasElement(n)` reads; distinct `n` have distinct
(word, bit) positions, and a larger `n` has the lexicographically larger
position. -/
theorem qpset_one_bit_per_element :
    (∀ s, V64.WF s → ∀ n, 1 ≤ n → n ≤ 64 →
      SameExceptBit n s.bits (V64.QPSet_insert s n).bits ∧
      SameExceptBit n s.bits (V64.QPSet_remove s n).bits ∧
      V64.QPSet_hasElement s n = (s.bits ((n - 1) / 32)).testBit ((n - 1) % 32)) ∧
    (∀ s, V256.WF s → ∀ n, 1 ≤ n → n ≤ 256 →
      SameExceptBit n s.bits (V256.QPSet_insert s n).bits ∧
      SameExceptBit n s.bits (V256.QPSet_remove s n).bits ∧
      V256.QPSet_hasElement s n = (s.bits ((n - 1) / 32)).testBit ((n - 1) % 32)) ∧
    (∀ s, V1024.WF s → ∀ n, 1 ≤ n → n ≤ 1024 →
      SameExceptBit n s.bits (V1024.QPSet_insert s n).bits ∧
      SameExceptBit n s.bits (V1024.QPSet_remove s n).bits ∧
      V1024.QPSet_hasElement s n = (s.bits ((n - 1) / 32)).testBit ((n - 1) % 32)) ∧
    (∀ n m : Nat, 1 ≤ n → 1 ≤ m → n ≠ m →
      ((n - 1) / 32, (n - 1) % 32) ≠ ((m - 1) / 32, (m - 1) % 32)) ∧
    (∀ n m : Nat, 1 ≤ n → n < m →
      (n - 1) / 32 < (m - 1) / 32 ∨
        ((n - 1) / 32 = (m - 1) / 32 ∧ (n - 1) % 32 < (m - 1) % 32)) :=
  ⟨fun s hs _ h1 h2 => V64.one_bit_v64 s hs h1 h2,
   fun s hs _ h1 h2 => V256.one_bit_v256 s hs h1 h2,
   fun s hs _ h1 h2 => V1024.one_bit_v1024 s hs h1 h2,
   fun _ _ hn hm hne => Words.position_injective hn hm hne,
   fun _ _ hn hlt => Words.position_monotone hn hlt⟩

/-- C12 on the sample states, at the highest element of each variant, and for
the positions of the elements 32 and 33. -/
theorem qpset_one_bit_per_element_witness :
    (SameExceptBit 64 V64.sample.bits (V64.QPSet_insert V64.sample 64).bits ∧
      SameExceptBit 64 V64.sample.bits (V64.QPSet_remove V64.sample 64).bits ∧
      V64.QPSet_hasElement V64.sample 64
        = (V64.sample.bits ((64 - 1) / 32)).testBit ((64 - 1) % 32)) ∧
    (SameExceptBit 256 V256.sample.bits (V256.QPSet_insert V256.sample 256).bits ∧
      SameExceptBit 256 V256.sample.bits (V256.QPSet_remove V256.sample 256).bits ∧
      V256.QPSet_hasElement V256.sample 256
        = (V256.sample.bits ((256 - 1) / 32)).testBit ((256 - 1) % 32)) ∧
    (SameExceptBit 1024 V1024.sample.bits (V1024.QPSet_insert V1024.sample 1024).bits ∧
      SameExceptBit 1024 V1024.sample.bits (V1024.QPSet_remove V1024.sample 1024).bits ∧
      V1024.QPSet_hasElement V1024.sample 1024
        = (V1024.sample.bits ((1024 - 1) / 32)).testBit ((1024 - 1) % 32)) ∧
    ((32 - 1) / 32, (32 - 1) % 32) ≠ ((33 - 1) / 32, (33 - 1) % 32) ∧
    ((32 - 1) / 32 < (33 - 1) / 32 ∨
      ((32 - 1) / 32 = (33 - 1) / 32 ∧ (32 - 1) % 32 < (33 - 1) % 32)) :=
  ⟨qpset_one_bit_per_element.1 V64.sample (by decide) 64 (by decide) (by decide),
   qpset_one_bit_per_element.2.1 V256.sample (by decide) 256 (by decide) (by decide),
   qpset_one_bit_per_element.2.2.1 V1024.sample (by decide) 1024 (by decide) (by decide),
   qpset_one_bit_per_element.2.2.2.1 32 33 (by decide) (by decide) (by decide),
   qpset_one_bit_per_element.2.2.2.2 32 33 (by decide) (by decide)⟩

/-! ## The Cruncher state machine -/

/-- C14. For every `CRUNCH_SIG` event whose counter `iter` satisfies
`iter + 100 < 0x07000000`, `Cruncher_processing` allocates one `CRUNCH_SIG`
event, stores `iter + 100` into it and posts it to the actor itself, makes no
other call (nothing is printed), and returns `Q_HANDLED()`. -/
theorem cruncher_crunch_reposts (me : Cruncher) (e : ReminderEvt)
    (hsig : e.super.sig = CRUNCH_SIG) (h : e.iter + 100 < 0x07000000) :
    (Cruncher_processing me e).status = QState.Q_HANDLED ∧
    (Cruncher_processing me e).trace =
      [Action.Q_NEW CRUNCH_SIG,
       Action.QACTIVE_POST ActorRef.me (EvtRef.allocated CRUNCH_SIG (e.iter + 100))] := by
  have hmod : (e.iter + 100) % 2 ^ 32 = e.iter + 100 := Nat.mod_eq_of_lt (by omega)
  rw [processing_crunch me e hsig, hmod, if_pos h]
  exact ⟨rfl, rfl⟩

/-- C14 on the first event of a run, with `iter = 0`. -/
theorem cruncher_crunch_reposts_witness :
    (Cruncher_processing Cruncher.sample (ReminderEvt.sample CRUNCH_SIG 0)).status
      = QState.Q_HANDLED ∧
    (Cruncher_processing Cruncher.sample (ReminderEvt.sample CRUNCH_SIG 0)).trace =
      [Action.Q_NEW CRUNCH_SIG,
       Action.QACTIVE_POST ActorRef.me (EvtRef.allocated CRUNCH_SIG (0 + 100))] :=
  cruncher_crunch_reposts Cruncher.sample (ReminderEvt.sample CRUNCH_SIG 0) (by decide)
    (by decide)

/-- C15. With `sum` in exact rational arithmetic: for every prior `sum` and
every `CRUNCH_SIG` event with counter `iter` such that `iter + 99 < 2^31`,
after `Cruncher_processing` has handled the event `sum` is the prior `sum`
plus the sum over `k` from `iter` to `iter + 99` of `(-1)^k / (2k + 1)`,
whichever branch is taken afterwards. -/
theorem cruncher_crunch_sum (me : Cruncher) (e : ReminderEvt)
    (hsig : e.super.sig = CRUNCH_SIG) (h : e.iter + 99 < 2 ^ 31) :
    (Cruncher_processing me e).me.sum
      = me.sum + Finset.sum (Finset.Icc e.iter (e.iter + 99)) leibnizTerm := by
  rw [processing_sum me e hsig (by omega), loop_eq_sum 100 e.iter me.sum (by omega)]
  rfl

/-- C15 on an event of the branch that posts again (`iter = 0`) and on the
last event of a run (`iter = 0x07000000 - 100`), which is reported. -/
theorem cruncher_crunch_sum_witness :
    (Cruncher_processing Cruncher.sample (ReminderEvt.sample CRUNCH_SIG 0)).me.sum
      = Cruncher.sample.sum + Finset.sum (Finset.Icc 0 (0 + 99)) leibnizTerm ∧
    (Cruncher_processing Cruncher.sample
        (ReminderEvt.sample CRUNCH_SIG (0x07000000 - 100))).me.sum
      = Cruncher.sample.sum
        + Finset.sum (Finset.Icc (0x07000000 - 100) (0x07000000 - 100 + 99)) leibnizTerm :=
  ⟨cruncher_crunch_sum Cruncher.sample (ReminderEvt.sample CRUNCH_SIG 0) (by decide)
      (by decide),
   cruncher_crunch_sum Cruncher.sample (ReminderEvt.sample CRUNCH_SIG (0x07000000 - 100))
      (by decide) (by decide)⟩

/-- C16. For every `CRUNCH_SIG` event whose counter `iter` satisfies
`0x07000000 <= iter + 100 < 2^32`, `Cruncher_processing` returns
`Q_TRAN(&Cruncher_processing)`; its only call is the one `PRINTF_S` of 4 times
the new `sum` (no event is allocated or posted); and the new `sum` is the prior
`sum` plus the 100 terms of this batch, the term of round `k`, for `k` from
`iter` to `iter + 99`, being `(-1)^k / d` with `d` the `uint32_t` value of
`2*k + 1`.  Where `iter + 99 < 2^31` no `2*k + 1` wraps and the terms are
`leibnizTerm k`, that is `(-1)^k / (2k + 1)`. -/
theorem cruncher_crunch_reports (me : Cruncher) (e : ReminderEvt)
    (hsig : e.super.sig = CRUNCH_SIG) (h1 : 0x07000000 ≤ e.iter + 100)
    (h2 : e.iter + 100 < 2 ^ 32) :
    (Cruncher_processing me e).status = QState.Q_TRAN StateFn.Cruncher_processing ∧
    (Cruncher_processing me e).trace =
      [Action.PRINTF_S "pi=%16.14f\n"
        (PrintArg.num (4 * (me.sum + Finset.sum (Finset.Icc e.iter (e.iter + 99))
          (fun k => (-1 : ℚ) ^ k / (((2 * k + 1) % 2 ^ 32 : Nat) : ℚ)))))] ∧
    (Cruncher_processing me e).me.sum =
      me.sum + Finset.sum (Finset.Icc e.iter (e.iter + 99))
        (fun k => (-1 : ℚ) ^ k / (((2 * k + 1) % 2 ^ 32 : Nat) : ℚ)) ∧
    (e.iter + 99 < 2 ^ 31 →
      (Cruncher_processing me e).me.sum =
        me.sum + Finset.sum (Finset.Icc e.iter (e.iter + 99)) leibnizTerm) := by
  have hmod : (e.iter + 100) % 2 ^ 32 = e.iter + 100 := Nat.mod_eq_of_lt h2
  have hnot : ¬ e.iter + 100 < 0x07000000 := by omega
  have hloop : Cruncher_processing.loop e.iter (e.iter + 100) me.sum =
      me.sum + Finset.sum (Finset.Icc e.iter (e.iter + 99))
        (fun k => (-1 : ℚ) ^ k / (((2 * k + 1) % 2 ^ 32 : Nat) : ℚ)) :=
    loop_eq_sum_terms 100 e.iter me.sum
  have hleib : e.iter + 99 < 2 ^ 31 →
      Cruncher_processing.loop e.iter (e.iter + 100) me.sum =
        me.sum + Finset.sum (Finset.Icc e.iter (e.iter + 99)) leibnizTerm :=
    fun h => loop_eq_sum 100 e.iter me.sum (by omega)
  rw [processing_crunch me e hsig, hmod, if_neg hnot]
  exact ⟨rfl, by rw [hloop], hloop, hleib⟩

/-- C16 on the last event of a run, with `iter = 0x07000000 - 100`, where no
denominator wraps, and on the event with `iter = 2^32 - 101`, where every
denominator does. -/
theorem cruncher_crunch_reports_witness :
    ((Cruncher_processing Cruncher.sample
        (ReminderEvt.sample CRUNCH_SIG (0x07000000 - 100))).status
      = QState.Q_TRAN StateFn.Cruncher_processing ∧
    (Cruncher_processing Cruncher.sample
        (ReminderEvt.sample CRUNCH_SIG (0x07000000 - 100))).trace =
      [Action.PRINTF_S "pi=%16.14f\n"
        (PrintArg.num (4 * (Cruncher.sample.sum
          + Finset.sum (Finset.Icc (0x07000000 - 100) (0x07000000 - 100 + 99))
            (fun k => (-1 : ℚ) ^ k / (((2 * k + 1) % 2 ^ 32 : Nat) : ℚ)))))] ∧
    (Cruncher_processing Cruncher.sample
        (ReminderEvt.sample CRUNCH_SIG (0x07000000 - 100))).me.sum =
      Cruncher.sample.sum
        + Finset.sum (Finset.Icc (0x07000000 - 100) (0x07000000 - 100 + 99))
          (fun k => (-1 : ℚ) ^ k / (((2 * k + 1) % 2 ^ 32 : Nat) : ℚ)) ∧
    (Cruncher_processing Cruncher.sample
        (ReminderEvt.sample CRUNCH_SIG (0x07000000 - 100))).me.sum =
      Cruncher.sample.sum
        + Finset.sum (Finset.Icc (0x07000000 - 100) (0x07000000 - 100 + 99)) leibnizTerm) ∧
    ((Cruncher_processing Cruncher.sample
        (ReminderEvt.sample CRUNCH_SIG (2 ^ 32 - 101))).status
      = QState.Q_TRAN StateFn.Cruncher_processing ∧
    (Cruncher_processing Cruncher.sample
        (ReminderEvt.sample CRUNCH_SIG (2 ^ 32 - 101))).me.sum =
      Cruncher.sample.sum
        + Finset.sum (Finset.Icc (2 ^ 32 - 101) (2 ^ 32 - 101 + 99))
          (fun k => (-1 : ℚ) ^ k / (((2 * k + 1) % 2 ^ 32 : Nat) : ℚ))) :=
  have a := cruncher_crunch_reports Cruncher.sample
    (ReminderEvt.sample CRUNCH_SIG (0x07000000 - 100)) (by decide) (by decide) (by decide)
  have b := cruncher_crunch_reports Cruncher.sample
    (ReminderEvt.sample CRUNCH_SIG (2 ^ 32 - 101)) (by decide) (by decide) (by decide)
  ⟨⟨a.1, a.2.1, a.2.2.1, a.2.2.2 (by decide)⟩, b.1, b.2.2.1⟩

/-- C17. For every prior `sum`, `Cruncher_processing` on `Q_ENTRY_SIG` sets
`sum` to 0, allocates one `CRUNCH_SIG` event with `iter = 0` and posts it to
the actor itself, and returns `Q_HANDLED()`; and `Cruncher_initial` returns
`Q_TRAN(&Cruncher_processing)`. -/
theorem cruncher_entry_restarts (me : Cruncher) (e : ReminderEvt)
    (hsig : e.super.sig = QSignal.Q_ENTRY_SIG) :
    Cruncher_processing me e =
      { status := QState.Q_HANDLED
        me := ⟨0⟩
        trace := [Action.Q_NEW CRUNCH_SIG,
                  Action.QACTIVE_POST ActorRef.me (EvtRef.allocated CRUNCH_SIG 0)] } ∧
    Cruncher_initial me = QState.Q_TRAN StateFn.Cruncher_processing := by
  unfold Cruncher_processing
  rw [if_pos hsig]
  exact ⟨rfl, rfl⟩

/-- C17 on the sample object, whose `sum` is not 0. -/
theorem cruncher_entry_restarts_witness :
    Cruncher_processing Cruncher.sample (ReminderEvt.sample QSignal.Q_ENTRY_SIG 7) =
      { status := QState.Q_HANDLED
        me := ⟨0⟩
        trace := [Action.Q_NEW CRUNCH_SIG,
                  Action.QACTIVE_POST ActorRef.me (EvtRef.allocated CRUNCH_SIG 0)] } ∧
    Cruncher_initial Cruncher.sample = QState.Q_TRAN StateFn.Cruncher_processing :=
  cruncher_entry_restarts Cruncher.sample (ReminderEvt.sample QSignal.Q_ENTRY_SIG 7) rfl

/-- C18, as stated, fails in the final state: `Cruncher_final` has no case for
`ECHO_SIG`; it answers `Q_SUPER(&QHsm_top)`, the top state ignores the event,
and nothing is printed. -/
theorem cruncher_final_echo_silent :
    Cruncher_final Cruncher.sample (ReminderEvt.sample ECHO_SIG 0)
      = ⟨QState.Q_SUPER StateFn.QHsm_top, Cruncher.sample, []⟩ ∧
    handle StateFn.Cruncher_final Cruncher.sample (ReminderEvt.sample ECHO_SIG 0)
      = ⟨QState.Q_IGNORED, Cruncher.sample, []⟩ :=
  ⟨rfl, rfl⟩

/-- C18, amended. In the processing state, for every value of `sum`, handling
an `ECHO_SIG` event prints 4 times `sum`, makes no other call, leaves `sum`
as it is and returns `Q_HANDLED()`; in the final state an `ECHO_SIG` event is
passed to `QHsm_top` and ignored: nothing is printed and `sum` is left as it
is. -/
theorem cruncher_echo (me : Cruncher) (e : ReminderEvt) (hsig : e.super.sig = ECHO_SIG) :
    (Cruncher_processing me e =
        ⟨QState.Q_HANDLED, me,
          [Action.PRINTF_S "Echo! pi=%16.14f\n" (PrintArg.num (4 * me.sum))]⟩ ∧
      handle StateFn.Cruncher_processing me e = Cruncher_processing me e) ∧
    (Cruncher_final me e = ⟨QState.Q_SUPER StateFn.QHsm_top, me, []⟩ ∧
      handle StateFn.Cruncher_final me e = ⟨QState.Q_IGNORED, me, []⟩) := by
  have h1 : ¬ e.super.sig = QSignal.Q_ENTRY_SIG := by rw [hsig]; decide
  have h2 : ¬ e.super.sig = CRUNCH_SIG := by rw [hsig]; decide
  have hp : Cruncher_processing me e =
      ⟨QState.Q_HANDLED, me,
        [Action.PRINTF_S "Echo! pi=%16.14f\n" (PrintArg.num (4 * me.sum))]⟩ := by
    unfold Cruncher_processing
    rw [if_neg h1, if_neg h2, if_pos hsig]
  have hf : Cruncher_final me e = ⟨QState.Q_SUPER StateFn.QHsm_top, me, []⟩ := by
    unfold Cruncher_final
    rw [if_neg h1]
  refine ⟨⟨hp, ?_⟩, hf, ?_⟩
  · simp only [handle, handlerOf, hp]
  · simp only [handle, handlerOf, hf, QHsm_top, List.append_nil]

/-- C18, amended, on the sample object. -/
theorem cruncher_echo_witness :
    (Cruncher_processing Cruncher.sample (ReminderEvt.sample ECHO_SIG 0) =
        ⟨QState.Q_HANDLED, Cruncher.sample,
          [Action.PRINTF_S "Echo! pi=%16.14f\n"
            (PrintArg.num (4 * Cruncher.sample.sum))]⟩ ∧
      handle StateFn.Cruncher_processing Cruncher.sample (ReminderEvt.sample ECHO_SIG 0)
        = Cruncher_processing Cruncher.sample (ReminderEvt.sample ECHO_SIG 0)) ∧
    (Cruncher_final Cruncher.sample (ReminderEvt.sample ECHO_SIG 0)
        = ⟨QState.Q_SUPER StateFn.QHsm_top, Cruncher.sample, []⟩ ∧
      handle StateFn.Cruncher_final Cruncher.sample (ReminderEvt.sample ECHO_SIG 0)
        = ⟨QState.Q_IGNORED, Cruncher.sample, []⟩) :=
  cruncher_echo Cruncher.sample (ReminderEvt.sample ECHO_SIG 0) rfl

/-- C19, as stated, fails in the final state: `Cruncher_final` has no case for
`TERMINATE_SIG`; it answers `Q_SUPER(&QHsm_top)`, the top state ignores the
event, and no transition is returned. -/
theorem cruncher_final_terminate_ignored :
    Cruncher_final Cruncher.sample (ReminderEvt.sample TERMINATE_SIG 0)
      = ⟨QState.Q_SUPER StateFn.QHsm_top, Cruncher.sample, []⟩ ∧
    handle StateFn.Cruncher_final Cruncher.sample (ReminderEvt.sample TERMINATE_SIG 0)
      = ⟨QState.Q_IGNORED, Cruncher.sample, []⟩ :=
  ⟨rfl, rfl⟩

/-- C19, amended. In the processing state, for every value of `sum`, handling
a `TERMINATE_SIG` event returns `Q_TRAN(&Cruncher_final)` and makes no call,
and the entry action of `Cruncher_final` calls `QF_stop`; in the final state a
`TERMINATE_SIG` event is passed to `QHsm_top` and ignored. -/
theorem cruncher_terminate (me : Cruncher) (e : ReminderEvt)
    (hsig : e.super.sig = TERMINATE_SIG) :
    (Cruncher_processing me e = ⟨QState.Q_TRAN StateFn.Cruncher_final, me, []⟩ ∧
      handle StateFn.Cruncher_processing me e
        = ⟨QState.Q_TRAN StateFn.Cruncher_final, me, []⟩ ∧
      ∀ me1 entry, entry.super.sig = QSignal.Q_ENTRY_SIG →
        Action.QF_stop ∈ (Cruncher_final me1 entry).trace) ∧
    (Cruncher_final me e = ⟨QState.Q_SUPER StateFn.QHsm_top, me, []⟩ ∧
      handle StateFn.Cruncher_final me e = ⟨QState.Q_IGNORED, me, []⟩) := by
  have h1 : ¬ e.super.sig = QSignal.Q_ENTRY_SIG := by rw [hsig]; decide
  have h2 : ¬ e.super.sig = CRUNCH_SIG := by rw [hsig]; decide
  have h3 : ¬ e.super.sig = ECHO_SIG := by rw [hsig]; decide
  have hp : Cruncher_processing me e = ⟨QState.Q_TRAN StateFn.Cruncher_final, me, []⟩ := by
    unfold Cruncher_processing
    rw [if_neg h1, if_neg h2, if_neg h3, if_pos hsig]
  have hf : Cruncher_final me e = ⟨QState.Q_SUPER StateFn.QHsm_top, me, []⟩ := by
    unfold Cruncher_final
    rw [if_neg h1]
  refine ⟨⟨hp, ?_, ?_⟩, hf, ?_⟩
  · simp only [handle, handlerOf, hp]
  · intro me1 entry hentry
    unfold Cruncher_final
    rw [if_pos hentry]
    simp
  · simp only [handle, handlerOf, hf, QHsm_top, List.append_nil]

/-- C19, amended, on the sample object. -/
theorem cruncher_terminate_witness :
    Cruncher_processing Cruncher.sample (ReminderEvt.sample TERMINATE_SIG 0)
      = ⟨QState.Q_TRAN StateFn.Cruncher_final, Cruncher.sample, []⟩ ∧
    Action.QF_stop ∈
      (Cruncher_final Cruncher.sample (ReminderEvt.sample QSignal.Q_ENTRY_SIG 0)).trace :=
  ⟨(cruncher_terminate Cruncher.sample (ReminderEvt.sample TERMINATE_SIG 0) rfl).1.1,
   (cruncher_terminate Cruncher.sample (ReminderEvt.sample TERMINATE_SIG 0) rfl).1.2.2
     Cruncher.sample (ReminderEvt.sample QSignal.Q_ENTRY_SIG 0) rfl⟩

/-- C20. `Cruncher_final` on `Q_ENTRY_SIG` prints the notice `final-ENTRY;`,
calls `QF_stop` exactly once, posts no event, leaves `sum` as it is and
returns `Q_HANDLED()`. -/
theorem cruncher_final_entry_stops (me : Cruncher) (e : ReminderEvt)
    (hsig : e.super.sig = QSignal.Q_ENTRY_SIG) :
    Cruncher_final me e =
      ⟨QState.Q_HANDLED, me,
        [Action.PRINTF_S "%s\n" (PrintArg.str "final-ENTRY;"), Action.QF_stop]⟩ ∧
    (Cruncher_final me e).trace.count Action.QF_stop = 1 ∧
    (∀ target ev, Action.QACTIVE_POST target ev ∉ (Cruncher_final me e).trace) ∧
    (Cruncher_final me e).me.sum = me.sum := by
  have hf : Cruncher_final me e =
      ⟨QState.Q_HANDLED, me,
        [Action.PRINTF_S "%s\n" (PrintArg.str "final-ENTRY;"), Action.QF_stop]⟩ := by
    unfold Cruncher_final
    rw [if_pos hsig]
  rw [hf]
  refine ⟨rfl, by simp, ?_, rfl⟩
  intro target ev
  simp

/-- C20 on the sample object. -/
theorem cruncher_final_entry_stops_witness :
    Cruncher_final Cruncher.sample (ReminderEvt.sample QSignal.Q_ENTRY_SIG 0) =
      ⟨QState.Q_HANDLED, Cruncher.sample,
        [Action.PRINTF_S "%s\n" (PrintArg.str "final-ENTRY;"), Action.QF_stop]⟩ :=
  (cruncher_final_entry_stops Cruncher.sample (ReminderEvt.sample QSignal.Q_ENTRY_SIG 0)
    rfl).1

/-! ## Sequences of insertions and removals -/

namespace Words

theorem testBit_ins (f : Nat → Nat) (n i j : Nat) :
    ((ins f n) i).testBit j =
      if i = (n - 1) / 32 then
        (decide (j < 32) && (decide (j = (n - 1) % 32) || (f i).testBit j))
      else (f i).testBit j := by
  have hb : (n - 1) % 32 < 32 := Nat.mod_lt _ (by decide)
  unfold ins
  by_cases h : i = (n - 1) / 32
  · subst h
    rw [Function.update_same, if_pos rfl]
    by_cases hj : j < 32
    · rw [testBit_or_mask hb hj]; simp [hj]
    · unfold castBits
      rw [Nat.testBit_mod_two_pow]; simp [hj]
  · rw [Function.update_noteq h, if_neg h]

theorem testBit_rem (f : Nat → Nat) (n i j : Nat) :
    ((rem f n) i).testBit j =
      if i = (n - 1) / 32 then
        (decide (j < 32) && (!decide (j = (n - 1) % 32) && (f i).testBit j))
      else (f i).testBit j := by
  have hb : (n - 1) % 32 < 32 := Nat.mod_lt _ (by decide)
  unfold rem
  by_cases h : i = (n - 1) / 32
  · subst h
    rw [Function.update_same, if_pos rfl]
    by_cases hj : j < 32
    · rw [testBit_and_mask hb hj]; simp [hj]
    · unfold castBits
      rw [Nat.testBit_mod_two_pow]; simp [hj]
  · rw [Function.update_noteq h, if_neg h]

theorem ext_testBit {f g : Nat → Nat} (h : ∀ i j, (f i).testBit j = (g i).testBit j) :
    f = g :=
  funext fun i => Nat.eq_of_testBit_eq (h i)

theorem rem_ins_eq_rem (f : Nat → Nat) (n : Nat) : rem (ins f n) n = rem f n := by
  apply ext_testBit
  intro i j
  rw [testBit_rem, testBit_rem, testBit_ins]
  by_cases h : i = (n - 1) / 32
  · simp only [h, if_true]
    by_cases hj : j = (n - 1) % 32 <;> simp [hj]
  · simp only [h, if_false]

theorem rem_ins_comm (f : Nat → Nat) {n m : Nat} (hn : 1 ≤ n) (hm : 1 ≤ m) (hne : n ≠ m) :
    rem (ins f n) m = ins (rem f m) n := by
  apply ext_testBit
  intro i j
  rw [testBit_rem, testBit_ins, testBit_ins, testBit_rem]
  have key : ¬ ((n - 1) / 32 = (m - 1) / 32 ∧ (n - 1) % 32 = (m - 1) % 32) := by omega
  generalize (n - 1) / 32 = wn at key ⊢
  generalize (m - 1) / 32 = wm at key ⊢
  generalize (n - 1) % 32 = bn at key ⊢
  generalize (m - 1) % 32 = bm at key ⊢
  generalize (f i).testBit j = t
  by_cases h1 : i = wn <;> by_cases h2 : i = wm <;> by_cases h3 : j = bn <;>
    by_cases h4 : j = bm <;> cases t <;> simp_all

theorem ins_ins_comm (f : Nat → Nat) (n m : Nat) : ins (ins f n) m = ins (ins f m) n := by
  apply ext_testBit
  intro i j
  rw [testBit_ins, testBit_ins, testBit_ins, testBit_ins]
  generalize (n - 1) / 32 = wn
  generalize (m - 1) / 32 = wm
  generalize (n - 1) % 32 = bn
  generalize (m - 1) % 32 = bm
  generalize (f i).testBit j = t
  by_cases h1 : i = wn <;> by_cases h2 : i = wm <;> by_cases h3 : j = bn <;>
    by_cases h4 : j = bm <;> cases t <;> simp_all

theorem rem_rem_comm (f : Nat → Nat) (n m : Nat) : rem (rem f n) m = rem (rem f m) n := by
  apply ext_testBit
  intro i j
  rw [testBit_rem, testBit_rem, testBit_rem, testBit_rem]
  generalize (n - 1) / 32 = wn
  generalize (m - 1) / 32 = wm
  generalize (n - 1) % 32 = bn
  generalize (m - 1) % 32 = bm
  generalize (f i).testBit j = t
  by_cases h1 : i = wn <;> by_cases h2 : i = wm <;> by_cases h3 : j = bn <;>
    by_cases h4 : j = bm <;> cases t <;> simp_all

end Words

namespace V32

theorem eq_of_bits_v32 {a b : QPSet} (h : a.bits = b.bits) : a = b := by
  cases a; cases b; cases h; rfl

theorem testBit_insert_all_v32 {w : Nat} (hw : w ≤ 32) (s : QPSet) {n : Nat} (h1 : 1 ≤ n)
    (h2 : n ≤ w) (j : Nat) :
    (QPSet_insert w s n).bits.testBit j
      = (decide (j < w) && (decide (j = n - 1) || s.bits.testBit j)) := by
  by_cases hj : j < w
  · rw [testBit_insert_v32 hw s h1 h2 hj]; simp [hj]
  · have h3 : (2 : Nat) ^ w ≤ 2 ^ j := Nat.pow_le_pow_right (by decide) (by omega)
    have : (QPSet_insert w s n).bits < 2 ^ j :=
      Nat.lt_of_lt_of_le (castBits_lt w _) h3
    rw [Nat.testBit_lt_two_pow this]; simp [hj]

theorem testBit_remove_all_v32 {w : Nat} (hw : w ≤ 32) (s : QPSet) {n : Nat} (h1 : 1 ≤ n)
    (h2 : n ≤ w) (j : Nat) :
    (QPSet_remove w s n).bits.testBit j
      = (decide (j < w) && (!decide (j = n - 1) && s.bits.testBit j)) := by
  by_cases hj : j < w
  · rw [testBit_remove_v32 hw s h1 h2 hj]; simp [hj]
  · have h3 : (2 : Nat) ^ w ≤ 2 ^ j := Nat.pow_le_pow_right (by decide) (by omega)
    have : (QPSet_remove w s n).bits < 2 ^ j :=
      Nat.lt_of_lt_of_le (castBits_lt w _) h3
    rw [Nat.testBit_lt_two_pow this]; simp [hj]

theorem remove_insert_eq_remove_v32 {w : Nat} (hw : w ≤ 32) (s : QPSet) {n : Nat} (h1 : 1 ≤ n)
    (h2 : n ≤ w) : QPSet_remove w (QPSet_insert w s n) n = QPSet_remove w s n := by
  apply eq_of_bits_v32
  apply Nat.eq_of_testBit_eq
  intro j
  rw [testBit_remove_all_v32 hw _ h1 h2, testBit_remove_all_v32 hw _ h1 h2,
    testBit_insert_all_v32 hw _ h1 h2]
  by_cases hj : j = n - 1 <;> simp [hj]

theorem commute_v32 {w : Nat} (hw : w ≤ 32) (s : QPSet) {n m : Nat} (h1 : 1 ≤ n) (h2 : n ≤ w)
    (h3 : 1 ≤ m) (h4 : m ≤ w) (hne : n ≠ m) :
    OperationsCommute (QPSet_insert w) (QPSet_remove w) s n m := by
  have key : n - 1 ≠ m - 1 := by omega
  refine ⟨?_, ?_, ?_⟩ <;> apply eq_of_bits_v32 <;> apply Nat.eq_of_testBit_eq <;> intro j
  · rw [testBit_remove_all_v32 hw _ h3 h4, testBit_insert_all_v32 hw _ h1 h2,
      testBit_insert_all_v32 hw _ h1 h2, testBit_remove_all_v32 hw _ h3 h4]
    generalize s.bits.testBit j = t
    by_cases a : j = n - 1 <;> by_cases b : j = m - 1 <;> by_cases c : j < w <;>
      cases t <;> simp_all
  · rw [testBit_insert_all_v32 hw _ h3 h4, testBit_insert_all_v32 hw _ h1 h2,
      testBit_insert_all_v32 hw _ h1 h2, testBit_insert_all_v32 hw _ h3 h4]
    generalize s.bits.testBit j = t
    by_cases a : j = n - 1 <;> by_cases b : j = m - 1 <;> by_cases c : j < w <;>
      cases t <;> simp_all
  · rw [testBit_remove_all_v32 hw _ h3 h4, testBit_remove_all_v32 hw _ h1 h2,
      testBit_remove_all_v32 hw _ h1 h2, testBit_remove_all_v32 hw _ h3 h4]
    generalize s.bits.testBit j = t
    by_cases a : j = n - 1 <;> by_cases b : j = m - 1 <;> by_cases c : j < w <;>
      cases t <;> simp_all

theorem insertThenRemove_v32 {w : Nat} (hw : w ≤ 32) (s : QPSet) (hs : WF w s) {n : Nat}
    (h1 : 1 ≤ n) (h2 : n ≤ w) :
    InsertThenRemove QPSet_hasElement (QPSet_insert w) (QPSet_remove w) s n := by
  refine ⟨remove_insert_eq_remove_v32 hw s h1 h2, ?_, fun h => remove_insert_cancel_v32 hw s hs h1 h2 h⟩
  intro h
  have h5 := (sound_v32 hw).has_rem (QPSet_insert w s n) n n h1 h2 h1 h2
  rw [h] at h5
  simpa using h5

end V32

namespace V64

theorem remove_insert_eq_remove_v64 (s : QPSet) {n : Nat} (h1 : 1 ≤ n) (h2 : n ≤ 64) :
    QPSet_remove (QPSet_insert s n) n = QPSet_remove s n := by
  apply eq_of_bits_v64
  rw [remove_bits_v64 _ h1 h2, insert_bits_v64 _ h1 h2, remove_bits_v64 _ h1 h2]
  exact Words.rem_ins_eq_rem s.bits n

theorem commute_v64 (s : QPSet) {n m : Nat} (h1 : 1 ≤ n) (h2 : n ≤ 64) (h3 : 1 ≤ m)
    (h4 : m ≤ 64) (hne : n ≠ m) : OperationsCommute QPSet_insert QPSet_remove s n m := by
  refine ⟨?_, ?_, ?_⟩ <;> apply eq_of_bits_v64
  · rw [remove_bits_v64 _ h3 h4, insert_bits_v64 _ h1 h2, insert_bits_v64 _ h1 h2, remove_bits_v64 _ h3 h4]
    exact Words.rem_ins_comm s.bits h1 h3 hne
  · rw [insert_bits_v64 _ h3 h4, insert_bits_v64 _ h1 h2, insert_bits_v64 _ h1 h2, insert_bits_v64 _ h3 h4]
    exact Words.ins_ins_comm s.bits n m
  · rw [remove_bits_v64 _ h3 h4, remove_bits_v64 _ h1 h2, remove_bits_v64 _ h1 h2, remove_bits_v64 _ h3 h4]
    exact Words.rem_rem_comm s.bits n m

theorem insertThenRemove_v64 (s : QPSet) (hs : WF s) {n : Nat} (h1 : 1 ≤ n) (h2 : n ≤ 64) :
    InsertThenRemove QPSet_hasElement QPSet_insert QPSet_remove s n := by
  refine ⟨remove_insert_eq_remove_v64 s h1 h2, ?_, fun h => remove_insert_cancel_v64 s hs h1 h2 h⟩
  intro h
  have h5 := sound_v64.has_rem (QPSet_insert s n) n n h1 h2 h1 h2
  rw [h] at h5
  simpa using h5

end V64

namespace V256

theorem remove_insert_eq_remove_v256 (s : QPSet) {n : Nat} (h1 : 1 ≤ n) (h2 : n ≤ 256) :
    QPSet_remove (QPSet_insert s n) n = QPSet_remove s n := by
  apply eq_of_bits_v256
  rw [remove_bits_v256 _ h1 h2, insert_bits_v256 _ h1 h2, remove_bits_v256 _ h1 h2]
  exact Words.rem_ins_eq_rem s.bits n

theorem commute_v256 (s : QPSet) {n m : Nat} (h1 : 1 ≤ n) (h2 : n ≤ 256) (h3 : 1 ≤ m)
    (h4 : m ≤ 256) (hne : n ≠ m) : OperationsCommute QPSet_insert QPSet_remove s n m := by
  refine ⟨?_, ?_, ?_⟩ <;> apply eq_of_bits_v256
  · rw [remove_bits_v256 _ h3 h4, insert_bits_v256 _ h1 h2, insert_bits_v256 _ h1 h2, remove_bits_v256 _ h3 h4]
    exact Words.rem_ins_comm s.bits h1 h3 hne
  · rw [insert_bits_v256 _ h3 h4, insert_bits_v256 _ h1 h2, insert_bits_v256 _ h1 h2, insert_bits_v256 _ h3 h4]
    exact Words.ins_ins_comm s.bits n m
  · rw [remove_bits_v256 _ h3 h4, remove_bits_v256 _ h1 h2, remove_bits_v256 _ h1 h2, remove_bits_v256 _ h3 h4]
    exact Words.rem_rem_comm s.bits n m

theorem insertThenRemove_v256 (s : QPSet) (hs : WF s) {n : Nat} (h1 : 1 ≤ n) (h2 : n ≤ 256) :
    InsertThenRemove QPSet_hasElement QPSet_insert QPSet_remove s n := by
  refine ⟨remove_insert_eq_remove_v256 s h1 h2, ?_, fun h => remove_insert_cancel_v256 s hs h1 h2 h⟩
  intro h
  have h5 := sound_v256.has_rem (QPSet_insert s n) n n h1 h2 h1 h2
  rw [h] at h5
  simpa using h5

end V256

namespace V1024

theorem remove_insert_eq_remove_v1024 (s : QPSet) {n : Nat} (h1 : 1 ≤ n) (h2 : n ≤ 1024) :
    QPSet_remove (QPSet_insert s n) n = QPSet_remove s n := by
  apply eq_of_bits_v1024
  rw [remove_bits_v1024 _ h1 h2, insert_bits_v1024 _ h1 h2, remove_bits_v1024 _ h1 h2]
  exact Words.rem_ins_eq_rem s.bits n

theorem commute_v1024 (s : QPSet) {n m : Nat} (h1 : 1 ≤ n) (h2 : n ≤ 1024) (h3 : 1 ≤ m)
    (h4 : m ≤ 1024) (hne : n ≠ m) : OperationsCommute QPSet_insert QPSet_remove s n m := by
  refine ⟨?_, ?_, ?_⟩ <;> apply eq_of_bits_v1024
  · rw [remove_bits_v1024 _ h3 h4, insert_bits_v1024 _ h1 h2, insert_bits_v1024 _ h1 h2, remove_bits_v1024 _ h3 h4]
    exact Words.rem_ins_comm s.bits h1 h3 hne
  · rw [insert_bits_v1024 _ h3 h4, insert_bits_v1024 _ h1 h2, insert_bits_v1024 _ h1 h2, insert_bits_v1024 _ h3 h4]
    exact Words.ins_ins_comm s.bits n m
  · rw [remove_bits_v1024 _ h3 h4, remove_bits_v1024 _ h1 h2, remove_bits_v1024 _ h1 h2, remove_bits_v1024 _ h3 h4]
    exact Words.rem_rem_comm s.bits n m

theorem insertThenRemove_v1024 (s : QPSet) (hs : WF s) {n : Nat} (h1 : 1 ≤ n) (h2 : n ≤ 1024) :
    InsertThenRemove QPSet_hasElement QPSet_insert QPSet_remove s n := by
  refine ⟨remove_insert_eq_remove_v1024 s h1 h2, ?_, fun h => remove_insert_cancel_v1024 s hs h1 h2 h⟩
  intro h
  have h5 := sound_v1024.has_rem (QPSet_insert s n) n n h1 h2 h1 h2
  rw [h] at h5
  simpa using h5

end V1024

/-! ## Delegation, domains, round trips, commutation, the keyboard -/

/-- C21. For every signal other than `Q_ENTRY_SIG`, `CRUNCH_SIG`, `ECHO_SIG` and
`TERMINATE_SIG`, `Cruncher_processing` returns `Q_SUPER(&QHsm_top)`, and for
every signal other than `Q_ENTRY_SIG`, `Cruncher_final` returns
`Q_SUPER(&QHsm_top)`; in both cases `sum` is left as it is and no call is
made: nothing is posted and nothing is printed. -/
theorem cruncher_unhandled_delegated (me : Cruncher) (e : ReminderEvt) :
    (e.super.sig ≠ QSignal.Q_ENTRY_SIG → e.super.sig ≠ CRUNCH_SIG →
      e.super.sig ≠ ECHO_SIG → e.super.sig ≠ TERMINATE_SIG →
      Cruncher_processing me e = ⟨QState.Q_SUPER StateFn.QHsm_top, me, []⟩) ∧
    (e.super.sig ≠ QSignal.Q_ENTRY_SIG →
      Cruncher_final me e = ⟨QState.Q_SUPER StateFn.QHsm_top, me, []⟩) := by
  constructor
  · intro h1 h2 h3 h4
    unfold Cruncher_processing
    rw [if_neg h1, if_neg h2, if_neg h3, if_neg h4]
  · intro h1
    unfold Cruncher_final
    rw [if_neg h1]

/-- C21 on the lifecycle signal `Q_EXIT_SIG` and on the user signal after
`TERMINATE_SIG`. -/
theorem cruncher_unhandled_delegated_witness :
    Cruncher_processing Cruncher.sample (ReminderEvt.sample QSignal.Q_EXIT_SIG 0)
      = ⟨QState.Q_SUPER StateFn.QHsm_top, Cruncher.sample, []⟩ ∧
    Cruncher_processing Cruncher.sample (ReminderEvt.sample (QSignal.user 3) 0)
      = ⟨QState.Q_SUPER StateFn.QHsm_top, Cruncher.sample, []⟩ ∧
    Cruncher_final Cruncher.sample (ReminderEvt.sample CRUNCH_SIG 0)
      = ⟨QState.Q_SUPER StateFn.QHsm_top, Cruncher.sample, []⟩ :=
  ⟨(cruncher_unhandled_delegated Cruncher.sample
      (ReminderEvt.sample QSignal.Q_EXIT_SIG 0)).1 (by decide) (by decide) (by decide)
      (by decide),
   (cruncher_unhandled_delegated Cruncher.sample
      (ReminderEvt.sample (QSignal.user 3) 0)).1 (by decide) (by decide) (by decide)
      (by decide),
   (cruncher_unhandled_delegated Cruncher.sample
      (ReminderEvt.sample CRUNCH_SIG 0)).2 (by decide)⟩

/-- C22 fails in the 1024-element variant.  The empty set and the empty set
followed in memory by a non-zero word agree on all 32 words of the array, yet
`QPSet_isEmpty` tells them apart: its result depends on `bits[32]`, an index
outside `0..31`.  And its result never depends on `bits[7]`: whatever is
stored there, the result is the same, so that word of the array is not
examined. -/
theorem qpset_isEmpty_1024_index_outside_array :
    ((∀ i, i < 32 → V1024.empty.bits i = V1024.emptyBeforeNonZero.bits i) ∧
      V1024.QPSet_isEmpty V1024.empty = true ∧
      V1024.QPSet_isEmpty V1024.emptyBeforeNonZero = false) ∧
    (∀ (s : V1024.QPSet) (v : Nat),
      V1024.QPSet_isEmpty (s.store 7 v) = V1024.QPSet_isEmpty s) := by
  refine ⟨by decide, fun s v => ?_⟩
  rw [Bool.eq_iff_iff, V1024.isEmpty_iff_v1024, V1024.isEmpty_iff_v1024]
  have hb : ∀ i, i ≠ 7 → (s.store 7 v).bits i = s.bits i := fun i h7 =>
    Function.update_noteq h7 _ _
  constructor
  · intro h i hi h7
    rw [← hb i h7]
    exact h i hi h7
  · intro h i hi h7
    rw [hb i h7]
    exact h i hi h7

/-- C23. In every variant, for every state `s` and every `n` in `1..N`,
`QPSet_insert(n)` followed by `QPSet_remove(n)` yields exactly the state that
`QPSet_remove(n)` alone yields from `s`, and that state is `s` itself if and
only if `QPSet_hasElement(n)` was false in `s`. -/
theorem qpset_insert_then_remove :
    (∀ w, (w = 8 ∨ w = 16 ∨ w = 32) → ∀ s, V32.WF w s → ∀ n, 1 ≤ n → n ≤ w →
      InsertThenRemove V32.QPSet_hasElement (V32.QPSet_insert w) (V32.QPSet_remove w) s n) ∧
    (∀ s, V64.WF s → ∀ n, 1 ≤ n → n ≤ 64 →
      InsertThenRemove V64.QPSet_hasElement V64.QPSet_insert V64.QPSet_remove s n) ∧
    (∀ s, V256.WF s → ∀ n, 1 ≤ n → n ≤ 256 →
      InsertThenRemove V256.QPSet_hasElement V256.QPSet_insert V256.QPSet_remove s n) ∧
    (∀ s, V1024.WF s → ∀ n, 1 ≤ n → n ≤ 1024 →
      InsertThenRemove V1024.QPSet_hasElement V1024.QPSet_insert V1024.QPSet_remove s n) :=
  ⟨fun _ hw s hs _ h1 h2 => V32.insertThenRemove_v32 (width_le hw) s hs h1 h2,
   fun s hs _ h1 h2 => V64.insertThenRemove_v64 s hs h1 h2,
   fun s hs _ h1 h2 => V256.insertThenRemove_v256 s hs h1 h2,
   fun s hs _ h1 h2 => V1024.insertThenRemove_v1024 s hs h1 h2⟩

/-- C23 on the sample states at the element 3, which each of them has. -/
theorem qpset_insert_then_remove_witness :
    InsertThenRemove V32.QPSet_hasElement (V32.QPSet_insert 32) (V32.QPSet_remove 32)
      V32.sample 3 ∧
    InsertThenRemove V64.QPSet_hasElement V64.QPSet_insert V64.QPSet_remove V64.sample 3 ∧
    InsertThenRemove V256.QPSet_hasElement V256.QPSet_insert V256.QPSet_remove
      V256.sample 3 ∧
    InsertThenRemove V1024.QPSet_hasElement V1024.QPSet_insert V1024.QPSet_remove
      V1024.sample 3 :=
  ⟨qpset_insert_then_remove.1 32 (by decide) V32.sample (by decide) 3 (by decide)
      (by decide),
   qpset_insert_then_remove.2.1 V64.sample (by decide) 3 (by decide) (by decide),
   qpset_insert_then_remove.2.2.1 V256.sample (by decide) 3 (by decide) (by decide),
   qpset_insert_then_remove.2.2.2 V1024.sample (by decide) 3 (by decide) (by decide)⟩

/-- C24. In every variant, for every state and all `n` different from `m` in
`1..N`: `QPSet_insert(n)` then `QPSet_remove(m)` gives the same state as
`QPSet_remove(m)` then `QPSet_insert(n)`, and likewise the two insertions and
the two removals give the same state in either order. -/
theorem qpset_operations_commute :
    (∀ w, (w = 8 ∨ w = 16 ∨ w = 32) → ∀ s n m, 1 ≤ n → n ≤ w → 1 ≤ m → m ≤ w → n ≠ m →
      OperationsCommute (V32.QPSet_insert w) (V32.QPSet_remove w) s n m) ∧
    (∀ s n m, 1 ≤ n → n ≤ 64 → 1 ≤ m → m ≤ 64 → n ≠ m →
      OperationsCommute V64.QPSet_insert V64.QPSet_remove s n m) ∧
    (∀ s n m, 1 ≤ n → n ≤ 256 → 1 ≤ m → m ≤ 256 → n ≠ m →
      OperationsCommute V256.QPSet_insert V256.QPSet_remove s n m) ∧
    (∀ s n m, 1 ≤ n → n ≤ 1024 → 1 ≤ m → m ≤ 1024 → n ≠ m →
      OperationsCommute V1024.QPSet_insert V1024.QPSet_remove s n m) :=
  ⟨fun _ hw s _ _ h1 h2 h3 h4 hne => V32.commute_v32 (width_le hw) s h1 h2 h3 h4 hne,
   fun s _ _ h1 h2 h3 h4 hne => V64.commute_v64 s h1 h2 h3 h4 hne,
   fun s _ _ h1 h2 h3 h4 hne => V256.commute_v256 s h1 h2 h3 h4 hne,
   fun s _ _ h1 h2 h3 h4 hne => V1024.commute_v1024 s h1 h2 h3 h4 hne⟩

/-- C24 on the sample states, for two elements of one word (3 and 4) in the
single word and for elements of the first and of the last word in the arrays. -/
theorem qpset_operations_commute_witness :
    OperationsCommute (V32.QPSet_insert 32) (V32.QPSet_remove 32) V32.sample 4 3 ∧
    OperationsCommute V64.QPSet_insert V64.QPSet_remove V64.sample 64 3 ∧
    OperationsCommute V256.QPSet_insert V256.QPSet_remove V256.sample 4 3 ∧
    OperationsCommute V1024.QPSet_insert V1024.QPSet_remove V1024.sample 1024 3 :=
  ⟨qpset_operations_commute.1 32 (by decide) V32.sample 4 3 (by decide) (by decide)
      (by decide) (by decide) (by decide),
   qpset_operations_commute.2.1 V64.sample 64 3 (by decide) (by decide) (by decide)
      (by decide) (by decide),
   qpset_operations_commute.2.2.1 V256.sample 4 3 (by decide) (by decide) (by decide)
      (by decide) (by decide),
   qpset_operations_commute.2.2.2 V1024.sample 1024 3 (by decide) (by decide) (by decide)
      (by decide) (by decide)⟩

/-- C25. For every key value in `0..255`, `BSP_onKeyboardInput` posts to the
Cruncher actor exactly one event, the static `echoEvt` with signal `ECHO_SIG`,
when the key is `'e'`; exactly one event, the static `terminateEvt` with
signal `TERMINATE_SIG`, when the key is ESC (octal 033, that is 27); and makes
no call for any other key.  Both events have pool 0 and reference count 0,
and no event is allocated. -/
theorem bsp_keyboard_posts (key : Nat) (hkey : key < 256) :
    ('e'.toNat = 101 ∧ 0o33 = 27) ∧
    (key = 'e'.toNat →
      BSP_onKeyboardInput key =
        [Action.QACTIVE_POST ActorRef.l_cruncher (EvtRef.static ⟨ECHO_SIG, 0, 0⟩)]) ∧
    (key = 0o33 →
      BSP_onKeyboardInput key =
        [Action.QACTIVE_POST ActorRef.l_cruncher (EvtRef.static ⟨TERMINATE_SIG, 0, 0⟩)]) ∧
    (key ≠ 'e'.toNat → key ≠ 0o33 → BSP_onKeyboardInput key = []) ∧
    (∀ sig, Action.Q_NEW sig ∉ BSP_onKeyboardInput key) ∧
    (∀ target sig iter,
      Action.QACTIVE_POST target (EvtRef.allocated sig iter) ∉ BSP_onKeyboardInput key) := by
  have he : 'e'.toNat = 101 := by decide
  have hesc : 0o33 = 27 := by decide
  rw [he, hesc]
  refine ⟨⟨rfl, rfl⟩, ?_, ?_, ?_, ?_, ?_⟩
  · intro h; subst h; rfl
  · intro h; subst h; rfl
  · intro h1 h2
    unfold BSP_onKeyboardInput
    rw [if_neg h1, if_neg h2]
  · intro sig
    unfold BSP_onKeyboardInput
    split_ifs <;> simp
  · intro target sig iter
    unfold BSP_onKeyboardInput
    split_ifs <;> simp

/-- C25 on the keys `'e'`, ESC and `'q'`. -/
theorem bsp_keyboard_posts_witness :
    BSP_onKeyboardInput 'e'.toNat =
      [Action.QACTIVE_POST ActorRef.l_cruncher (EvtRef.static ⟨ECHO_SIG, 0, 0⟩)] ∧
    BSP_onKeyboardInput 0o33 =
      [Action.QACTIVE_POST ActorRef.l_cruncher (EvtRef.static ⟨TERMINATE_SIG, 0, 0⟩)] ∧
    BSP_onKeyboardInput 'q'.toNat = [] :=
  ⟨(bsp_keyboard_posts 'e'.toNat (by decide)).2.1 rfl,
   (bsp_keyboard_posts 0o33 (by decide)).2.2.1 rfl,
   (bsp_keyboard_posts 'q'.toNat (by decide)).2.2.2.1 (by decide) (by decide)⟩

end Qpc
